import Mathlib

/-!
Shallow embedding of the abstract-triangle solver family from
`src/shapes/triangle.rs` (with its collaborators `src/scalar/mod.rs` and
`src/utility/mod.rs`) of the Geometry library, specialised to the exact
real-number scalar `ℝ`.

Modelling conventions:
* The Rust code is generic over a `Scalar` trait; the claims are about its
  behaviour over real-number arithmetic, so the embedding instantiates the
  scalar with `ℝ`.  `Scalar::sqrt`, `sin`, `cos` become `Real.sqrt`,
  `Real.sin`, `Real.cos`; the domain-checked `Scalar::acos` / `Scalar::asin`
  (which return `None` outside `[-1, 1]`) become `Option`-valued functions
  built from `Real.arccos` / `Real.arcsin`.
* `Scalar::is_finite` is `True` for every real number: `ℝ` has no NaN or
  infinity, so the finiteness guards of the source are kept in the
  definitions but are vacuous.
* Rust `Result<T, E>` becomes `Except E T`; `.expect(..)` (a panic on the
  error case) becomes `expectOk : Except ε α → Option α`, `none` standing
  for the panic.
* The per-variant structs keep their field names; each accessor keeps its
  Rust name.  Accessors whose Rust type is the plain scalar `T` return `ℝ`;
  accessors typed `(T, Option<T>)` (possibly two solutions) return
  `ℝ × Option ℝ`; accessors that internally `.expect` return these wrapped
  in `Option`.
-/

set_option genSizeOf false
set_option genSizeOfSpec false
set_option genInjectivity false

namespace Geo

open scoped Classical

noncomputable section

/-- Error type of `utility::InvalidInput`. -/
inductive InvalidInput where
  | mk

/-- Error type of `shapes::triangle::InvalidTriangleError`. -/
inductive InvalidTriangleError where
  | InvalidLength
  | InvalidAngle
  | AngleTooLarge

/-- Model of `Scalar::is_finite` over `ℝ`: every real number is finite
(no NaN/infinity exist in `ℝ`). -/
def is_finite (_ : ℝ) : Prop := True

/-- Model of `Scalar::acos` over `ℝ`: `Some(acos x)` for `x ∈ [-1, 1]`,
`None` (NaN filtered out) otherwise. -/
def acos (x : ℝ) : Option ℝ :=
  if -1 ≤ x ∧ x ≤ 1 then some (Real.arccos x) else none

/-- Model of `Scalar::asin` over `ℝ`: `Some(asin x)` for `x ∈ [-1, 1]`,
`None` (NaN filtered out) otherwise. -/
def asin (x : ℝ) : Option ℝ :=
  if -1 ≤ x ∧ x ≤ 1 then some (Real.arcsin x) else none

/-- Model of Rust `Result::expect`: the value on `Ok`, `none` (panic) on `Err`. -/
def expectOk {ε α : Type} : Except ε α → Option α
  | .ok a => some a
  | .error _ => none

/-- Embedding of `shapes::triangle::chain_solution`: applies `f` to every
branch of a one-or-two solution pair.  `f` itself may panic (return `none`),
in which case the whole chained computation panics. -/
def chain_solution (s : ℝ × Option ℝ) (f : ℝ → Option ℝ) : Option (ℝ × Option ℝ) :=
  match s with
  | (x, none) => (f x).map (fun y => (y, none))
  | (x, some x') =>
    match f x, f x' with
    | some y, some y' => some (y, some y')
    | _, _ => none

/-- Embedding of `utility::MaybeTwo::map` at the pair instance
`(T, Option<T>)`: applies `k` to both contained values, preserving shape. -/
def MaybeTwo_map (p : ℝ × Option ℝ) (k : ℝ → ℝ) : ℝ × Option ℝ :=
  (k p.1, p.2.map k)

/-- The squared-area expression inside `formulas::triangle_area`:
`s * (s - a) * (s - b) * (s - c)` with semi-perimeter `s = (a + b + c) / 2`. -/
def heronSq (a b c : ℝ) : ℝ :=
  ((a + b + c) / 2) * (((a + b + c) / 2) - a) * (((a + b + c) / 2) - b) * (((a + b + c) / 2) - c)

/-- The Heron area value `√(heronSq a b c)` returned by `formulas::triangle_area`. -/
def heronArea (a b c : ℝ) : ℝ := Real.sqrt (heronSq a b c)

/-- Hypothesis bundle for the round-trip claims: a valid labelled triangle
with positive sides `a`, `b`, `c`, angles `alpha`, `beta`, `gamma` strictly
between `0` and `π`, satisfying the three law-of-cosines relations. -/
structure TriCtx (a b c alpha beta gamma : ℝ) : Prop where
  ha : 0 < a
  hb : 0 < b
  hc : 0 < c
  hα0 : 0 < alpha
  hαπ : alpha < Real.pi
  hβ0 : 0 < beta
  hβπ : beta < Real.pi
  hγ0 : 0 < gamma
  hγπ : gamma < Real.pi
  hcosα : Real.cos alpha = (b ^ 2 + c ^ 2 - a ^ 2) / (2 * b * c)
  hcosβ : Real.cos beta = (a ^ 2 + c ^ 2 - b ^ 2) / (2 * a * c)
  hcosγ : Real.cos gamma = (a ^ 2 + b ^ 2 - c ^ 2) / (2 * a * b)

namespace formulas

/-- Embedding of `formulas::triangle_area`: Heron's formula in the two-step
form, semi-perimeter first, then the square root of the product.  The `Ok`
is unconditional in the source. -/
def triangle_area (a b c : ℝ) : Except InvalidInput ℝ :=
  let s := (0.5 : ℝ) * (a + b + c)
  .ok (Real.sqrt (s * (s - a) * (s - b) * (s - c)))

end formulas

namespace law_of_sines

/-- Embedding of `law_of_sines::a_from_bαβ`. -/
def a_from_bαβ (b alpha beta : ℝ) : Except InvalidInput ℝ :=
  let v := b * (Real.sin alpha / Real.sin beta)
  if v ≥ 0 ∧ is_finite v then .ok v else .error .mk

/-- Embedding of `law_of_sines::a_from_cαγ`. -/
def a_from_cαγ (c alpha gamma : ℝ) : Except InvalidInput ℝ :=
  let v := c * (Real.sin alpha / Real.sin gamma)
  if v ≥ 0 ∧ is_finite v then .ok v else .error .mk

/-- Embedding of `law_of_sines::b_from_aαβ`. -/
def b_from_aαβ (a alpha beta : ℝ) : Except InvalidInput ℝ :=
  let v := a * (Real.sin beta / Real.sin alpha)
  if v ≥ 0 ∧ is_finite v then .ok v else .error .mk

/-- Embedding of `law_of_sines::b_from_cβγ`. -/
def b_from_cβγ (c beta gamma : ℝ) : Except InvalidInput ℝ :=
  let v := c * (Real.sin beta / Real.sin gamma)
  if v ≥ 0 ∧ is_finite v then .ok v else .error .mk

/-- Embedding of `law_of_sines::c_from_aαγ`. -/
def c_from_aαγ (a alpha gamma : ℝ) : Except InvalidInput ℝ :=
  let v := a * (Real.sin gamma / Real.sin alpha)
  if v ≥ 0 ∧ is_finite v then .ok v else .error .mk

/-- Embedding of `law_of_sines::c_from_bβγ`. -/
def c_from_bβγ (b beta gamma : ℝ) : Except InvalidInput ℝ :=
  let v := b * (Real.sin gamma / Real.sin beta)
  if v ≥ 0 ∧ is_finite v then .ok v else .error .mk

end law_of_sines

namespace law_of_cosines

/-- Embedding of `law_of_cosines::return_solutions`: the positive results of
`value ± √squared`, mirroring the source's match on the three booleans
`(one > 0, two > 0, one == two)`. -/
def return_solutions (value squared : ℝ) : Except InvalidInput (ℝ × Option ℝ) :=
  if squared < 0 ∨ ¬ is_finite value ∨ ¬ is_finite squared then
    .error .mk
  else
    let root := Real.sqrt squared
    let one := value + root
    let two := value - root
    if one > 0 ∧ ¬ two > 0 ∧ ¬ one = two then .ok (one, none)
    else if ¬ one > 0 ∧ two > 0 ∧ ¬ one = two then .ok (two, none)
    else if one > 0 ∧ two > 0 ∧ ¬ one = two then .ok (one, some two)
    else if one > 0 ∧ two > 0 ∧ one = two then .ok (one, none)
    else .error .mk

/-- Embedding of `law_of_cosines::a_from_bcα` (included angle, single-valued). -/
def a_from_bcα (b c alpha : ℝ) : Except InvalidInput ℝ :=
  let a_squared := b ^ 2 + c ^ 2 - (2 * b * c * Real.cos alpha)
  if a_squared > 0 ∧ is_finite a_squared then .ok (Real.sqrt a_squared) else .error .mk

/-- Embedding of `law_of_cosines::a_from_bcβ` (non-included angle, ambiguous). -/
def a_from_bcβ (b c beta : ℝ) : Except InvalidInput (ℝ × Option ℝ) :=
  return_solutions (c * Real.cos beta) (b ^ 2 + (c ^ 2 * (Real.cos beta) ^ 2) - c ^ 2)

/-- Embedding of `law_of_cosines::a_from_bcγ` (non-included angle, ambiguous). -/
def a_from_bcγ (b c gamma : ℝ) : Except InvalidInput (ℝ × Option ℝ) :=
  return_solutions (b * Real.cos gamma) (b ^ 2 * (Real.cos gamma) ^ 2 - b ^ 2 + c ^ 2)

/-- Embedding of `law_of_cosines::b_from_acα` (non-included angle, ambiguous). -/
def b_from_acα (a c alpha : ℝ) : Except InvalidInput (ℝ × Option ℝ) :=
  return_solutions (c * Real.cos alpha) (a ^ 2 + (c ^ 2 * (Real.cos alpha) ^ 2) - c ^ 2)

/-- Embedding of `law_of_cosines::b_from_acβ` (included angle, single-valued). -/
def b_from_acβ (a c beta : ℝ) : Except InvalidInput ℝ :=
  let b_squared := a ^ 2 + c ^ 2 - (2 * a * c * Real.cos beta)
  if b_squared > 0 ∧ is_finite b_squared then .ok (Real.sqrt b_squared) else .error .mk

/-- Embedding of `law_of_cosines::b_from_acγ` (non-included angle, ambiguous). -/
def b_from_acγ (a c gamma : ℝ) : Except InvalidInput (ℝ × Option ℝ) :=
  return_solutions (a * Real.cos gamma) (c ^ 2 + (a ^ 2 * (Real.cos gamma) ^ 2) - a ^ 2)

/-- Embedding of `law_of_cosines::c_from_abα` (non-included angle, ambiguous). -/
def c_from_abα (a b alpha : ℝ) : Except InvalidInput (ℝ × Option ℝ) :=
  return_solutions (b * Real.cos alpha) (a ^ 2 + (b ^ 2 * (Real.cos alpha) ^ 2) - b ^ 2)

/-- Embedding of `law_of_cosines::c_from_abβ` (non-included angle, ambiguous). -/
def c_from_abβ (a b beta : ℝ) : Except InvalidInput (ℝ × Option ℝ) :=
  return_solutions (a * Real.cos beta) (b ^ 2 + (a ^ 2 * (Real.cos beta) ^ 2) - a ^ 2)

/-- Embedding of `law_of_cosines::c_from_abγ` (included angle, single-valued). -/
def c_from_abγ (a b gamma : ℝ) : Except InvalidInput ℝ :=
  let c_squared := a ^ 2 + b ^ 2 - (2 * a * b * Real.cos gamma)
  if c_squared > 0 ∧ is_finite c_squared then .ok (Real.sqrt c_squared) else .error .mk

/-- Embedding of `law_of_cosines::alpha_from_abc`. -/
def alpha_from_abc (a b c : ℝ) : Except InvalidInput ℝ :=
  match acos ((-a ^ 2 + b ^ 2 + c ^ 2) / (2 * b * c)) with
  | some v => .ok v
  | none => .error .mk

/-- Embedding of `law_of_cosines::beta_from_abc`. -/
def beta_from_abc (a b c : ℝ) : Except InvalidInput ℝ :=
  match acos ((a ^ 2 - b ^ 2 + c ^ 2) / (2 * a * c)) with
  | some v => .ok v
  | none => .error .mk

/-- Embedding of `law_of_cosines::gamma_from_abc`. -/
def gamma_from_abc (a b c : ℝ) : Except InvalidInput ℝ :=
  match acos ((a ^ 2 + b ^ 2 - c ^ 2) / (2 * a * b)) with
  | some v => .ok v
  | none => .error .mk

end law_of_cosines

/-- Record of the `abc` variant (three known sides). -/
structure AbstractTriangle_abc where
  a : ℝ
  b : ℝ
  c : ℝ

namespace AbstractTriangle_abc

/-- Embedding of `AbstractTriangle_abc::new`. -/
def new (a b c : ℝ) : Except InvalidTriangleError AbstractTriangle_abc :=
  if a + b < c ∨ a + c < b ∨ b + c < a ∨ a ≤ 0 ∨ b ≤ 0 ∨ c ≤ 0 ∨
      ¬ is_finite a ∨ ¬ is_finite b ∨ ¬ is_finite c then
    .error .InvalidLength
  else .ok ⟨a, b, c⟩

def length_a (t : AbstractTriangle_abc) : ℝ := t.a

def length_b (t : AbstractTriangle_abc) : ℝ := t.b

def length_c (t : AbstractTriangle_abc) : ℝ := t.c

def angle_alpha (t : AbstractTriangle_abc) : Option ℝ :=
  expectOk (law_of_cosines.alpha_from_abc t.a t.b t.c)

def angle_beta (t : AbstractTriangle_abc) : Option ℝ :=
  expectOk (law_of_cosines.beta_from_abc t.a t.b t.c)

def angle_gamma (t : AbstractTriangle_abc) : Option ℝ :=
  expectOk (law_of_cosines.gamma_from_abc t.a t.b t.c)

def area (t : AbstractTriangle_abc) : Option ℝ :=
  expectOk (formulas.triangle_area (length_a t) (length_b t) (length_c t))

def altitude_a (t : AbstractTriangle_abc) : Option ℝ :=
  (area t).map (fun A => 2 * A / length_a t)

def altitude_b (t : AbstractTriangle_abc) : Option ℝ :=
  (area t).map (fun A => 2 * A / length_b t)

def altitude_c (t : AbstractTriangle_abc) : Option ℝ :=
  (area t).map (fun A => 2 * A / length_c t)

end AbstractTriangle_abc

/-- Record of the `abα` variant (sides `a`, `b`, angle `α` opposite `a`). -/
structure AbstractTriangle_abα where
  a : ℝ
  b : ℝ
  alpha : ℝ

namespace AbstractTriangle_abα

/-- Embedding of `AbstractTriangle_abα::new` (SSA, non-included angle:
positivity, angle range, then the tangent-angle bound via `asin(a/b)`). -/
def new (a b alpha : ℝ) : Except InvalidTriangleError AbstractTriangle_abα :=
  if a ≤ 0 ∨ b ≤ 0 ∨ ¬ is_finite a ∨ ¬ is_finite b then
    .error .InvalidLength
  else if alpha ≤ 0 ∨ alpha ≥ Real.pi ∨ ¬ is_finite alpha then
    .error .InvalidAngle
  else
    match asin (a / b) with
    | some tangent_angle =>
      if alpha > tangent_angle then .error .AngleTooLarge else .ok ⟨a, b, alpha⟩
    | none => .ok ⟨a, b, alpha⟩

def length_a (t : AbstractTriangle_abα) : ℝ := t.a

def length_b (t : AbstractTriangle_abα) : ℝ := t.b

def length_c (t : AbstractTriangle_abα) : Option (ℝ × Option ℝ) :=
  expectOk (law_of_cosines.c_from_abα t.a t.b t.alpha)

def angle_alpha (t : AbstractTriangle_abα) : ℝ := t.alpha

def angle_beta (t : AbstractTriangle_abα) : Option (ℝ × Option ℝ) :=
  (length_c t).bind fun s =>
    chain_solution s (fun c => expectOk (law_of_cosines.beta_from_abc t.a t.b c))

def angle_gamma (t : AbstractTriangle_abα) : Option (ℝ × Option ℝ) :=
  (length_c t).bind fun s =>
    chain_solution s (fun c => expectOk (law_of_cosines.gamma_from_abc t.a t.b c))

def area (t : AbstractTriangle_abα) : Option (ℝ × Option ℝ) :=
  (length_c t).bind fun s =>
    chain_solution s (fun c => expectOk (formulas.triangle_area (length_a t) (length_b t) c))

def altitude_a (t : AbstractTriangle_abα) : Option (ℝ × Option ℝ) :=
  (length_c t).bind fun s =>
    chain_solution s (fun c =>
      (expectOk (formulas.triangle_area (length_a t) (length_b t) c)).map
        (fun area => 2 * area / length_a t))

def altitude_b (t : AbstractTriangle_abα) : Option (ℝ × Option ℝ) :=
  (length_c t).bind fun s =>
    chain_solution s (fun c =>
      (expectOk (formulas.triangle_area (length_a t) (length_b t) c)).map
        (fun area => 2 * area / length_b t))

def altitude_c (t : AbstractTriangle_abα) : Option ℝ :=
  (length_c t).bind fun s =>
    (expectOk (formulas.triangle_area (length_a t) (length_b t) s.1)).map
      (fun area => 2 * area / s.1)

end AbstractTriangle_abα

/-- Record of the `acα` variant (sides `a`, `c`, angle `α` opposite `a`). -/
structure AbstractTriangle_acα where
  a : ℝ
  c : ℝ
  alpha : ℝ

namespace AbstractTriangle_acα

/-- Embedding of `AbstractTriangle_acα::new` (SSA, non-included angle). -/
def new (a c alpha : ℝ) : Except InvalidTriangleError AbstractTriangle_acα :=
  if a ≤ 0 ∨ c ≤ 0 ∨ ¬ is_finite a ∨ ¬ is_finite c then
    .error .InvalidLength
  else if alpha ≤ 0 ∨ alpha ≥ Real.pi ∨ ¬ is_finite alpha then
    .error .InvalidAngle
  else
    match asin (a / c) with
    | some tangent_angle =>
      if alpha > tangent_angle then .error .AngleTooLarge else .ok ⟨a, c, alpha⟩
    | none => .ok ⟨a, c, alpha⟩

def length_a (t : AbstractTriangle_acα) : ℝ := t.a

def length_b (t : AbstractTriangle_acα) : Option (ℝ × Option ℝ) :=
  expectOk (law_of_cosines.b_from_acα t.a t.c t.alpha)

def length_c (t : AbstractTriangle_acα) : ℝ := t.c

def angle_alpha (t : AbstractTriangle_acα) : ℝ := t.alpha

def angle_beta (t : AbstractTriangle_acα) : Option (ℝ × Option ℝ) :=
  (length_b t).bind fun s =>
    chain_solution s (fun b => expectOk (law_of_cosines.beta_from_abc t.a b t.c))

def angle_gamma (t : AbstractTriangle_acα) : Option (ℝ × Option ℝ) :=
  (length_b t).bind fun s =>
    chain_solution s (fun b => expectOk (law_of_cosines.gamma_from_abc t.a b t.c))

def area (t : AbstractTriangle_acα) : Option (ℝ × Option ℝ) :=
  (length_b t).bind fun s =>
    chain_solution s (fun b => expectOk (formulas.triangle_area (length_a t) b (length_c t)))

def altitude_a (t : AbstractTriangle_acα) : Option (ℝ × Option ℝ) :=
  (length_b t).bind fun s =>
    chain_solution s (fun b =>
      (expectOk (formulas.triangle_area (length_a t) b (length_c t))).map
        (fun area => 2 * area / length_a t))

def altitude_b (t : AbstractTriangle_acα) : Option ℝ :=
  (length_b t).bind fun s =>
    (expectOk (formulas.triangle_area (length_a t) s.1 (length_c t))).map
      (fun area => 2 * area / s.1)

def altitude_c (t : AbstractTriangle_acα) : Option (ℝ × Option ℝ) :=
  (length_b t).bind fun s =>
    chain_solution s (fun b =>
      (expectOk (formulas.triangle_area (length_a t) b (length_c t))).map
        (fun area => 2 * area / length_c t))

end AbstractTriangle_acα

/-- Record of the `bcα` variant (sides `b`, `c`, included angle `α`). -/
structure AbstractTriangle_bcα where
  b : ℝ
  c : ℝ
  alpha : ℝ

namespace AbstractTriangle_bcα

/-- Embedding of `AbstractTriangle_bcα::new` (included angle: no tangent bound). -/
def new (b c alpha : ℝ) : Except InvalidTriangleError AbstractTriangle_bcα :=
  if b ≤ 0 ∨ c ≤ 0 ∨ ¬ is_finite b ∨ ¬ is_finite c then
    .error .InvalidLength
  else if alpha ≤ 0 ∨ alpha ≥ Real.pi ∨ ¬ is_finite alpha then
    .error .InvalidAngle
  else .ok ⟨b, c, alpha⟩

def length_a (t : AbstractTriangle_bcα) : Option ℝ :=
  expectOk (law_of_cosines.a_from_bcα t.b t.c t.alpha)

def length_b (t : AbstractTriangle_bcα) : ℝ := t.b

def length_c (t : AbstractTriangle_bcα) : ℝ := t.c

def angle_alpha (t : AbstractTriangle_bcα) : ℝ := t.alpha

def angle_beta (t : AbstractTriangle_bcα) : Option ℝ :=
  (length_a t).bind fun a => expectOk (law_of_cosines.beta_from_abc a t.b t.c)

def angle_gamma (t : AbstractTriangle_bcα) : Option ℝ :=
  (length_a t).bind fun a => expectOk (law_of_cosines.gamma_from_abc a t.b t.c)

def area (t : AbstractTriangle_bcα) : Option ℝ :=
  (length_a t).bind fun a => expectOk (formulas.triangle_area a (length_b t) (length_c t))

def altitude_a (t : AbstractTriangle_bcα) : Option ℝ :=
  (area t).bind fun A => (length_a t).map fun a => 2 * A / a

def altitude_b (t : AbstractTriangle_bcα) : Option ℝ :=
  (area t).map fun A => 2 * A / length_b t

def altitude_c (t : AbstractTriangle_bcα) : Option ℝ :=
  (area t).map fun A => 2 * A / length_c t

end AbstractTriangle_bcα

/-- Record of the `abβ` variant (sides `a`, `b`, angle `β` opposite `b`). -/
structure AbstractTriangle_abβ where
  a : ℝ
  b : ℝ
  beta : ℝ

namespace AbstractTriangle_abβ

/-- Embedding of `AbstractTriangle_abβ::new` (SSA, non-included angle). -/
def new (a b beta : ℝ) : Except InvalidTriangleError AbstractTriangle_abβ :=
  if a ≤ 0 ∨ b ≤ 0 ∨ ¬ is_finite a ∨ ¬ is_finite b then
    .error .InvalidLength
  else if beta ≤ 0 ∨ beta ≥ Real.pi ∨ ¬ is_finite beta then
    .error .InvalidAngle
  else
    match asin (b / a) with
    | some tangent_angle =>
      if beta > tangent_angle then .error .AngleTooLarge else .ok ⟨a, b, beta⟩
    | none => .ok ⟨a, b, beta⟩

def length_a (t : AbstractTriangle_abβ) : ℝ := t.a

def length_b (t : AbstractTriangle_abβ) : ℝ := t.b

def length_c (t : AbstractTriangle_abβ) : Option (ℝ × Option ℝ) :=
  expectOk (law_of_cosines.c_from_abβ t.a t.b t.beta)

def angle_alpha (t : AbstractTriangle_abβ) : Option (ℝ × Option ℝ) :=
  (length_c t).bind fun s =>
    chain_solution s (fun c => expectOk (law_of_cosines.alpha_from_abc t.a t.b c))

def angle_beta (t : AbstractTriangle_abβ) : ℝ := t.beta

def angle_gamma (t : AbstractTriangle_abβ) : Option (ℝ × Option ℝ) :=
  (length_c t).bind fun s =>
    chain_solution s (fun c => expectOk (law_of_cosines.gamma_from_abc t.a t.b c))

def area (t : AbstractTriangle_abβ) : Option (ℝ × Option ℝ) :=
  (length_c t).bind fun s =>
    chain_solution s (fun c => expectOk (formulas.triangle_area (length_a t) (length_b t) c))

def altitude_a (t : AbstractTriangle_abβ) : Option (ℝ × Option ℝ) :=
  (length_c t).bind fun s =>
    chain_solution s (fun c =>
      (expectOk (formulas.triangle_area (length_a t) (length_b t) c)).map
        (fun area => 2 * area / length_a t))

def altitude_b (t : AbstractTriangle_abβ) : Option (ℝ × Option ℝ) :=
  (length_c t).bind fun s =>
    chain_solution s (fun c =>
      (expectOk (formulas.triangle_area (length_a t) (length_b t) c)).map
        (fun area => 2 * area / length_b t))

def altitude_c (t : AbstractTriangle_abβ) : Option ℝ :=
  (length_c t).bind fun s =>
    (expectOk (formulas.triangle_area (length_a t) (length_b t) s.1)).map
      (fun area => 2 * area / s.1)

end AbstractTriangle_abβ

/-- Record of the `acβ` variant (sides `a`, `c`, included angle `β`). -/
structure AbstractTriangle_acβ where
  a : ℝ
  c : ℝ
  beta : ℝ

namespace AbstractTriangle_acβ

/-- Embedding of `AbstractTriangle_acβ::new` (included angle: no tangent bound). -/
def new (a c beta : ℝ) : Except InvalidTriangleError AbstractTriangle_acβ :=
  if a ≤ 0 ∨ c ≤ 0 ∨ ¬ is_finite a ∨ ¬ is_finite c then
    .error .InvalidLength
  else if beta ≤ 0 ∨ beta ≥ Real.pi ∨ ¬ is_finite beta then
    .error .InvalidAngle
  else .ok ⟨a, c, beta⟩

def length_a (t : AbstractTriangle_acβ) : ℝ := t.a

def length_b (t : AbstractTriangle_acβ) : Option ℝ :=
  expectOk (law_of_cosines.b_from_acβ t.a t.c t.beta)

def length_c (t : AbstractTriangle_acβ) : ℝ := t.c

def angle_alpha (t : AbstractTriangle_acβ) : Option ℝ :=
  (length_b t).bind fun b => expectOk (law_of_cosines.alpha_from_abc t.a b t.c)

def angle_beta (t : AbstractTriangle_acβ) : ℝ := t.beta

def angle_gamma (t : AbstractTriangle_acβ) : Option ℝ :=
  (length_b t).bind fun b => expectOk (law_of_cosines.gamma_from_abc t.a b t.c)

def area (t : AbstractTriangle_acβ) : Option ℝ :=
  (length_b t).bind fun b => expectOk (formulas.triangle_area (length_a t) b (length_c t))

def altitude_a (t : AbstractTriangle_acβ) : Option ℝ :=
  (area t).map fun A => 2 * A / length_a t

def altitude_b (t : AbstractTriangle_acβ) : Option ℝ :=
  (area t).bind fun A => (length_b t).map fun b => 2 * A / b

def altitude_c (t : AbstractTriangle_acβ) : Option ℝ :=
  (area t).map fun A => 2 * A / length_c t

end AbstractTriangle_acβ

/-- Record of the `bcβ` variant (sides `b`, `c`, angle `β` opposite `b`). -/
structure AbstractTriangle_bcβ where
  b : ℝ
  c : ℝ
  beta : ℝ

namespace AbstractTriangle_bcβ

/-- Embedding of `AbstractTriangle_bcβ::new` (SSA, non-included angle). -/
def new (b c beta : ℝ) : Except InvalidTriangleError AbstractTriangle_bcβ :=
  if b ≤ 0 ∨ c ≤ 0 ∨ ¬ is_finite b ∨ ¬ is_finite c then
    .error .InvalidLength
  else if beta ≤ 0 ∨ beta ≥ Real.pi ∨ ¬ is_finite beta then
    .error .InvalidAngle
  else
    match asin (b / c) with
    | some tangent_angle =>
      if beta > tangent_angle then .error .AngleTooLarge else .ok ⟨b, c, beta⟩
    | none => .ok ⟨b, c, beta⟩

def length_a (t : AbstractTriangle_bcβ) : Option (ℝ × Option ℝ) :=
  expectOk (law_of_cosines.a_from_bcβ t.b t.c t.beta)

def length_b (t : AbstractTriangle_bcβ) : ℝ := t.b

def length_c (t : AbstractTriangle_bcβ) : ℝ := t.c

def angle_alpha (t : AbstractTriangle_bcβ) : Option (ℝ × Option ℝ) :=
  (length_a t).bind fun s =>
    chain_solution s (fun a => expectOk (law_of_cosines.alpha_from_abc a t.b t.c))

def angle_beta (t : AbstractTriangle_bcβ) : ℝ := t.beta

def angle_gamma (t : AbstractTriangle_bcβ) : Option (ℝ × Option ℝ) :=
  (length_a t).bind fun s =>
    chain_solution s (fun a => expectOk (law_of_cosines.gamma_from_abc a t.b t.c))

def area (t : AbstractTriangle_bcβ) : Option (ℝ × Option ℝ) :=
  (length_a t).bind fun s =>
    chain_solution s (fun a => expectOk (formulas.triangle_area a (length_b t) (length_c t)))

def altitude_a (t : AbstractTriangle_bcβ) : Option ℝ :=
  (length_a t).bind fun s =>
    (expectOk (formulas.triangle_area s.1 (length_b t) (length_c t))).map
      (fun area => 2 * area / s.1)

def altitude_b (t : AbstractTriangle_bcβ) : Option (ℝ × Option ℝ) :=
  (length_a t).bind fun s =>
    chain_solution s (fun a =>
      (expectOk (formulas.triangle_area a (length_b t) (length_c t))).map
        (fun area => 2 * area / length_b t))

def altitude_c (t : AbstractTriangle_bcβ) : Option (ℝ × Option ℝ) :=
  (length_a t).bind fun s =>
    chain_solution s (fun a =>
      (expectOk (formulas.triangle_area a (length_b t) (length_c t))).map
        (fun area => 2 * area / length_c t))

end AbstractTriangle_bcβ

/-- Record of the `abγ` variant (sides `a`, `b`, included angle `γ`). -/
structure AbstractTriangle_abγ where
  a : ℝ
  b : ℝ
  gamma : ℝ

namespace AbstractTriangle_abγ

/-- Embedding of `AbstractTriangle_abγ::new` (included angle: no tangent bound). -/
def new (a b gamma : ℝ) : Except InvalidTriangleError AbstractTriangle_abγ :=
  if a ≤ 0 ∨ b ≤ 0 ∨ ¬ is_finite a ∨ ¬ is_finite b then
    .error .InvalidLength
  else if gamma ≤ 0 ∨ gamma ≥ Real.pi ∨ ¬ is_finite gamma then
    .error .InvalidAngle
  else .ok ⟨a, b, gamma⟩

def length_a (t : AbstractTriangle_abγ) : ℝ := t.a

def length_b (t : AbstractTriangle_abγ) : ℝ := t.b

def length_c (t : AbstractTriangle_abγ) : Option ℝ :=
  expectOk (law_of_cosines.c_from_abγ t.a t.b t.gamma)

def angle_alpha (t : AbstractTriangle_abγ) : Option ℝ :=
  (length_c t).bind fun c => expectOk (law_of_cosines.alpha_from_abc t.a t.b c)

def angle_beta (t : AbstractTriangle_abγ) : Option ℝ :=
  (length_c t).bind fun c => expectOk (law_of_cosines.beta_from_abc t.a t.b c)

def angle_gamma (t : AbstractTriangle_abγ) : ℝ := t.gamma

def area (t : AbstractTriangle_abγ) : Option ℝ :=
  (length_c t).bind fun c => expectOk (formulas.triangle_area (length_a t) (length_b t) c)

def altitude_a (t : AbstractTriangle_abγ) : Option ℝ :=
  (area t).map fun A => 2 * A / length_a t

def altitude_b (t : AbstractTriangle_abγ) : Option ℝ :=
  (area t).map fun A => 2 * A / length_b t

def altitude_c (t : AbstractTriangle_abγ) : Option ℝ :=
  (area t).bind fun A => (length_c t).map fun c => 2 * A / c

end AbstractTriangle_abγ

/-- Record of the `acγ` variant (sides `a`, `c`, angle `γ` opposite `c`). -/
structure AbstractTriangle_acγ where
  a : ℝ
  c : ℝ
  gamma : ℝ

namespace AbstractTriangle_acγ

/-- Embedding of `AbstractTriangle_acγ::new` (SSA, non-included angle). -/
def new (a c gamma : ℝ) : Except InvalidTriangleError AbstractTriangle_acγ :=
  if a ≤ 0 ∨ c ≤ 0 ∨ ¬ is_finite a ∨ ¬ is_finite c then
    .error .InvalidLength
  else if gamma ≤ 0 ∨ gamma ≥ Real.pi ∨ ¬ is_finite gamma then
    .error .InvalidAngle
  else
    match asin (c / a) with
    | some tangent_angle =>
      if gamma > tangent_angle then .error .AngleTooLarge else .ok ⟨a, c, gamma⟩
    | none => .ok ⟨a, c, gamma⟩

def length_a (t : AbstractTriangle_acγ) : ℝ := t.a

def length_b (t : AbstractTriangle_acγ) : Option (ℝ × Option ℝ) :=
  expectOk (law_of_cosines.b_from_acγ t.a t.c t.gamma)

def length_c (t : AbstractTriangle_acγ) : ℝ := t.c

def angle_alpha (t : AbstractTriangle_acγ) : Option (ℝ × Option ℝ) :=
  (length_b t).bind fun s =>
    chain_solution s (fun b => expectOk (law_of_cosines.alpha_from_abc t.a b t.c))

def angle_beta (t : AbstractTriangle_acγ) : Option (ℝ × Option ℝ) :=
  (length_b t).bind fun s =>
    chain_solution s (fun b => expectOk (law_of_cosines.beta_from_abc t.a b t.c))

def angle_gamma (t : AbstractTriangle_acγ) : ℝ := t.gamma

def area (t : AbstractTriangle_acγ) : Option (ℝ × Option ℝ) :=
  (length_b t).bind fun s =>
    chain_solution s (fun b => expectOk (formulas.triangle_area (length_a t) b (length_c t)))

def altitude_a (t : AbstractTriangle_acγ) : Option (ℝ × Option ℝ) :=
  (length_b t).bind fun s =>
    chain_solution s (fun b =>
      (expectOk (formulas.triangle_area (length_a t) b (length_c t))).map
        (fun area => 2 * area / length_a t))

def altitude_b (t : AbstractTriangle_acγ) : Option ℝ :=
  (length_b t).bind fun s =>
    (expectOk (formulas.triangle_area (length_a t) s.1 (length_c t))).map
      (fun area => 2 * area / s.1)

def altitude_c (t : AbstractTriangle_acγ) : Option (ℝ × Option ℝ) :=
  (length_b t).bind fun s =>
    chain_solution s (fun b =>
      (expectOk (formulas.triangle_area (length_a t) b (length_c t))).map
        (fun area => 2 * area / length_c t))

end AbstractTriangle_acγ

/-- Record of the `bcγ` variant (sides `b`, `c`, angle `γ` opposite `c`). -/
structure AbstractTriangle_bcγ where
  b : ℝ
  c : ℝ
  gamma : ℝ

namespace AbstractTriangle_bcγ

/-- Embedding of `AbstractTriangle_bcγ::new` (SSA, non-included angle). -/
def new (b c gamma : ℝ) : Except InvalidTriangleError AbstractTriangle_bcγ :=
  if b ≤ 0 ∨ c ≤ 0 ∨ ¬ is_finite b ∨ ¬ is_finite c then
    .error .InvalidLength
  else if gamma ≤ 0 ∨ gamma ≥ Real.pi ∨ ¬ is_finite gamma then
    .error .InvalidAngle
  else
    match asin (c / b) with
    | some tangent_angle =>
      if gamma > tangent_angle then .error .AngleTooLarge else .ok ⟨b, c, gamma⟩
    | none => .ok ⟨b, c, gamma⟩

def length_a (t : AbstractTriangle_bcγ) : Option (ℝ × Option ℝ) :=
  expectOk (law_of_cosines.a_from_bcγ t.b t.c t.gamma)

def length_b (t : AbstractTriangle_bcγ) : ℝ := t.b

def length_c (t : AbstractTriangle_bcγ) : ℝ := t.c

def angle_alpha (t : AbstractTriangle_bcγ) : Option (ℝ × Option ℝ) :=
  (length_a t).bind fun s =>
    chain_solution s (fun a => expectOk (law_of_cosines.alpha_from_abc a t.b t.c))

def angle_beta (t : AbstractTriangle_bcγ) : Option (ℝ × Option ℝ) :=
  (length_a t).bind fun s =>
    chain_solution s (fun a => expectOk (law_of_cosines.beta_from_abc a t.b t.c))

def angle_gamma (t : AbstractTriangle_bcγ) : ℝ := t.gamma

def area (t : AbstractTriangle_bcγ) : Option (ℝ × Option ℝ) :=
  (length_a t).bind fun s =>
    chain_solution s (fun a => expectOk (formulas.triangle_area a (length_b t) (length_c t)))

def altitude_a (t : AbstractTriangle_bcγ) : Option ℝ :=
  (length_a t).bind fun s =>
    (expectOk (formulas.triangle_area s.1 (length_b t) (length_c t))).map
      (fun area => 2 * area / s.1)

def altitude_b (t : AbstractTriangle_bcγ) : Option (ℝ × Option ℝ) :=
  (length_a t).bind fun s =>
    chain_solution s (fun a =>
      (expectOk (formulas.triangle_area a (length_b t) (length_c t))).map
        (fun area => 2 * area / length_b t))

def altitude_c (t : AbstractTriangle_bcγ) : Option (ℝ × Option ℝ) :=
  (length_a t).bind fun s =>
    chain_solution s (fun a =>
      (expectOk (formulas.triangle_area a (length_b t) (length_c t))).map
        (fun area => 2 * area / length_c t))

end AbstractTriangle_bcγ

/-- Record of the `aαβ` variant (side `a`, angles `α`, `β`). -/
structure AbstractTriangle_aαβ where
  a : ℝ
  alpha : ℝ
  beta : ℝ

namespace AbstractTriangle_aαβ

/-- Embedding of `AbstractTriangle_aαβ::new`. -/
def new (a alpha beta : ℝ) : Except InvalidTriangleError AbstractTriangle_aαβ :=
  if a ≤ 0 ∨ ¬ is_finite a then .error .InvalidLength
  else if alpha ≤ 0 ∨ alpha ≥ Real.pi ∨ ¬ is_finite alpha then .error .InvalidAngle
  else if beta ≤ 0 ∨ beta ≥ Real.pi ∨ ¬ is_finite beta then .error .InvalidAngle
  else if alpha + beta ≥ Real.pi then .error .InvalidAngle
  else .ok ⟨a, alpha, beta⟩

def length_a (t : AbstractTriangle_aαβ) : ℝ := t.a

def length_b (t : AbstractTriangle_aαβ) : Option ℝ :=
  expectOk (law_of_sines.b_from_aαβ t.a t.alpha t.beta)

def length_c (t : AbstractTriangle_aαβ) : Option ℝ :=
  expectOk (law_of_sines.c_from_aαγ t.a t.alpha (Real.pi - (t.alpha + t.beta)))

def angle_alpha (t : AbstractTriangle_aαβ) : ℝ := t.alpha

def angle_beta (t : AbstractTriangle_aαβ) : ℝ := t.beta

def angle_gamma (t : AbstractTriangle_aαβ) : ℝ := Real.pi - (t.alpha + t.beta)

def area (t : AbstractTriangle_aαβ) : Option ℝ :=
  (length_b t).bind fun b => (length_c t).bind fun c =>
    expectOk (formulas.triangle_area (length_a t) b c)

def altitude_a (t : AbstractTriangle_aαβ) : Option ℝ :=
  (area t).map fun A => 2 * A / length_a t

def altitude_b (t : AbstractTriangle_aαβ) : Option ℝ :=
  (area t).bind fun A => (length_b t).map fun b => 2 * A / b

def altitude_c (t : AbstractTriangle_aαβ) : Option ℝ :=
  (area t).bind fun A => (length_c t).map fun c => 2 * A / c

end AbstractTriangle_aαβ

/-- Record of the `bαβ` variant (side `b`, angles `α`, `β`). -/
structure AbstractTriangle_bαβ where
  b : ℝ
  alpha : ℝ
  beta : ℝ

namespace AbstractTriangle_bαβ

/-- Embedding of `AbstractTriangle_bαβ::new`. -/
def new (b alpha beta : ℝ) : Except InvalidTriangleError AbstractTriangle_bαβ :=
  if b ≤ 0 ∨ ¬ is_finite b then .error .InvalidLength
  else if alpha ≤ 0 ∨ alpha ≥ Real.pi ∨ ¬ is_finite alpha then .error .InvalidAngle
  else if beta ≤ 0 ∨ beta ≥ Real.pi ∨ ¬ is_finite beta then .error .InvalidAngle
  else if alpha + beta ≥ Real.pi then .error .InvalidAngle
  else .ok ⟨b, alpha, beta⟩

def length_a (t : AbstractTriangle_bαβ) : Option ℝ :=
  expectOk (law_of_sines.a_from_bαβ t.b t.alpha t.beta)

def length_b (t : AbstractTriangle_bαβ) : ℝ := t.b

def length_c (t : AbstractTriangle_bαβ) : Option ℝ :=
  expectOk (law_of_sines.c_from_bβγ t.b t.beta (Real.pi - (t.alpha + t.beta)))

def angle_alpha (t : AbstractTriangle_bαβ) : ℝ := t.alpha

def angle_beta (t : AbstractTriangle_bαβ) : ℝ := t.beta

def angle_gamma (t : AbstractTriangle_bαβ) : ℝ := Real.pi - (t.alpha + t.beta)

def area (t : AbstractTriangle_bαβ) : Option ℝ :=
  (length_a t).bind fun a => (length_c t).bind fun c =>
    expectOk (formulas.triangle_area a (length_b t) c)

def altitude_a (t : AbstractTriangle_bαβ) : Option ℝ :=
  (area t).bind fun A => (length_a t).map fun a => 2 * A / a

def altitude_b (t : AbstractTriangle_bαβ) : Option ℝ :=
  (area t).map fun A => 2 * A / length_b t

def altitude_c (t : AbstractTriangle_bαβ) : Option ℝ :=
  (area t).bind fun A => (length_c t).map fun c => 2 * A / c

end AbstractTriangle_bαβ

/-- Record of the `cαβ` variant (side `c`, angles `α`, `β`). -/
structure AbstractTriangle_cαβ where
  c : ℝ
  alpha : ℝ
  beta : ℝ

namespace AbstractTriangle_cαβ

/-- Embedding of `AbstractTriangle_cαβ::new`. -/
def new (c alpha beta : ℝ) : Except InvalidTriangleError AbstractTriangle_cαβ :=
  if c ≤ 0 ∨ ¬ is_finite c then .error .InvalidLength
  else if alpha ≤ 0 ∨ alpha ≥ Real.pi ∨ ¬ is_finite alpha then .error .InvalidAngle
  else if beta ≤ 0 ∨ beta ≥ Real.pi ∨ ¬ is_finite beta then .error .InvalidAngle
  else if alpha + beta ≥ Real.pi then .error .InvalidAngle
  else .ok ⟨c, alpha, beta⟩

def length_a (t : AbstractTriangle_cαβ) : Option ℝ :=
  expectOk (law_of_sines.a_from_cαγ t.c t.alpha (Real.pi - (t.alpha + t.beta)))

def length_b (t : AbstractTriangle_cαβ) : Option ℝ :=
  expectOk (law_of_sines.b_from_cβγ t.c t.beta (Real.pi - (t.alpha + t.beta)))

def length_c (t : AbstractTriangle_cαβ) : ℝ := t.c

def angle_alpha (t : AbstractTriangle_cαβ) : ℝ := t.alpha

def angle_beta (t : AbstractTriangle_cαβ) : ℝ := t.beta

def angle_gamma (t : AbstractTriangle_cαβ) : ℝ := Real.pi - (t.alpha + t.beta)

def area (t : AbstractTriangle_cαβ) : Option ℝ :=
  (length_a t).bind fun a => (length_b t).bind fun b =>
    expectOk (formulas.triangle_area a b (length_c t))

def altitude_a (t : AbstractTriangle_cαβ) : Option ℝ :=
  (area t).bind fun A => (length_a t).map fun a => 2 * A / a

def altitude_b (t : AbstractTriangle_cαβ) : Option ℝ :=
  (area t).bind fun A => (length_b t).map fun b => 2 * A / b

def altitude_c (t : AbstractTriangle_cαβ) : Option ℝ :=
  (area t).map fun A => 2 * A / length_c t

end AbstractTriangle_cαβ

/-- Record of the `aαγ` variant (side `a`, angles `α`, `γ`). -/
structure AbstractTriangle_aαγ where
  a : ℝ
  alpha : ℝ
  gamma : ℝ

namespace AbstractTriangle_aαγ

/-- Embedding of `AbstractTriangle_aαγ::new`. -/
def new (a alpha gamma : ℝ) : Except InvalidTriangleError AbstractTriangle_aαγ :=
  if a ≤ 0 ∨ ¬ is_finite a then .error .InvalidLength
  else if alpha ≤ 0 ∨ alpha ≥ Real.pi ∨ ¬ is_finite alpha then .error .InvalidAngle
  else if gamma ≤ 0 ∨ gamma ≥ Real.pi ∨ ¬ is_finite gamma then .error .InvalidAngle
  else if alpha + gamma ≥ Real.pi then .error .InvalidAngle
  else .ok ⟨a, alpha, gamma⟩

def length_a (t : AbstractTriangle_aαγ) : ℝ := t.a

def length_b (t : AbstractTriangle_aαγ) : Option ℝ :=
  expectOk (law_of_sines.b_from_aαβ t.a t.alpha (Real.pi - (t.alpha + t.gamma)))

def length_c (t : AbstractTriangle_aαγ) : Option ℝ :=
  expectOk (law_of_sines.c_from_aαγ t.a t.alpha t.gamma)

def angle_alpha (t : AbstractTriangle_aαγ) : ℝ := t.alpha

def angle_beta (t : AbstractTriangle_aαγ) : ℝ := Real.pi - (t.alpha + t.gamma)

def angle_gamma (t : AbstractTriangle_aαγ) : ℝ := t.gamma

def area (t : AbstractTriangle_aαγ) : Option ℝ :=
  (length_b t).bind fun b => (length_c t).bind fun c =>
    expectOk (formulas.triangle_area (length_a t) b c)

def altitude_a (t : AbstractTriangle_aαγ) : Option ℝ :=
  (area t).map fun A => 2 * A / length_a t

def altitude_b (t : AbstractTriangle_aαγ) : Option ℝ :=
  (area t).bind fun A => (length_b t).map fun b => 2 * A / b

def altitude_c (t : AbstractTriangle_aαγ) : Option ℝ :=
  (area t).bind fun A => (length_c t).map fun c => 2 * A / c

end AbstractTriangle_aαγ

/-- Record of the `bαγ` variant (side `b`, angles `α`, `γ`). -/
structure AbstractTriangle_bαγ where
  b : ℝ
  alpha : ℝ
  gamma : ℝ

namespace AbstractTriangle_bαγ

/-- Embedding of `AbstractTriangle_bαγ::new`. -/
def new (b alpha gamma : ℝ) : Except InvalidTriangleError AbstractTriangle_bαγ :=
  if b ≤ 0 ∨ ¬ is_finite b then .error .InvalidLength
  else if alpha ≤ 0 ∨ alpha ≥ Real.pi ∨ ¬ is_finite alpha then .error .InvalidAngle
  else if gamma ≤ 0 ∨ gamma ≥ Real.pi ∨ ¬ is_finite gamma then .error .InvalidAngle
  else if alpha + gamma ≥ Real.pi then .error .InvalidAngle
  else .ok ⟨b, alpha, gamma⟩

def length_a (t : AbstractTriangle_bαγ) : Option ℝ :=
  expectOk (law_of_sines.a_from_bαβ t.b t.alpha (Real.pi - (t.alpha + t.gamma)))

def length_b (t : AbstractTriangle_bαγ) : ℝ := t.b

def length_c (t : AbstractTriangle_bαγ) : Option ℝ :=
  expectOk (law_of_sines.c_from_bβγ t.b (Real.pi - (t.alpha + t.gamma)) t.gamma)

def angle_alpha (t : AbstractTriangle_bαγ) : ℝ := t.alpha

def angle_beta (t : AbstractTriangle_bαγ) : ℝ := Real.pi - (t.alpha + t.gamma)

def angle_gamma (t : AbstractTriangle_bαγ) : ℝ := t.gamma

def area (t : AbstractTriangle_bαγ) : Option ℝ :=
  (length_a t).bind fun a => (length_c t).bind fun c =>
    expectOk (formulas.triangle_area a (length_b t) c)

def altitude_a (t : AbstractTriangle_bαγ) : Option ℝ :=
  (area t).bind fun A => (length_a t).map fun a => 2 * A / a

def altitude_b (t : AbstractTriangle_bαγ) : Option ℝ :=
  (area t).map fun A => 2 * A / length_b t

def altitude_c (t : AbstractTriangle_bαγ) : Option ℝ :=
  (area t).bind fun A => (length_c t).map fun c => 2 * A / c

end AbstractTriangle_bαγ

/-- Record of the `cαγ` variant (side `c`, angles `α`, `γ`). -/
structure AbstractTriangle_cαγ where
  c : ℝ
  alpha : ℝ
  gamma : ℝ

namespace AbstractTriangle_cαγ

/-- Embedding of `AbstractTriangle_cαγ::new`. -/
def new (c alpha gamma : ℝ) : Except InvalidTriangleError AbstractTriangle_cαγ :=
  if c ≤ 0 ∨ ¬ is_finite c then .error .InvalidLength
  else if alpha ≤ 0 ∨ alpha ≥ Real.pi ∨ ¬ is_finite alpha then .error .InvalidAngle
  else if gamma ≤ 0 ∨ gamma ≥ Real.pi ∨ ¬ is_finite gamma then .error .InvalidAngle
  else if alpha + gamma ≥ Real.pi then .error .InvalidAngle
  else .ok ⟨c, alpha, gamma⟩

def length_a (t : AbstractTriangle_cαγ) : Option ℝ :=
  expectOk (law_of_sines.a_from_cαγ t.c t.alpha t.gamma)

def length_b (t : AbstractTriangle_cαγ) : Option ℝ :=
  expectOk (law_of_sines.b_from_cβγ t.c (Real.pi - (t.alpha + t.gamma)) t.gamma)

def length_c (t : AbstractTriangle_cαγ) : ℝ := t.c

def angle_alpha (t : AbstractTriangle_cαγ) : ℝ := t.alpha

def angle_beta (t : AbstractTriangle_cαγ) : ℝ := Real.pi - (t.alpha + t.gamma)

def angle_gamma (t : AbstractTriangle_cαγ) : ℝ := t.gamma

def area (t : AbstractTriangle_cαγ) : Option ℝ :=
  (length_a t).bind fun a => (length_b t).bind fun b =>
    expectOk (formulas.triangle_area a b (length_c t))

def altitude_a (t : AbstractTriangle_cαγ) : Option ℝ :=
  (area t).bind fun A => (length_a t).map fun a => 2 * A / a

def altitude_b (t : AbstractTriangle_cαγ) : Option ℝ :=
  (area t).bind fun A => (length_b t).map fun b => 2 * A / b

def altitude_c (t : AbstractTriangle_cαγ) : Option ℝ :=
  (area t).map fun A => 2 * A / length_c t

end AbstractTriangle_cαγ

/-- Record of the `aβγ` variant (side `a`, angles `β`, `γ`). -/
structure AbstractTriangle_aβγ where
  a : ℝ
  beta : ℝ
  gamma : ℝ

namespace AbstractTriangle_aβγ

/-- Embedding of `AbstractTriangle_aβγ::new`. -/
def new (a beta gamma : ℝ) : Except InvalidTriangleError AbstractTriangle_aβγ :=
  if a ≤ 0 ∨ ¬ is_finite a then .error .InvalidLength
  else if beta ≤ 0 ∨ beta ≥ Real.pi ∨ ¬ is_finite beta then .error .InvalidAngle
  else if gamma ≤ 0 ∨ gamma ≥ Real.pi ∨ ¬ is_finite gamma then .error .InvalidAngle
  else if beta + gamma ≥ Real.pi then .error .InvalidAngle
  else .ok ⟨a, beta, gamma⟩

def length_a (t : AbstractTriangle_aβγ) : ℝ := t.a

def length_b (t : AbstractTriangle_aβγ) : Option ℝ :=
  expectOk (law_of_sines.b_from_aαβ t.a (Real.pi - (t.beta + t.gamma)) t.beta)

def length_c (t : AbstractTriangle_aβγ) : Option ℝ :=
  expectOk (law_of_sines.c_from_aαγ t.a (Real.pi - (t.beta + t.gamma)) t.gamma)

def angle_alpha (t : AbstractTriangle_aβγ) : ℝ := Real.pi - (t.beta + t.gamma)

def angle_beta (t : AbstractTriangle_aβγ) : ℝ := t.beta

def angle_gamma (t : AbstractTriangle_aβγ) : ℝ := t.gamma

def area (t : AbstractTriangle_aβγ) : Option ℝ :=
  (length_b t).bind fun b => (length_c t).bind fun c =>
    expectOk (formulas.triangle_area (length_a t) b c)

def altitude_a (t : AbstractTriangle_aβγ) : Option ℝ :=
  (area t).map fun A => 2 * A / length_a t

def altitude_b (t : AbstractTriangle_aβγ) : Option ℝ :=
  (area t).bind fun A => (length_b t).map fun b => 2 * A / b

def altitude_c (t : AbstractTriangle_aβγ) : Option ℝ :=
  (area t).bind fun A => (length_c t).map fun c => 2 * A / c

end AbstractTriangle_aβγ

/-- Record of the `bβγ` variant (side `b`, angles `β`, `γ`). -/
structure AbstractTriangle_bβγ where
  b : ℝ
  beta : ℝ
  gamma : ℝ

namespace AbstractTriangle_bβγ

/-- Embedding of `AbstractTriangle_bβγ::new`. -/
def new (b beta gamma : ℝ) : Except InvalidTriangleError AbstractTriangle_bβγ :=
  if b ≤ 0 ∨ ¬ is_finite b then .error .InvalidLength
  else if beta ≤ 0 ∨ beta ≥ Real.pi ∨ ¬ is_finite beta then .error .InvalidAngle
  else if gamma ≤ 0 ∨ gamma ≥ Real.pi ∨ ¬ is_finite gamma then .error .InvalidAngle
  else if beta + gamma ≥ Real.pi then .error .InvalidAngle
  else .ok ⟨b, beta, gamma⟩

def length_a (t : AbstractTriangle_bβγ) : Option ℝ :=
  expectOk (law_of_sines.a_from_bαβ t.b (Real.pi - (t.beta + t.gamma)) t.beta)

def length_b (t : AbstractTriangle_bβγ) : ℝ := t.b

def length_c (t : AbstractTriangle_bβγ) : Option ℝ :=
  expectOk (law_of_sines.c_from_bβγ t.b t.beta t.gamma)

def angle_alpha (t : AbstractTriangle_bβγ) : ℝ := Real.pi - (t.beta + t.gamma)

def angle_beta (t : AbstractTriangle_bβγ) : ℝ := t.beta

def angle_gamma (t : AbstractTriangle_bβγ) : ℝ := t.gamma

def area (t : AbstractTriangle_bβγ) : Option ℝ :=
  (length_a t).bind fun a => (length_c t).bind fun c =>
    expectOk (formulas.triangle_area a (length_b t) c)

def altitude_a (t : AbstractTriangle_bβγ) : Option ℝ :=
  (area t).bind fun A => (length_a t).map fun a => 2 * A / a

def altitude_b (t : AbstractTriangle_bβγ) : Option ℝ :=
  (area t).map fun A => 2 * A / length_b t

def altitude_c (t : AbstractTriangle_bβγ) : Option ℝ :=
  (area t).bind fun A => (length_c t).map fun c => 2 * A / c

end AbstractTriangle_bβγ

/-- Record of the `cβγ` variant (side `c`, angles `β`, `γ`). -/
structure AbstractTriangle_cβγ where
  c : ℝ
  beta : ℝ
  gamma : ℝ

namespace AbstractTriangle_cβγ

/-- Embedding of `AbstractTriangle_cβγ::new`. -/
def new (c beta gamma : ℝ) : Except InvalidTriangleError AbstractTriangle_cβγ :=
  if c ≤ 0 ∨ ¬ is_finite c then .error .InvalidLength
  else if beta ≤ 0 ∨ beta ≥ Real.pi ∨ ¬ is_finite beta then .error .InvalidAngle
  else if gamma ≤ 0 ∨ gamma ≥ Real.pi ∨ ¬ is_finite gamma then .error .InvalidAngle
  else if beta + gamma ≥ Real.pi then .error .InvalidAngle
  else .ok ⟨c, beta, gamma⟩

def length_a (t : AbstractTriangle_cβγ) : Option ℝ :=
  expectOk (law_of_sines.a_from_cαγ t.c (Real.pi - (t.beta + t.gamma)) t.gamma)

def length_b (t : AbstractTriangle_cβγ) : Option ℝ :=
  expectOk (law_of_sines.b_from_cβγ t.c t.beta t.gamma)

def length_c (t : AbstractTriangle_cβγ) : ℝ := t.c

def angle_alpha (t : AbstractTriangle_cβγ) : ℝ := Real.pi - (t.beta + t.gamma)

def angle_beta (t : AbstractTriangle_cβγ) : ℝ := t.beta

def angle_gamma (t : AbstractTriangle_cβγ) : ℝ := t.gamma

def area (t : AbstractTriangle_cβγ) : Option ℝ :=
  (length_a t).bind fun a => (length_b t).bind fun b =>
    expectOk (formulas.triangle_area a b (length_c t))

def altitude_a (t : AbstractTriangle_cβγ) : Option ℝ :=
  (area t).bind fun A => (length_a t).map fun a => 2 * A / a

def altitude_b (t : AbstractTriangle_cβγ) : Option ℝ :=
  (area t).bind fun A => (length_b t).map fun b => 2 * A / b

def altitude_c (t : AbstractTriangle_cβγ) : Option ℝ :=
  (area t).map fun A => 2 * A / length_c t

end AbstractTriangle_cβγ

/-! ### Basic facts about the embedded primitives -/

@[simp]
lemma is_finite_def (x : ℝ) : is_finite x := trivial

@[simp]
lemma expectOk_ok {ε α : Type} (a : α) : expectOk (ε := ε) (.ok a) = some a := rfl

@[simp]
lemma expectOk_err {ε α : Type} (e : ε) : expectOk (α := α) (.error e) = none := rfl

lemma acos_eq_some (x : ℝ) (h₁ : -1 ≤ x) (h₂ : x ≤ 1) : acos x = some (Real.arccos x) := by
  (delta acos; simp [h₁, h₂])

lemma acos_eq_none (x : ℝ) (h : ¬ (-1 ≤ x ∧ x ≤ 1)) : acos x = none := by
  (delta acos; simp only [if_neg h])

lemma asin_eq_some (x : ℝ) (h₁ : -1 ≤ x) (h₂ : x ≤ 1) : asin x = some (Real.arcsin x) := by
  (delta asin; simp [h₁, h₂])

lemma asin_eq_none (x : ℝ) (h : ¬ (-1 ≤ x ∧ x ≤ 1)) : asin x = none := by
  (delta asin; simp only [if_neg h])

namespace law_of_cosines

lemma return_solutions_of_neg (v s : ℝ) (hs : s < 0) :
    return_solutions v s = .error .mk := by
  (delta return_solutions; simp only [is_finite_def])
  rw [if_pos (by simp [hs])]

lemma return_solutions_both_nonpos (v s : ℝ) (hs : 0 ≤ s)
    (h₁ : v + Real.sqrt s ≤ 0) (h₂ : v - Real.sqrt s ≤ 0) :
    return_solutions v s = .error .mk := by
  (delta return_solutions; simp only [is_finite_def])
  rw [if_neg (by simp; linarith)]
  rw [if_neg (by intro h; exact absurd h.1 (by linarith))]
  rw [if_neg (by intro h; exact absurd h.2.1 (by linarith))]
  rw [if_neg (by intro h; exact absurd h.1 (by linarith))]
  rw [if_neg (by intro h; exact absurd h.1 (by linarith))]

lemma return_solutions_one_pos (v s : ℝ) (hs : 0 ≤ s)
    (h₁ : 0 < v + Real.sqrt s) (h₂ : v - Real.sqrt s ≤ 0) :
    return_solutions v s = .ok (v + Real.sqrt s, none) := by
  have hne : ¬ v + Real.sqrt s = v - Real.sqrt s := by intro h; linarith
  (delta return_solutions; simp only [is_finite_def])
  rw [if_neg (by simp; linarith)]
  rw [if_pos ⟨h₁, by intro h; linarith, hne⟩]

lemma return_solutions_two_pos (v s : ℝ) (_hs : 0 ≤ s)
    (h₁ : v + Real.sqrt s ≤ 0) (h₂ : 0 < v - Real.sqrt s) :
    return_solutions v s = .ok (v - Real.sqrt s, none) := by
  have hroot : 0 ≤ Real.sqrt s := Real.sqrt_nonneg s
  exact absurd h₁ (by linarith)

lemma return_solutions_equal (v s : ℝ) (hs : 0 ≤ s)
    (h₁ : 0 < v + Real.sqrt s) (h₂ : 0 < v - Real.sqrt s)
    (h₃ : v + Real.sqrt s = v - Real.sqrt s) :
    return_solutions v s = .ok (v + Real.sqrt s, none) := by
  (delta return_solutions; simp only [is_finite_def])
  rw [if_neg (by simp; linarith)]
  rw [if_neg (by intro h; exact absurd h₂ h.2.1)]
  rw [if_neg (by intro h; exact absurd h₁ h.1)]
  rw [if_neg (by intro h; exact h.2.2 h₃)]
  rw [if_pos ⟨h₁, h₂, h₃⟩]

lemma return_solutions_ambiguous (v s : ℝ) (hs : 0 ≤ s)
    (h₁ : 0 < v + Real.sqrt s) (h₂ : 0 < v - Real.sqrt s)
    (h₃ : v + Real.sqrt s ≠ v - Real.sqrt s) :
    return_solutions v s = .ok (v + Real.sqrt s, some (v - Real.sqrt s)) := by
  (delta return_solutions; simp only [is_finite_def])
  rw [if_neg (by simp; linarith)]
  rw [if_neg (by intro h; exact h.2.1 h₂)]
  rw [if_neg (by intro h; exact h.1 h₁)]
  rw [if_pos ⟨h₁, h₂, h₃⟩]

/-- Soundness of `return_solutions`: every returned value is a positive
choice of `value ± √squared`, the primary being `value + √squared` unless
only `value - √squared` is positive; a second value is returned only in the
ambiguous branch, where it is `value - √squared` and distinct from the
primary. -/
lemma return_solutions_sound (v s : ℝ) (p : ℝ × Option ℝ)
    (h : return_solutions v s = .ok p) :
    0 ≤ s ∧ 0 < p.1 ∧ ((p.1 - v) ^ 2 = s ∨ (v - p.1) ^ 2 = s) ∧
      (∀ y, p.2 = some y → 0 < y ∧ (v - y) ^ 2 = s ∧ y < p.1) := by
  by_cases hs : s < 0
  · rw [return_solutions_of_neg v s hs] at h
    exact absurd h (by simp)
  push_neg at hs
  have hsq : (v + Real.sqrt s - v) ^ 2 = s := by
    rw [add_sub_cancel_left, Real.sq_sqrt hs]
  have hsq' : (v - (v - Real.sqrt s)) ^ 2 = s := by
    rw [sub_sub_cancel, Real.sq_sqrt hs]
  have hroot : 0 ≤ Real.sqrt s := Real.sqrt_nonneg s
  (delta return_solutions at h; simp only [is_finite_def] at h)
  rw [if_neg (by simp; linarith)] at h
  split_ifs at h with h1 h2 h3 h4
  · rw [show p = (v + Real.sqrt s, none) from by simpa using h.symm]
    exact ⟨hs, h1.1, Or.inl hsq, by simp⟩
  · rw [show p = (v - Real.sqrt s, none) from by simpa using h.symm]
    exact ⟨hs, h2.2.1, Or.inr hsq', by simp⟩
  · rw [show p = (v + Real.sqrt s, some (v - Real.sqrt s)) from by simpa using h.symm]
    refine ⟨hs, h3.1, Or.inl hsq, ?_⟩
    intro y hy
    rw [show y = v - Real.sqrt s from by simpa using hy.symm]
    refine ⟨h3.2.1, hsq', ?_⟩
    show v - Real.sqrt s < v + Real.sqrt s
    rcases lt_or_eq_of_le hroot with h' | h'
    · linarith
    · exact absurd (by rw [← h']; ring) h3.2.2
  · rw [show p = (v + Real.sqrt s, none) from by simpa using h.symm]
    exact ⟨hs, h4.1, Or.inl hsq, by simp⟩

end law_of_cosines

/-! ### Claim theorems -/

/-- C1: the quadratic side-solving routine `return_solutions(value, squared)`
underlying the six ambiguous law-of-cosines functions fails when
`squared < 0` (over `ℝ` the non-finite failure cases are vacuous) or when
both candidate roots `value ± √squared` are non-positive; it returns the
single positive root when exactly one is positive, a single value when both
are positive and equal, and both when both are positive and distinct, the
primary being the larger root `value + √squared` and the secondary the
smaller `value - √squared`; consequently every two-valued result has two
distinct values. -/
theorem C1_return_solutions_spec (value squared : ℝ) :
    (squared < 0 → law_of_cosines.return_solutions value squared = .error .mk)
    ∧ (0 ≤ squared →
        (value + Real.sqrt squared ≤ 0 ∧ value - Real.sqrt squared ≤ 0 →
          law_of_cosines.return_solutions value squared = .error .mk)
        ∧ (0 < value + Real.sqrt squared ∧ value - Real.sqrt squared ≤ 0 →
          law_of_cosines.return_solutions value squared
            = .ok (value + Real.sqrt squared, none))
        ∧ (0 < value - Real.sqrt squared ∧ value + Real.sqrt squared ≤ 0 →
          law_of_cosines.return_solutions value squared
            = .ok (value - Real.sqrt squared, none))
        ∧ (0 < value + Real.sqrt squared ∧ 0 < value - Real.sqrt squared ∧
              value + Real.sqrt squared = value - Real.sqrt squared →
          law_of_cosines.return_solutions value squared
            = .ok (value + Real.sqrt squared, none))
        ∧ (0 < value + Real.sqrt squared ∧ 0 < value - Real.sqrt squared ∧
              value + Real.sqrt squared ≠ value - Real.sqrt squared →
          law_of_cosines.return_solutions value squared
            = .ok (value + Real.sqrt squared, some (value - Real.sqrt squared))
          ∧ value - Real.sqrt squared < value + Real.sqrt squared))
    ∧ (∀ r s, law_of_cosines.return_solutions value squared = .ok (r, some s) → r ≠ s) := by
  refine ⟨law_of_cosines.return_solutions_of_neg value squared, fun hs => ⟨?_, ?_, ?_, ?_, ?_⟩, ?_⟩
  · exact fun h => law_of_cosines.return_solutions_both_nonpos value squared hs h.1 h.2
  · exact fun h => law_of_cosines.return_solutions_one_pos value squared hs h.1 h.2
  · exact fun h => law_of_cosines.return_solutions_two_pos value squared hs h.2 h.1
  · exact fun h => law_of_cosines.return_solutions_equal value squared hs h.1 h.2.1 h.2.2
  · intro h
    refine ⟨law_of_cosines.return_solutions_ambiguous value squared hs h.1 h.2.1 h.2.2, ?_⟩
    rcases lt_or_eq_of_le (Real.sqrt_nonneg squared) with h' | h'
    · linarith
    · exact absurd (by rw [← h']; ring) h.2.2
  · intro r s h
    have hsound := law_of_cosines.return_solutions_sound value squared (r, some s) h
    have := (hsound.2.2.2 s rfl).2.2
    exact fun he => absurd this (by rw [he]; exact lt_irrefl s)

/-- Witness for C1 at concrete inputs: `(value, squared) = (0, 4)` gives the
single root `2`; `(3, 1)` is ambiguous with primary `4` and secondary `2`. -/
theorem C1_witness :
    law_of_cosines.return_solutions 0 4 = .ok (2, none)
    ∧ law_of_cosines.return_solutions 3 1 = .ok (4, some 2)
    ∧ (2 : ℝ) < 4 := by
  have h4 : Real.sqrt 4 = 2 := by
    rw [show (4 : ℝ) = 2 ^ 2 by norm_num, Real.sqrt_sq (by norm_num : (0:ℝ) ≤ 2)]
  have h1 : Real.sqrt 1 = 1 := Real.sqrt_one
  have w1 := ((C1_return_solutions_spec 0 4).2.1 (by norm_num)).2.1
    (by rw [h4]; constructor <;> norm_num)
  have w2 := ((C1_return_solutions_spec 3 1).2.1 (by norm_num)).2.2.2.2
    (by rw [h1]; refine ⟨by norm_num, by norm_num, by norm_num⟩)
  rw [h4] at w1
  rw [h1] at w2
  have w2' := w2.1
  norm_num at w1 w2'
  exact ⟨w1, w2', by norm_num⟩

/-! ### Heron-area and chaining lemmas -/

lemma triangle_area_eq (a b c : ℝ) :
    formulas.triangle_area a b c = .ok (heronArea a b c) := by
  (delta formulas.triangle_area heronArea heronSq; dsimp only [])
  rw [show (0.5 : ℝ) = 1 / 2 by norm_num]
  congr 2
  ring

lemma heronSq_pos (a b c : ℝ) (ha : 0 < a) (hb : 0 < b) (hc : 0 < c)
    (h1 : a < b + c) (h2 : b < a + c) (h3 : c < a + b) : 0 < heronSq a b c := by
  delta heronSq
  have p1 : 0 < (a + b + c) / 2 := by linarith
  have p2 : 0 < (a + b + c) / 2 - a := by linarith
  have p3 : 0 < (a + b + c) / 2 - b := by linarith
  have p4 : 0 < (a + b + c) / 2 - c := by linarith
  exact mul_pos (mul_pos (mul_pos p1 p2) p3) p4

lemma heronArea_pos (a b c : ℝ) (ha : 0 < a) (hb : 0 < b) (hc : 0 < c)
    (h1 : a < b + c) (h2 : b < a + c) (h3 : c < a + b) : 0 < heronArea a b c :=
  Real.sqrt_pos.mpr (heronSq_pos a b c ha hb hc h1 h2 h3)

lemma chain_solution_map (s : ℝ × Option ℝ) (g : ℝ → Option ℝ) (k : ℝ → ℝ) :
    chain_solution s (fun x => (g x).map k) =
      (chain_solution s g).map (fun p => MaybeTwo_map p k) := by
  rcases s with ⟨x, _ | y⟩
  · cases hgx : g x <;> (delta chain_solution MaybeTwo_map; simp [hgx])
  · cases hgx : g x <;> cases hgy : g y <;> (delta chain_solution MaybeTwo_map; simp [hgx, hgy])

/-- C2 (counterexample to the claim as stated): the degenerate triple
`(1, 1, 2)` with `a + b = c` is accepted by `AbstractTriangle_abc::new`
(the source tests `a + b < c`, not `a + b ≤ c`), contradicting the claimed
strict-triangle-inequality rejection. -/
theorem C2_counterexample :
    AbstractTriangle_abc.new 1 1 2 = .ok ⟨1, 1, 2⟩ := by
  delta AbstractTriangle_abc.new
  rw [if_neg ?_]
  rintro (h | h | h | h | h | h | h | h | h) <;> norm_num at h

/-- Characterisation of `AbstractTriangle_abc::new`: `Ok` exactly on
positive sides satisfying the non-strict triangle inequality. -/
lemma abc_new_char (a b c : ℝ) :
    (AbstractTriangle_abc.new a b c = .ok ⟨a, b, c⟩ ↔
      0 < a ∧ 0 < b ∧ 0 < c ∧ c ≤ a + b ∧ b ≤ a + c ∧ a ≤ b + c)
    ∧ (AbstractTriangle_abc.new a b c = .error .InvalidLength ↔
      ¬ (0 < a ∧ 0 < b ∧ 0 < c ∧ c ≤ a + b ∧ b ≤ a + c ∧ a ≤ b + c)) := by
  by_cases h : a + b < c ∨ a + c < b ∨ b + c < a ∨ a ≤ 0 ∨ b ≤ 0 ∨ c ≤ 0 ∨
      ¬ is_finite a ∨ ¬ is_finite b ∨ ¬ is_finite c
  · have he : AbstractTriangle_abc.new a b c = .error .InvalidLength := by
      delta AbstractTriangle_abc.new
      rw [if_pos h]
    have hnP : ¬ (0 < a ∧ 0 < b ∧ 0 < c ∧ c ≤ a + b ∧ b ≤ a + c ∧ a ≤ b + c) := by
      rintro ⟨h1, h2, h3, h4, h5, h6⟩
      rcases h with h | h | h | h | h | h | h | h | h <;>
        first
          | linarith
          | exact h trivial
    rw [he]
    constructor
    · constructor
      · intro hh
        exact absurd hh (by simp)
      · intro hh
        exact absurd hh hnP
    · simpa using hnP
  · have he : AbstractTriangle_abc.new a b c = .ok ⟨a, b, c⟩ := by
      delta AbstractTriangle_abc.new
      rw [if_neg h]
    push_neg at h
    obtain ⟨h1, h2, h3, h4, h5, h6, -⟩ := h
    have hP : 0 < a ∧ 0 < b ∧ 0 < c ∧ c ≤ a + b ∧ b ≤ a + c ∧ a ≤ b + c :=
      ⟨by linarith, by linarith, by linarith, by linarith, by linarith, by linarith⟩
    rw [he]
    constructor
    · exact ⟨fun _ => hP, fun _ => rfl⟩
    · constructor
      · intro hh
        exact absurd hh (by simp)
      · intro hh
        exact absurd hP hh

/-- C2 (amended): `AbstractTriangle_abc::new` enforces the non-strict
triangle inequality: it returns `Err(InvalidLength)` exactly when some side
is `≤ 0` (over `ℝ` non-finiteness is vacuous) or when the sum of two sides
is strictly less than the third, and returns `Ok` of the record otherwise;
in particular a degenerate triple with `a + b = c` is accepted. -/
theorem C2_abc_new_spec (a b c : ℝ) :
    (AbstractTriangle_abc.new a b c = .ok ⟨a, b, c⟩ ↔
      0 < a ∧ 0 < b ∧ 0 < c ∧ c ≤ a + b ∧ b ≤ a + c ∧ a ≤ b + c)
    ∧ (AbstractTriangle_abc.new a b c = .error .InvalidLength ↔
      ¬ (0 < a ∧ 0 < b ∧ 0 < c ∧ c ≤ a + b ∧ b ≤ a + c ∧ a ≤ b + c)) :=
  abc_new_char a b c

/-- Witness for C2 (amended) at the concrete triple `(3, 4, 5)`. -/
theorem C2_witness : AbstractTriangle_abc.new 3 4 5 = .ok ⟨3, 4, 5⟩ :=
  (C2_abc_new_spec 3 4 5).1.mpr (by norm_num)

/-- C10: `formulas::triangle_area` returns `Ok` for every input triple,
its `InvalidInput` error branch being unreachable; for a triple violating
the triangle inequality, such as `(1, 1, 3)`, it does not fail but returns
`Ok` of the square root of a negative product (which would be NaN for a
floating-point scalar; `Real.sqrt` of a negative number is `0`). -/
theorem C10_triangle_area_total :
    (∀ a b c : ℝ, ∃ A, formulas.triangle_area a b c = .ok A)
    ∧ formulas.triangle_area 1 1 3 = .ok (Real.sqrt (heronSq 1 1 3))
    ∧ heronSq 1 1 3 < 0 := by
  refine ⟨fun a b c => ⟨heronArea a b c, triangle_area_eq a b c⟩, triangle_area_eq 1 1 3, ?_⟩
  delta heronSq
  norm_num

/-! ### Trigonometric facts about valid triangles -/

lemma cos_lt_one_of_pos (x : ℝ) (h0 : 0 < x) (hπ : x < Real.pi) : Real.cos x < 1 := by
  have := Real.cos_lt_cos_of_nonneg_of_le_pi (le_refl 0) hπ.le h0
  rwa [Real.cos_zero] at this

lemma neg_one_lt_cos_of_lt_pi (x : ℝ) (h0 : 0 < x) (hπ : x < Real.pi) : -1 < Real.cos x := by
  have := Real.cos_lt_cos_of_nonneg_of_le_pi h0.le (le_refl Real.pi) hπ
  rwa [Real.cos_pi] at this

lemma heronSq_swap12 (a b c : ℝ) : heronSq b a c = heronSq a b c := by
  delta heronSq
  ring

lemma heronSq_rot (a b c : ℝ) : heronSq c a b = heronSq a b c := by
  delta heronSq
  ring

lemma heronArea_swap12 (a b c : ℝ) : heronArea b a c = heronArea a b c := by
  delta heronArea
  rw [heronSq_swap12]

lemma heronArea_rot (a b c : ℝ) : heronArea c a b = heronArea a b c := by
  delta heronArea
  rw [heronSq_rot]

/-- The sine of an angle opposite side `p` in a triangle with adjacent sides
`q`, `r` equals twice the Heron area over `q * r`. -/
lemma sin_eq_two_heron (p q r θ : ℝ) (hq : 0 < q) (hr : 0 < r)
    (hθ0 : 0 < θ) (hθπ : θ < Real.pi)
    (hcos : Real.cos θ = (q ^ 2 + r ^ 2 - p ^ 2) / (2 * q * r)) :
    Real.sin θ = 2 * heronArea p q r / (q * r) := by
  have hq' := hq.ne'
  have hr' := hr.ne'
  have hs : Real.sin θ = Real.sqrt (1 - Real.cos θ ^ 2) :=
    Real.sin_eq_sqrt_one_sub_cos_sq hθ0.le hθπ.le
  have harg : 1 - Real.cos θ ^ 2 = (2 / (q * r)) ^ 2 * heronSq p q r := by
    rw [hcos]
    delta heronSq
    field_simp
    ring
  rw [hs, harg, Real.sqrt_mul (sq_nonneg _),
    Real.sqrt_sq (div_nonneg (by norm_num) (mul_pos hq hr).le)]
  delta heronArea
  ring

namespace TriCtx

variable {a b c alpha beta gamma : ℝ}

lemma tri (h : TriCtx a b c alpha beta gamma) : a < b + c ∧ b < a + c ∧ c < a + b := by
  have h1 := cos_lt_one_of_pos alpha h.hα0 h.hαπ
  have h2 := neg_one_lt_cos_of_lt_pi alpha h.hα0 h.hαπ
  rw [h.hcosα] at h1 h2
  have hbc : 0 < 2 * b * c := by
    have hb := h.hb
    have hc := h.hc
    positivity
  have e1 : b ^ 2 + c ^ 2 - a ^ 2 < 2 * b * c := by
    have := (div_lt_one hbc).mp h1
    linarith
  have e2 : -(2 * b * c) < b ^ 2 + c ^ 2 - a ^ 2 := by
    have := (lt_div_iff₀ hbc).mp h2
    linarith
  have ha := h.ha
  have hb := h.hb
  have hc := h.hc
  refine ⟨?_, ?_, ?_⟩
  · nlinarith [e2, ha, hb, hc]
  · nlinarith [e1, ha, hb, hc]
  · nlinarith [e1, ha, hb, hc]

lemma heronSq_pos' (h : TriCtx a b c alpha beta gamma) : 0 < heronSq a b c := by
  obtain ⟨t1, t2, t3⟩ := h.tri
  exact heronSq_pos a b c h.ha h.hb h.hc t1 t2 t3

lemma heron_pos (h : TriCtx a b c alpha beta gamma) : 0 < heronArea a b c :=
  Real.sqrt_pos.mpr h.heronSq_pos'

lemma heron_sq (h : TriCtx a b c alpha beta gamma) :
    heronArea a b c ^ 2 = heronSq a b c :=
  Real.sq_sqrt h.heronSq_pos'.le

lemma sin_alpha (h : TriCtx a b c alpha beta gamma) :
    Real.sin alpha = 2 * heronArea a b c / (b * c) :=
  sin_eq_two_heron a b c alpha h.hb h.hc h.hα0 h.hαπ h.hcosα

lemma sin_beta (h : TriCtx a b c alpha beta gamma) :
    Real.sin beta = 2 * heronArea a b c / (a * c) := by
  have := sin_eq_two_heron b a c beta h.ha h.hc h.hβ0 h.hβπ h.hcosβ
  rwa [heronArea_swap12] at this

lemma sin_gamma (h : TriCtx a b c alpha beta gamma) :
    Real.sin gamma = 2 * heronArea a b c / (a * b) := by
  have := sin_eq_two_heron c a b gamma h.ha h.hb h.hγ0 h.hγπ h.hcosγ
  rwa [heronArea_rot] at this

lemma sin_add_eq (h : TriCtx a b c alpha beta gamma) :
    Real.sin (alpha + beta) = Real.sin gamma := by
  have ha' := h.ha.ne'
  have hb' := h.hb.ne'
  have hc' := h.hc.ne'
  rw [Real.sin_add, h.sin_alpha, h.sin_beta, h.sin_gamma, h.hcosα, h.hcosβ]
  field_simp
  ring

lemma cos_add_eq (h : TriCtx a b c alpha beta gamma) :
    Real.cos (alpha + beta) = -Real.cos gamma := by
  have ha' := h.ha.ne'
  have hb' := h.hb.ne'
  have hc' := h.hc.ne'
  have h16 : (16 : ℝ) * heronArea a b c ^ 2 =
      2 * a ^ 2 * b ^ 2 + 2 * b ^ 2 * c ^ 2 + 2 * a ^ 2 * c ^ 2 - a ^ 4 - b ^ 4 - c ^ 4 := by
    rw [h.heron_sq]
    delta heronSq
    ring
  rw [Real.cos_add, h.sin_alpha, h.sin_beta, h.hcosα, h.hcosβ, h.hcosγ]
  field_simp
  linear_combination (-2 * a ^ 2 * b ^ 2 * c ^ 2) * h16

lemma angle_sum (h : TriCtx a b c alpha beta gamma) :
    gamma = Real.pi - (alpha + beta) := by
  have hsγ : 0 < Real.sin gamma := Real.sin_pos_of_pos_of_lt_pi h.hγ0 h.hγπ
  have hab_pos : 0 < alpha + beta := by linarith [h.hα0, h.hβ0]
  have hlt : alpha + beta < Real.pi := by
    by_contra hge
    push_neg at hge
    have hub : alpha + beta - Real.pi ≤ Real.pi := by linarith [h.hαπ, h.hβπ]
    have hnn : 0 ≤ alpha + beta - Real.pi := by linarith
    have hs := Real.sin_nonneg_of_nonneg_of_le_pi hnn hub
    rw [Real.sin_sub_pi] at hs
    rw [h.sin_add_eq] at hs
    linarith
  have hmem1 : Real.pi - gamma ∈ Set.Icc 0 Real.pi :=
    ⟨by linarith [h.hγπ], by linarith [h.hγ0]⟩
  have hmem2 : alpha + beta ∈ Set.Icc 0 Real.pi := ⟨hab_pos.le, hlt.le⟩
  have hcos : Real.cos (Real.pi - gamma) = Real.cos (alpha + beta) := by
    rw [Real.cos_pi_sub, h.cos_add_eq]
  have := Real.injOn_cos hmem1 hmem2 hcos
  linarith

lemma law_a_bαβ (h : TriCtx a b c alpha beta gamma) :
    law_of_sines.a_from_bαβ b alpha beta = .ok a := by
  have hsβ : 0 < Real.sin beta := Real.sin_pos_of_pos_of_lt_pi h.hβ0 h.hβπ
  have ha' := h.ha.ne'
  have hb' := h.hb.ne'
  have hc' := h.hc.ne'
  have hΔ' := h.heron_pos.ne'
  have hv : b * (Real.sin alpha / Real.sin beta) = a := by
    rw [h.sin_alpha, h.sin_beta]
    field_simp
    ring
  (delta law_of_sines.a_from_bαβ; simp only [hv])
  rw [if_pos ⟨h.ha.le, trivial⟩]

lemma law_a_cαγ (h : TriCtx a b c alpha beta gamma) :
    law_of_sines.a_from_cαγ c alpha gamma = .ok a := by
  have hsγ : 0 < Real.sin gamma := Real.sin_pos_of_pos_of_lt_pi h.hγ0 h.hγπ
  have ha' := h.ha.ne'
  have hb' := h.hb.ne'
  have hc' := h.hc.ne'
  have hΔ' := h.heron_pos.ne'
  have hv : c * (Real.sin alpha / Real.sin gamma) = a := by
    rw [h.sin_alpha, h.sin_gamma]
    field_simp
    ring
  (delta law_of_sines.a_from_cαγ; simp only [hv])
  rw [if_pos ⟨h.ha.le, trivial⟩]

lemma law_b_aαβ (h : TriCtx a b c alpha beta gamma) :
    law_of_sines.b_from_aαβ a alpha beta = .ok b := by
  have hsα : 0 < Real.sin alpha := Real.sin_pos_of_pos_of_lt_pi h.hα0 h.hαπ
  have ha' := h.ha.ne'
  have hb' := h.hb.ne'
  have hc' := h.hc.ne'
  have hΔ' := h.heron_pos.ne'
  have hv : a * (Real.sin beta / Real.sin alpha) = b := by
    rw [h.sin_alpha, h.sin_beta]
    field_simp
    ring
  (delta law_of_sines.b_from_aαβ; simp only [hv])
  rw [if_pos ⟨h.hb.le, trivial⟩]

lemma law_b_cβγ (h : TriCtx a b c alpha beta gamma) :
    law_of_sines.b_from_cβγ c beta gamma = .ok b := by
  have hsγ : 0 < Real.sin gamma := Real.sin_pos_of_pos_of_lt_pi h.hγ0 h.hγπ
  have ha' := h.ha.ne'
  have hb' := h.hb.ne'
  have hc' := h.hc.ne'
  have hΔ' := h.heron_pos.ne'
  have hv : c * (Real.sin beta / Real.sin gamma) = b := by
    rw [h.sin_beta, h.sin_gamma]
    field_simp
    ring
  (delta law_of_sines.b_from_cβγ; simp only [hv])
  rw [if_pos ⟨h.hb.le, trivial⟩]

lemma law_c_aαγ (h : TriCtx a b c alpha beta gamma) :
    law_of_sines.c_from_aαγ a alpha gamma = .ok c := by
  have hsα : 0 < Real.sin alpha := Real.sin_pos_of_pos_of_lt_pi h.hα0 h.hαπ
  have ha' := h.ha.ne'
  have hb' := h.hb.ne'
  have hc' := h.hc.ne'
  have hΔ' := h.heron_pos.ne'
  have hv : a * (Real.sin gamma / Real.sin alpha) = c := by
    rw [h.sin_alpha, h.sin_gamma]
    field_simp
    ring
  (delta law_of_sines.c_from_aαγ; simp only [hv])
  rw [if_pos ⟨h.hc.le, trivial⟩]

lemma law_c_bβγ (h : TriCtx a b c alpha beta gamma) :
    law_of_sines.c_from_bβγ b beta gamma = .ok c := by
  have hsβ : 0 < Real.sin beta := Real.sin_pos_of_pos_of_lt_pi h.hβ0 h.hβπ
  have ha' := h.ha.ne'
  have hb' := h.hb.ne'
  have hc' := h.hc.ne'
  have hΔ' := h.heron_pos.ne'
  have hv : b * (Real.sin gamma / Real.sin beta) = c := by
    rw [h.sin_beta, h.sin_gamma]
    field_simp
    ring
  (delta law_of_sines.c_from_bβγ; simp only [hv])
  rw [if_pos ⟨h.hc.le, trivial⟩]

lemma alpha_rec (h : TriCtx a b c alpha beta gamma) :
    law_of_cosines.alpha_from_abc a b c = .ok alpha := by
  have harg : (-a ^ 2 + b ^ 2 + c ^ 2) / (2 * b * c) = Real.cos alpha := by
    rw [h.hcosα]
    congr 1
    ring
  have hsome : acos ((-a ^ 2 + b ^ 2 + c ^ 2) / (2 * b * c)) = some alpha := by
    rw [harg, acos_eq_some _ (Real.neg_one_le_cos alpha) (Real.cos_le_one alpha),
      Real.arccos_cos h.hα0.le h.hαπ.le]
  (delta law_of_cosines.alpha_from_abc; simp only [hsome])

lemma beta_rec (h : TriCtx a b c alpha beta gamma) :
    law_of_cosines.beta_from_abc a b c = .ok beta := by
  have harg : (a ^ 2 - b ^ 2 + c ^ 2) / (2 * a * c) = Real.cos beta := by
    rw [h.hcosβ]
    congr 1
    ring
  have hsome : acos ((a ^ 2 - b ^ 2 + c ^ 2) / (2 * a * c)) = some beta := by
    rw [harg, acos_eq_some _ (Real.neg_one_le_cos beta) (Real.cos_le_one beta),
      Real.arccos_cos h.hβ0.le h.hβπ.le]
  (delta law_of_cosines.beta_from_abc; simp only [hsome])

lemma gamma_rec (h : TriCtx a b c alpha beta gamma) :
    law_of_cosines.gamma_from_abc a b c = .ok gamma := by
  have harg : (a ^ 2 + b ^ 2 - c ^ 2) / (2 * a * b) = Real.cos gamma := by
    rw [h.hcosγ]
  have hsome : acos ((a ^ 2 + b ^ 2 - c ^ 2) / (2 * a * b)) = some gamma := by
    rw [harg, acos_eq_some _ (Real.neg_one_le_cos gamma) (Real.cos_le_one gamma),
      Real.arccos_cos h.hγ0.le h.hγπ.le]
  (delta law_of_cosines.gamma_from_abc; simp only [hsome])

end TriCtx

/-! ### Success of the angle-from-three-sides formulas on strict triangles -/

lemma alpha_from_abc_isOk (a b c : ℝ) (ha : 0 < a) (hb : 0 < b) (hc : 0 < c)
    (h1 : a < b + c) (h2 : b < a + c) (h3 : c < a + b) :
    law_of_cosines.alpha_from_abc a b c
      = .ok (Real.arccos ((-a ^ 2 + b ^ 2 + c ^ 2) / (2 * b * c))) := by
  have hbc : (0 : ℝ) < 2 * b * c := by positivity
  have hle : (-a ^ 2 + b ^ 2 + c ^ 2) / (2 * b * c) ≤ 1 := by
    rw [div_le_one hbc]
    nlinarith
  have hge : -1 ≤ (-a ^ 2 + b ^ 2 + c ^ 2) / (2 * b * c) := by
    rw [neg_le, ← neg_div, div_le_one hbc]
    nlinarith
  (delta law_of_cosines.alpha_from_abc; simp only [acos_eq_some _ hge hle])

lemma beta_from_abc_isOk (a b c : ℝ) (ha : 0 < a) (hb : 0 < b) (hc : 0 < c)
    (h1 : a < b + c) (h2 : b < a + c) (h3 : c < a + b) :
    law_of_cosines.beta_from_abc a b c
      = .ok (Real.arccos ((a ^ 2 - b ^ 2 + c ^ 2) / (2 * a * c))) := by
  have hac : (0 : ℝ) < 2 * a * c := by positivity
  have hle : (a ^ 2 - b ^ 2 + c ^ 2) / (2 * a * c) ≤ 1 := by
    rw [div_le_one hac]
    nlinarith
  have hge : -1 ≤ (a ^ 2 - b ^ 2 + c ^ 2) / (2 * a * c) := by
    rw [neg_le, ← neg_div, div_le_one hac]
    nlinarith
  (delta law_of_cosines.beta_from_abc; simp only [acos_eq_some _ hge hle])

lemma gamma_from_abc_isOk (a b c : ℝ) (ha : 0 < a) (hb : 0 < b) (hc : 0 < c)
    (h1 : a < b + c) (h2 : b < a + c) (h3 : c < a + b) :
    law_of_cosines.gamma_from_abc a b c
      = .ok (Real.arccos ((a ^ 2 + b ^ 2 - c ^ 2) / (2 * a * b))) := by
  have hab : (0 : ℝ) < 2 * a * b := by positivity
  have hle : (a ^ 2 + b ^ 2 - c ^ 2) / (2 * a * b) ≤ 1 := by
    rw [div_le_one hab]
    nlinarith
  have hge : -1 ≤ (a ^ 2 + b ^ 2 - c ^ 2) / (2 * a * b) := by
    rw [neg_le, ← neg_div, div_le_one hab]
    nlinarith
  (delta law_of_cosines.gamma_from_abc; simp only [acos_eq_some _ hge hle])

/-- C7: each angle-from-three-sides function computes `acos` of
`(±a² ± b² ± c²) / (2 · product of the two adjacent sides)`, the side
opposite the desired angle carrying the negative sign; it returns `Ok` of
that `acos` exactly when the argument lies in `[-1, 1]` and fails with
`InvalidInput` otherwise; and for every triple of strictly positive sides
satisfying the strict triangle inequality all three functions return `Ok`. -/
theorem C7_angles_from_sides (a b c : ℝ) :
    ((-1 ≤ (-a ^ 2 + b ^ 2 + c ^ 2) / (2 * b * c) ∧ (-a ^ 2 + b ^ 2 + c ^ 2) / (2 * b * c) ≤ 1 →
        law_of_cosines.alpha_from_abc a b c
          = .ok (Real.arccos ((-a ^ 2 + b ^ 2 + c ^ 2) / (2 * b * c))))
      ∧ (¬ (-1 ≤ (-a ^ 2 + b ^ 2 + c ^ 2) / (2 * b * c) ∧ (-a ^ 2 + b ^ 2 + c ^ 2) / (2 * b * c) ≤ 1) →
        law_of_cosines.alpha_from_abc a b c = .error .mk))
    ∧ ((-1 ≤ (a ^ 2 - b ^ 2 + c ^ 2) / (2 * a * c) ∧ (a ^ 2 - b ^ 2 + c ^ 2) / (2 * a * c) ≤ 1 →
        law_of_cosines.beta_from_abc a b c
          = .ok (Real.arccos ((a ^ 2 - b ^ 2 + c ^ 2) / (2 * a * c))))
      ∧ (¬ (-1 ≤ (a ^ 2 - b ^ 2 + c ^ 2) / (2 * a * c) ∧ (a ^ 2 - b ^ 2 + c ^ 2) / (2 * a * c) ≤ 1) →
        law_of_cosines.beta_from_abc a b c = .error .mk))
    ∧ ((-1 ≤ (a ^ 2 + b ^ 2 - c ^ 2) / (2 * a * b) ∧ (a ^ 2 + b ^ 2 - c ^ 2) / (2 * a * b) ≤ 1 →
        law_of_cosines.gamma_from_abc a b c
          = .ok (Real.arccos ((a ^ 2 + b ^ 2 - c ^ 2) / (2 * a * b))))
      ∧ (¬ (-1 ≤ (a ^ 2 + b ^ 2 - c ^ 2) / (2 * a * b) ∧ (a ^ 2 + b ^ 2 - c ^ 2) / (2 * a * b) ≤ 1) →
        law_of_cosines.gamma_from_abc a b c = .error .mk))
    ∧ (0 < a → 0 < b → 0 < c → a < b + c → b < a + c → c < a + b →
        (∃ x, law_of_cosines.alpha_from_abc a b c = .ok x)
        ∧ (∃ y, law_of_cosines.beta_from_abc a b c = .ok y)
        ∧ (∃ z, law_of_cosines.gamma_from_abc a b c = .ok z)) := by
  refine ⟨⟨?_, ?_⟩, ⟨?_, ?_⟩, ⟨?_, ?_⟩, ?_⟩
  · intro hr
    (delta law_of_cosines.alpha_from_abc; simp only [acos_eq_some _ hr.1 hr.2])
  · intro hr
    (delta law_of_cosines.alpha_from_abc; simp only [acos_eq_none _ hr])
  · intro hr
    (delta law_of_cosines.beta_from_abc; simp only [acos_eq_some _ hr.1 hr.2])
  · intro hr
    (delta law_of_cosines.beta_from_abc; simp only [acos_eq_none _ hr])
  · intro hr
    (delta law_of_cosines.gamma_from_abc; simp only [acos_eq_some _ hr.1 hr.2])
  · intro hr
    (delta law_of_cosines.gamma_from_abc; simp only [acos_eq_none _ hr])
  · intro ha hb hc h1 h2 h3
    exact ⟨⟨_, alpha_from_abc_isOk a b c ha hb hc h1 h2 h3⟩,
      ⟨_, beta_from_abc_isOk a b c ha hb hc h1 h2 h3⟩,
      ⟨_, gamma_from_abc_isOk a b c ha hb hc h1 h2 h3⟩⟩

/-- Witness for C7 at the right triangle `(3, 4, 5)`. -/
theorem C7_witness :
    (0 : ℝ) < 3 ∧ (3 : ℝ) < 4 + 5
    ∧ law_of_cosines.gamma_from_abc 3 4 5
        = .ok (Real.arccos (((3 : ℝ) ^ 2 + 4 ^ 2 - 5 ^ 2) / (2 * 3 * 4))) := by
  refine ⟨by norm_num, by norm_num, ?_⟩
  exact ((C7_angles_from_sides 3 4 5).2.2.1).1 (by norm_num)

/-! ### Constructor success lemmas -/

/-- In a triangle where the angle `θ` is opposite side `p` and `q` is the
other known side, the angle cannot exceed the tangent angle `asin (p / q)`
whenever the ratio is at most one. -/
lemma tangent_bound (p q θ : ℝ) (hq : 0 < q) (hθ0 : 0 < θ) (hθπ : θ < Real.pi)
    (hsin : q * Real.sin θ ≤ p) (hcos : Real.cos θ < 0 → q < p) (hr : p / q ≤ 1) :
    θ ≤ Real.arcsin (p / q) := by
  rcases lt_or_le (Real.cos θ) 0 with hneg | hpos
  · have hqp := hcos hneg
    have : 1 < p / q := (one_lt_div hq).mpr hqp
    linarith
  · have hhalf : θ ≤ Real.pi / 2 := by
      by_contra hgt
      push_neg at hgt
      have := Real.cos_neg_of_pi_div_two_lt_of_lt hgt (by linarith [Real.pi_pos])
      linarith
    have hsin' : Real.sin θ ≤ p / q := by
      rw [le_div_iff₀ hq]
      linarith [hsin]
    calc θ = Real.arcsin (Real.sin θ) := (Real.arcsin_sin (by linarith) hhalf).symm
      _ ≤ Real.arcsin (p / q) := Real.monotone_arcsin hsin'

lemma abc_new_ok (a b c : ℝ) (ha : 0 < a) (hb : 0 < b) (hc : 0 < c)
    (h1 : a ≤ b + c) (h2 : b ≤ a + c) (h3 : c ≤ a + b) :
    AbstractTriangle_abc.new a b c = .ok ⟨a, b, c⟩ :=
  (abc_new_char a b c).1.mpr ⟨ha, hb, hc, h3, h2, h1⟩

lemma bcα_new_ok (b c alpha : ℝ) (hb : 0 < b) (hc : 0 < c)
    (hα0 : 0 < alpha) (hαπ : alpha < Real.pi) :
    AbstractTriangle_bcα.new b c alpha = .ok ⟨b, c, alpha⟩ := by
  (delta AbstractTriangle_bcα.new; simp only [is_finite_def, not_true, or_false])
  rw [if_neg (by push_neg; exact ⟨hb, hc⟩), if_neg (by push_neg; exact ⟨hα0, hαπ⟩)]

lemma acβ_new_ok (a c beta : ℝ) (ha : 0 < a) (hc : 0 < c)
    (hβ0 : 0 < beta) (hβπ : beta < Real.pi) :
    AbstractTriangle_acβ.new a c beta = .ok ⟨a, c, beta⟩ := by
  (delta AbstractTriangle_acβ.new; simp only [is_finite_def, not_true, or_false])
  rw [if_neg (by push_neg; exact ⟨ha, hc⟩), if_neg (by push_neg; exact ⟨hβ0, hβπ⟩)]

lemma abγ_new_ok (a b gamma : ℝ) (ha : 0 < a) (hb : 0 < b)
    (hγ0 : 0 < gamma) (hγπ : gamma < Real.pi) :
    AbstractTriangle_abγ.new a b gamma = .ok ⟨a, b, gamma⟩ := by
  (delta AbstractTriangle_abγ.new; simp only [is_finite_def, not_true, or_false])
  rw [if_neg (by push_neg; exact ⟨ha, hb⟩), if_neg (by push_neg; exact ⟨hγ0, hγπ⟩)]

lemma aαβ_new_ok (a alpha beta : ℝ) (ha : 0 < a) (hα0 : 0 < alpha) (hαπ : alpha < Real.pi)
    (hβ0 : 0 < beta) (hβπ : beta < Real.pi) (hsum : alpha + beta < Real.pi) :
    AbstractTriangle_aαβ.new a alpha beta = .ok ⟨a, alpha, beta⟩ := by
  (delta AbstractTriangle_aαβ.new; simp only [is_finite_def, not_true, or_false])
  rw [if_neg (not_le.mpr ha), if_neg (by push_neg; exact ⟨hα0, hαπ⟩),
    if_neg (by push_neg; exact ⟨hβ0, hβπ⟩), if_neg (not_le.mpr hsum)]

lemma bαβ_new_ok (b alpha beta : ℝ) (hb : 0 < b) (hα0 : 0 < alpha) (hαπ : alpha < Real.pi)
    (hβ0 : 0 < beta) (hβπ : beta < Real.pi) (hsum : alpha + beta < Real.pi) :
    AbstractTriangle_bαβ.new b alpha beta = .ok ⟨b, alpha, beta⟩ := by
  (delta AbstractTriangle_bαβ.new; simp only [is_finite_def, not_true, or_false])
  rw [if_neg (not_le.mpr hb), if_neg (by push_neg; exact ⟨hα0, hαπ⟩),
    if_neg (by push_neg; exact ⟨hβ0, hβπ⟩), if_neg (not_le.mpr hsum)]

lemma cαβ_new_ok (c alpha beta : ℝ) (hc : 0 < c) (hα0 : 0 < alpha) (hαπ : alpha < Real.pi)
    (hβ0 : 0 < beta) (hβπ : beta < Real.pi) (hsum : alpha + beta < Real.pi) :
    AbstractTriangle_cαβ.new c alpha beta = .ok ⟨c, alpha, beta⟩ := by
  (delta AbstractTriangle_cαβ.new; simp only [is_finite_def, not_true, or_false])
  rw [if_neg (not_le.mpr hc), if_neg (by push_neg; exact ⟨hα0, hαπ⟩),
    if_neg (by push_neg; exact ⟨hβ0, hβπ⟩), if_neg (not_le.mpr hsum)]

lemma aαγ_new_ok (a alpha gamma : ℝ) (ha : 0 < a) (hα0 : 0 < alpha) (hαπ : alpha < Real.pi)
    (hγ0 : 0 < gamma) (hγπ : gamma < Real.pi) (hsum : alpha + gamma < Real.pi) :
    AbstractTriangle_aαγ.new a alpha gamma = .ok ⟨a, alpha, gamma⟩ := by
  (delta AbstractTriangle_aαγ.new; simp only [is_finite_def, not_true, or_false])
  rw [if_neg (not_le.mpr ha), if_neg (by push_neg; exact ⟨hα0, hαπ⟩),
    if_neg (by push_neg; exact ⟨hγ0, hγπ⟩), if_neg (not_le.mpr hsum)]

lemma bαγ_new_ok (b alpha gamma : ℝ) (hb : 0 < b) (hα0 : 0 < alpha) (hαπ : alpha < Real.pi)
    (hγ0 : 0 < gamma) (hγπ : gamma < Real.pi) (hsum : alpha + gamma < Real.pi) :
    AbstractTriangle_bαγ.new b alpha gamma = .ok ⟨b, alpha, gamma⟩ := by
  (delta AbstractTriangle_bαγ.new; simp only [is_finite_def, not_true, or_false])
  rw [if_neg (not_le.mpr hb), if_neg (by push_neg; exact ⟨hα0, hαπ⟩),
    if_neg (by push_neg; exact ⟨hγ0, hγπ⟩), if_neg (not_le.mpr hsum)]

lemma cαγ_new_ok (c alpha gamma : ℝ) (hc : 0 < c) (hα0 : 0 < alpha) (hαπ : alpha < Real.pi)
    (hγ0 : 0 < gamma) (hγπ : gamma < Real.pi) (hsum : alpha + gamma < Real.pi) :
    AbstractTriangle_cαγ.new c alpha gamma = .ok ⟨c, alpha, gamma⟩ := by
  (delta AbstractTriangle_cαγ.new; simp only [is_finite_def, not_true, or_false])
  rw [if_neg (not_le.mpr hc), if_neg (by push_neg; exact ⟨hα0, hαπ⟩),
    if_neg (by push_neg; exact ⟨hγ0, hγπ⟩), if_neg (not_le.mpr hsum)]

lemma aβγ_new_ok (a beta gamma : ℝ) (ha : 0 < a) (hβ0 : 0 < beta) (hβπ : beta < Real.pi)
    (hγ0 : 0 < gamma) (hγπ : gamma < Real.pi) (hsum : beta + gamma < Real.pi) :
    AbstractTriangle_aβγ.new a beta gamma = .ok ⟨a, beta, gamma⟩ := by
  (delta AbstractTriangle_aβγ.new; simp only [is_finite_def, not_true, or_false])
  rw [if_neg (not_le.mpr ha), if_neg (by push_neg; exact ⟨hβ0, hβπ⟩),
    if_neg (by push_neg; exact ⟨hγ0, hγπ⟩), if_neg (not_le.mpr hsum)]

lemma bβγ_new_ok (b beta gamma : ℝ) (hb : 0 < b) (hβ0 : 0 < beta) (hβπ : beta < Real.pi)
    (hγ0 : 0 < gamma) (hγπ : gamma < Real.pi) (hsum : beta + gamma < Real.pi) :
    AbstractTriangle_bβγ.new b beta gamma = .ok ⟨b, beta, gamma⟩ := by
  (delta AbstractTriangle_bβγ.new; simp only [is_finite_def, not_true, or_false])
  rw [if_neg (not_le.mpr hb), if_neg (by push_neg; exact ⟨hβ0, hβπ⟩),
    if_neg (by push_neg; exact ⟨hγ0, hγπ⟩), if_neg (not_le.mpr hsum)]

lemma cβγ_new_ok (c beta gamma : ℝ) (hc : 0 < c) (hβ0 : 0 < beta) (hβπ : beta < Real.pi)
    (hγ0 : 0 < gamma) (hγπ : gamma < Real.pi) (hsum : beta + gamma < Real.pi) :
    AbstractTriangle_cβγ.new c beta gamma = .ok ⟨c, beta, gamma⟩ := by
  (delta AbstractTriangle_cβγ.new; simp only [is_finite_def, not_true, or_false])
  rw [if_neg (not_le.mpr hc), if_neg (by push_neg; exact ⟨hβ0, hβπ⟩),
    if_neg (by push_neg; exact ⟨hγ0, hγπ⟩), if_neg (not_le.mpr hsum)]

namespace TriCtx

variable {a b c alpha beta gamma : ℝ}

lemma side_cross_ab (h : TriCtx a b c alpha beta gamma) :
    b * Real.sin alpha = a * Real.sin beta := by
  have ha' := h.ha.ne'
  have hb' := h.hb.ne'
  have hc' := h.hc.ne'
  rw [h.sin_alpha, h.sin_beta]
  field_simp
  ring

lemma side_cross_ac (h : TriCtx a b c alpha beta gamma) :
    c * Real.sin alpha = a * Real.sin gamma := by
  have ha' := h.ha.ne'
  have hb' := h.hb.ne'
  have hc' := h.hc.ne'
  rw [h.sin_alpha, h.sin_gamma]
  field_simp
  ring

lemma side_cross_bc (h : TriCtx a b c alpha beta gamma) :
    c * Real.sin beta = b * Real.sin gamma := by
  have ha' := h.ha.ne'
  have hb' := h.hb.ne'
  have hc' := h.hc.ne'
  rw [h.sin_beta, h.sin_gamma]
  field_simp
  ring

lemma abα_new (h : TriCtx a b c alpha beta gamma) :
    AbstractTriangle_abα.new a b alpha = .ok ⟨a, b, alpha⟩ := by
  have hratio_pos : 0 < a / b := div_pos h.ha h.hb
  have hsin : b * Real.sin alpha ≤ a :=
    calc b * Real.sin alpha = a * Real.sin beta := h.side_cross_ab
      _ ≤ a * 1 := mul_le_mul_of_nonneg_left (Real.sin_le_one beta) h.ha.le
      _ = a := mul_one a
  have hcos : Real.cos alpha < 0 → b < a := by
    intro hneg
    rw [h.hcosα] at hneg
    have hbc : (0 : ℝ) < 2 * b * c := by
      have := h.hb
      have := h.hc
      positivity
    have hnum : b ^ 2 + c ^ 2 - a ^ 2 < 0 := by
      by_contra hge
      push_neg at hge
      exact absurd (div_nonneg hge hbc.le) (not_le.mpr hneg)
    nlinarith [pow_pos h.hc 2, h.ha, h.hb]
  (delta AbstractTriangle_abα.new; simp only [is_finite_def, not_true, or_false])
  rw [if_neg (by push_neg; exact ⟨h.ha, h.hb⟩), if_neg (by push_neg; exact ⟨h.hα0, h.hαπ⟩)]
  rcases le_or_lt (a / b) 1 with hr | hr
  · have hm : asin (a / b) = some (Real.arcsin (a / b)) :=
      asin_eq_some _ (by linarith) hr
    simp only [hm]
    rw [if_neg (not_lt.mpr (tangent_bound a b alpha h.hb h.hα0 h.hαπ hsin hcos hr))]
  · have hm : asin (a / b) = none := asin_eq_none _ (fun hx => absurd hx.2 (not_le.mpr hr))
    simp only [hm]

lemma acα_new (h : TriCtx a b c alpha beta gamma) :
    AbstractTriangle_acα.new a c alpha = .ok ⟨a, c, alpha⟩ := by
  have hratio_pos : 0 < a / c := div_pos h.ha h.hc
  have hsin : c * Real.sin alpha ≤ a :=
    calc c * Real.sin alpha = a * Real.sin gamma := h.side_cross_ac
      _ ≤ a * 1 := mul_le_mul_of_nonneg_left (Real.sin_le_one gamma) h.ha.le
      _ = a := mul_one a
  have hcos : Real.cos alpha < 0 → c < a := by
    intro hneg
    rw [h.hcosα] at hneg
    have hbc : (0 : ℝ) < 2 * b * c := by
      have := h.hb
      have := h.hc
      positivity
    have hnum : b ^ 2 + c ^ 2 - a ^ 2 < 0 := by
      by_contra hge
      push_neg at hge
      exact absurd (div_nonneg hge hbc.le) (not_le.mpr hneg)
    nlinarith [pow_pos h.hb 2, h.ha, h.hc]
  (delta AbstractTriangle_acα.new; simp only [is_finite_def, not_true, or_false])
  rw [if_neg (by push_neg; exact ⟨h.ha, h.hc⟩), if_neg (by push_neg; exact ⟨h.hα0, h.hαπ⟩)]
  rcases le_or_lt (a / c) 1 with hr | hr
  · have hm : asin (a / c) = some (Real.arcsin (a / c)) :=
      asin_eq_some _ (by linarith) hr
    simp only [hm]
    rw [if_neg (not_lt.mpr (tangent_bound a c alpha h.hc h.hα0 h.hαπ hsin hcos hr))]
  · have hm : asin (a / c) = none := asin_eq_none _ (fun hx => absurd hx.2 (not_le.mpr hr))
    simp only [hm]

lemma abβ_new (h : TriCtx a b c alpha beta gamma) :
    AbstractTriangle_abβ.new a b beta = .ok ⟨a, b, beta⟩ := by
  have hratio_pos : 0 < b / a := div_pos h.hb h.ha
  have hsin : a * Real.sin beta ≤ b :=
    calc a * Real.sin beta = b * Real.sin alpha := h.side_cross_ab.symm
      _ ≤ b * 1 := mul_le_mul_of_nonneg_left (Real.sin_le_one alpha) h.hb.le
      _ = b := mul_one b
  have hcos : Real.cos beta < 0 → a < b := by
    intro hneg
    rw [h.hcosβ] at hneg
    have hac : (0 : ℝ) < 2 * a * c := by
      have := h.ha
      have := h.hc
      positivity
    have hnum : a ^ 2 + c ^ 2 - b ^ 2 < 0 := by
      by_contra hge
      push_neg at hge
      exact absurd (div_nonneg hge hac.le) (not_le.mpr hneg)
    nlinarith [pow_pos h.hc 2, h.ha, h.hb]
  (delta AbstractTriangle_abβ.new; simp only [is_finite_def, not_true, or_false])
  rw [if_neg (by push_neg; exact ⟨h.ha, h.hb⟩), if_neg (by push_neg; exact ⟨h.hβ0, h.hβπ⟩)]
  rcases le_or_lt (b / a) 1 with hr | hr
  · have hm : asin (b / a) = some (Real.arcsin (b / a)) :=
      asin_eq_some _ (by linarith) hr
    simp only [hm]
    rw [if_neg (not_lt.mpr (tangent_bound b a beta h.ha h.hβ0 h.hβπ hsin hcos hr))]
  · have hm : asin (b / a) = none := asin_eq_none _ (fun hx => absurd hx.2 (not_le.mpr hr))
    simp only [hm]

lemma bcβ_new (h : TriCtx a b c alpha beta gamma) :
    AbstractTriangle_bcβ.new b c beta = .ok ⟨b, c, beta⟩ := by
  have hratio_pos : 0 < b / c := div_pos h.hb h.hc
  have hsin : c * Real.sin beta ≤ b :=
    calc c * Real.sin beta = b * Real.sin gamma := h.side_cross_bc
      _ ≤ b * 1 := mul_le_mul_of_nonneg_left (Real.sin_le_one gamma) h.hb.le
      _ = b := mul_one b
  have hcos : Real.cos beta < 0 → c < b := by
    intro hneg
    rw [h.hcosβ] at hneg
    have hac : (0 : ℝ) < 2 * a * c := by
      have := h.ha
      have := h.hc
      positivity
    have hnum : a ^ 2 + c ^ 2 - b ^ 2 < 0 := by
      by_contra hge
      push_neg at hge
      exact absurd (div_nonneg hge hac.le) (not_le.mpr hneg)
    nlinarith [pow_pos h.ha 2, h.hb, h.hc]
  (delta AbstractTriangle_bcβ.new; simp only [is_finite_def, not_true, or_false])
  rw [if_neg (by push_neg; exact ⟨h.hb, h.hc⟩), if_neg (by push_neg; exact ⟨h.hβ0, h.hβπ⟩)]
  rcases le_or_lt (b / c) 1 with hr | hr
  · have hm : asin (b / c) = some (Real.arcsin (b / c)) :=
      asin_eq_some _ (by linarith) hr
    simp only [hm]
    rw [if_neg (not_lt.mpr (tangent_bound b c beta h.hc h.hβ0 h.hβπ hsin hcos hr))]
  · have hm : asin (b / c) = none := asin_eq_none _ (fun hx => absurd hx.2 (not_le.mpr hr))
    simp only [hm]

lemma acγ_new (h : TriCtx a b c alpha beta gamma) :
    AbstractTriangle_acγ.new a c gamma = .ok ⟨a, c, gamma⟩ := by
  have hratio_pos : 0 < c / a := div_pos h.hc h.ha
  have hsin : a * Real.sin gamma ≤ c :=
    calc a * Real.sin gamma = c * Real.sin alpha := h.side_cross_ac.symm
      _ ≤ c * 1 := mul_le_mul_of_nonneg_left (Real.sin_le_one alpha) h.hc.le
      _ = c := mul_one c
  have hcos : Real.cos gamma < 0 → a < c := by
    intro hneg
    rw [h.hcosγ] at hneg
    have hab : (0 : ℝ) < 2 * a * b := by
      have := h.ha
      have := h.hb
      positivity
    have hnum : a ^ 2 + b ^ 2 - c ^ 2 < 0 := by
      by_contra hge
      push_neg at hge
      exact absurd (div_nonneg hge hab.le) (not_le.mpr hneg)
    nlinarith [pow_pos h.hb 2, h.ha, h.hc]
  (delta AbstractTriangle_acγ.new; simp only [is_finite_def, not_true, or_false])
  rw [if_neg (by push_neg; exact ⟨h.ha, h.hc⟩), if_neg (by push_neg; exact ⟨h.hγ0, h.hγπ⟩)]
  rcases le_or_lt (c / a) 1 with hr | hr
  · have hm : asin (c / a) = some (Real.arcsin (c / a)) :=
      asin_eq_some _ (by linarith) hr
    simp only [hm]
    rw [if_neg (not_lt.mpr (tangent_bound c a gamma h.ha h.hγ0 h.hγπ hsin hcos hr))]
  · have hm : asin (c / a) = none := asin_eq_none _ (fun hx => absurd hx.2 (not_le.mpr hr))
    simp only [hm]

lemma bcγ_new (h : TriCtx a b c alpha beta gamma) :
    AbstractTriangle_bcγ.new b c gamma = .ok ⟨b, c, gamma⟩ := by
  have hratio_pos : 0 < c / b := div_pos h.hc h.hb
  have hsin : b * Real.sin gamma ≤ c :=
    calc b * Real.sin gamma = c * Real.sin beta := h.side_cross_bc.symm
      _ ≤ c * 1 := mul_le_mul_of_nonneg_left (Real.sin_le_one beta) h.hc.le
      _ = c := mul_one c
  have hcos : Real.cos gamma < 0 → b < c := by
    intro hneg
    rw [h.hcosγ] at hneg
    have hab : (0 : ℝ) < 2 * a * b := by
      have := h.ha
      have := h.hb
      positivity
    have hnum : a ^ 2 + b ^ 2 - c ^ 2 < 0 := by
      by_contra hge
      push_neg at hge
      exact absurd (div_nonneg hge hab.le) (not_le.mpr hneg)
    nlinarith [pow_pos h.ha 2, h.hb, h.hc]
  (delta AbstractTriangle_bcγ.new; simp only [is_finite_def, not_true, or_false])
  rw [if_neg (by push_neg; exact ⟨h.hb, h.hc⟩), if_neg (by push_neg; exact ⟨h.hγ0, h.hγπ⟩)]
  rcases le_or_lt (c / b) 1 with hr | hr
  · have hm : asin (c / b) = some (Real.arcsin (c / b)) :=
      asin_eq_some _ (by linarith) hr
    simp only [hm]
    rw [if_neg (not_lt.mpr (tangent_bound c b gamma h.hb h.hγ0 h.hγπ hsin hcos hr))]
  · have hm : asin (c / b) = none := asin_eq_none _ (fun hx => absurd hx.2 (not_le.mpr hr))
    simp only [hm]

end TriCtx

/-! ### Law-of-sines success on non-negative values -/

lemma a_from_bαβ_pos (b alpha beta : ℝ) (hv : 0 ≤ b * (Real.sin alpha / Real.sin beta)) :
    law_of_sines.a_from_bαβ b alpha beta = .ok (b * (Real.sin alpha / Real.sin beta)) := by
  (delta law_of_sines.a_from_bαβ; dsimp only [])
  rw [if_pos ⟨hv, trivial⟩]

lemma a_from_cαγ_pos (c alpha gamma : ℝ) (hv : 0 ≤ c * (Real.sin alpha / Real.sin gamma)) :
    law_of_sines.a_from_cαγ c alpha gamma = .ok (c * (Real.sin alpha / Real.sin gamma)) := by
  (delta law_of_sines.a_from_cαγ; dsimp only [])
  rw [if_pos ⟨hv, trivial⟩]

lemma b_from_aαβ_pos (a alpha beta : ℝ) (hv : 0 ≤ a * (Real.sin beta / Real.sin alpha)) :
    law_of_sines.b_from_aαβ a alpha beta = .ok (a * (Real.sin beta / Real.sin alpha)) := by
  (delta law_of_sines.b_from_aαβ; dsimp only [])
  rw [if_pos ⟨hv, trivial⟩]

lemma b_from_cβγ_pos (c beta gamma : ℝ) (hv : 0 ≤ c * (Real.sin beta / Real.sin gamma)) :
    law_of_sines.b_from_cβγ c beta gamma = .ok (c * (Real.sin beta / Real.sin gamma)) := by
  (delta law_of_sines.b_from_cβγ; dsimp only [])
  rw [if_pos ⟨hv, trivial⟩]

lemma c_from_aαγ_pos (a alpha gamma : ℝ) (hv : 0 ≤ a * (Real.sin gamma / Real.sin alpha)) :
    law_of_sines.c_from_aαγ a alpha gamma = .ok (a * (Real.sin gamma / Real.sin alpha)) := by
  (delta law_of_sines.c_from_aαγ; dsimp only [])
  rw [if_pos ⟨hv, trivial⟩]

lemma c_from_bβγ_pos (b beta gamma : ℝ) (hv : 0 ≤ b * (Real.sin gamma / Real.sin beta)) :
    law_of_sines.c_from_bβγ b beta gamma = .ok (b * (Real.sin gamma / Real.sin beta)) := by
  (delta law_of_sines.c_from_bβγ; dsimp only [])
  rw [if_pos ⟨hv, trivial⟩]

/-! ### Per-variant facts for the one-side-two-angles group -/

lemma C8aux_aαβ (a alpha beta : ℝ) (ha : 0 < a) (hα0 : 0 < alpha) (hαπ : alpha < Real.pi)
    (hβ0 : 0 < beta) (hβπ : beta < Real.pi) (hsum : alpha + beta < Real.pi) :
    AbstractTriangle_aαβ.new a alpha beta = .ok ⟨a, alpha, beta⟩
    ∧ AbstractTriangle_aαβ.angle_gamma ⟨a, alpha, beta⟩ = Real.pi - (alpha + beta)
    ∧ AbstractTriangle_aαβ.length_b ⟨a, alpha, beta⟩
        = some (a * (Real.sin beta / Real.sin alpha))
    ∧ AbstractTriangle_aαβ.length_c ⟨a, alpha, beta⟩
        = some (a * (Real.sin (Real.pi - (alpha + beta)) / Real.sin alpha))
    ∧ (AbstractTriangle_aαβ.area ⟨a, alpha, beta⟩).isSome = true
    ∧ (AbstractTriangle_aαβ.altitude_a ⟨a, alpha, beta⟩).isSome = true
    ∧ (AbstractTriangle_aαβ.altitude_b ⟨a, alpha, beta⟩).isSome = true
    ∧ (AbstractTriangle_aαβ.altitude_c ⟨a, alpha, beta⟩).isSome = true := by
  have hsα := Real.sin_pos_of_pos_of_lt_pi hα0 hαπ
  have hsβ := Real.sin_pos_of_pos_of_lt_pi hβ0 hβπ
  have hsγ : 0 < Real.sin (Real.pi - (alpha + beta)) :=
    Real.sin_pos_of_pos_of_lt_pi (by linarith) (by linarith)
  have hlb : AbstractTriangle_aαβ.length_b ⟨a, alpha, beta⟩
      = some (a * (Real.sin beta / Real.sin alpha)) := by
    delta AbstractTriangle_aαβ.length_b
    rw [b_from_aαβ_pos a alpha beta (le_of_lt (mul_pos ha (div_pos hsβ hsα)))]
    rfl
  have hlc : AbstractTriangle_aαβ.length_c ⟨a, alpha, beta⟩
      = some (a * (Real.sin (Real.pi - (alpha + beta)) / Real.sin alpha)) := by
    delta AbstractTriangle_aαβ.length_c
    rw [c_from_aαγ_pos a alpha (Real.pi - (alpha + beta))
      (le_of_lt (mul_pos ha (div_pos hsγ hsα)))]
    rfl
  have hArea : AbstractTriangle_aαβ.area ⟨a, alpha, beta⟩
      = some (heronArea a (a * (Real.sin beta / Real.sin alpha))
          (a * (Real.sin (Real.pi - (alpha + beta)) / Real.sin alpha))) := by
    (delta AbstractTriangle_aαβ.area; simp only [hlb, hlc, Option.some_bind])
    rw [triangle_area_eq]
    rfl
  refine ⟨aαβ_new_ok a alpha beta ha hα0 hαπ hβ0 hβπ hsum, rfl, hlb, hlc,
    by rw [hArea]; rfl, ?_, ?_, ?_⟩
  · (delta AbstractTriangle_aαβ.altitude_a; simp only [hArea])
    rfl
  · (delta AbstractTriangle_aαβ.altitude_b; simp only [hArea, hlb, Option.some_bind])
    rfl
  · (delta AbstractTriangle_aαβ.altitude_c; simp only [hArea, hlc, Option.some_bind])
    rfl

lemma C8aux_bαβ (b alpha beta : ℝ) (hb : 0 < b) (hα0 : 0 < alpha) (hαπ : alpha < Real.pi)
    (hβ0 : 0 < beta) (hβπ : beta < Real.pi) (hsum : alpha + beta < Real.pi) :
    AbstractTriangle_bαβ.new b alpha beta = .ok ⟨b, alpha, beta⟩
    ∧ AbstractTriangle_bαβ.angle_gamma ⟨b, alpha, beta⟩ = Real.pi - (alpha + beta)
    ∧ AbstractTriangle_bαβ.length_a ⟨b, alpha, beta⟩
        = some (b * (Real.sin alpha / Real.sin beta))
    ∧ AbstractTriangle_bαβ.length_c ⟨b, alpha, beta⟩
        = some (b * (Real.sin (Real.pi - (alpha + beta)) / Real.sin beta))
    ∧ (AbstractTriangle_bαβ.area ⟨b, alpha, beta⟩).isSome = true
    ∧ (AbstractTriangle_bαβ.altitude_a ⟨b, alpha, beta⟩).isSome = true
    ∧ (AbstractTriangle_bαβ.altitude_b ⟨b, alpha, beta⟩).isSome = true
    ∧ (AbstractTriangle_bαβ.altitude_c ⟨b, alpha, beta⟩).isSome = true := by
  have hsα := Real.sin_pos_of_pos_of_lt_pi hα0 hαπ
  have hsβ := Real.sin_pos_of_pos_of_lt_pi hβ0 hβπ
  have hsγ : 0 < Real.sin (Real.pi - (alpha + beta)) :=
    Real.sin_pos_of_pos_of_lt_pi (by linarith) (by linarith)
  have hla : AbstractTriangle_bαβ.length_a ⟨b, alpha, beta⟩
      = some (b * (Real.sin alpha / Real.sin beta)) := by
    delta AbstractTriangle_bαβ.length_a
    rw [a_from_bαβ_pos b alpha beta (le_of_lt (mul_pos hb (div_pos hsα hsβ)))]
    rfl
  have hlc : AbstractTriangle_bαβ.length_c ⟨b, alpha, beta⟩
      = some (b * (Real.sin (Real.pi - (alpha + beta)) / Real.sin beta)) := by
    delta AbstractTriangle_bαβ.length_c
    rw [c_from_bβγ_pos b beta (Real.pi - (alpha + beta))
      (le_of_lt (mul_pos hb (div_pos hsγ hsβ)))]
    rfl
  have hArea : AbstractTriangle_bαβ.area ⟨b, alpha, beta⟩
      = some (heronArea (b * (Real.sin alpha / Real.sin beta)) b
          (b * (Real.sin (Real.pi - (alpha + beta)) / Real.sin beta))) := by
    (delta AbstractTriangle_bαβ.area; simp only [hla, hlc, Option.some_bind])
    rw [triangle_area_eq]
    rfl
  refine ⟨bαβ_new_ok b alpha beta hb hα0 hαπ hβ0 hβπ hsum, rfl, hla, hlc,
    by rw [hArea]; rfl, ?_, ?_, ?_⟩
  · (delta AbstractTriangle_bαβ.altitude_a; simp only [hArea, hla, Option.some_bind])
    rfl
  · (delta AbstractTriangle_bαβ.altitude_b; simp only [hArea])
    rfl
  · (delta AbstractTriangle_bαβ.altitude_c; simp only [hArea, hlc, Option.some_bind])
    rfl

lemma C8aux_cαβ (c alpha beta : ℝ) (hc : 0 < c) (hα0 : 0 < alpha) (hαπ : alpha < Real.pi)
    (hβ0 : 0 < beta) (hβπ : beta < Real.pi) (hsum : alpha + beta < Real.pi) :
    AbstractTriangle_cαβ.new c alpha beta = .ok ⟨c, alpha, beta⟩
    ∧ AbstractTriangle_cαβ.angle_gamma ⟨c, alpha, beta⟩ = Real.pi - (alpha + beta)
    ∧ AbstractTriangle_cαβ.length_a ⟨c, alpha, beta⟩
        = some (c * (Real.sin alpha / Real.sin (Real.pi - (alpha + beta))))
    ∧ AbstractTriangle_cαβ.length_b ⟨c, alpha, beta⟩
        = some (c * (Real.sin beta / Real.sin (Real.pi - (alpha + beta))))
    ∧ (AbstractTriangle_cαβ.area ⟨c, alpha, beta⟩).isSome = true
    ∧ (AbstractTriangle_cαβ.altitude_a ⟨c, alpha, beta⟩).isSome = true
    ∧ (AbstractTriangle_cαβ.altitude_b ⟨c, alpha, beta⟩).isSome = true
    ∧ (AbstractTriangle_cαβ.altitude_c ⟨c, alpha, beta⟩).isSome = true := by
  have hsα := Real.sin_pos_of_pos_of_lt_pi hα0 hαπ
  have hsβ := Real.sin_pos_of_pos_of_lt_pi hβ0 hβπ
  have hsγ : 0 < Real.sin (Real.pi - (alpha + beta)) :=
    Real.sin_pos_of_pos_of_lt_pi (by linarith) (by linarith)
  have hla : AbstractTriangle_cαβ.length_a ⟨c, alpha, beta⟩
      = some (c * (Real.sin alpha / Real.sin (Real.pi - (alpha + beta)))) := by
    delta AbstractTriangle_cαβ.length_a
    rw [a_from_cαγ_pos c alpha (Real.pi - (alpha + beta))
      (le_of_lt (mul_pos hc (div_pos hsα hsγ)))]
    rfl
  have hlb : AbstractTriangle_cαβ.length_b ⟨c, alpha, beta⟩
      = some (c * (Real.sin beta / Real.sin (Real.pi - (alpha + beta)))) := by
    delta AbstractTriangle_cαβ.length_b
    rw [b_from_cβγ_pos c beta (Real.pi - (alpha + beta))
      (le_of_lt (mul_pos hc (div_pos hsβ hsγ)))]
    rfl
  have hArea : AbstractTriangle_cαβ.area ⟨c, alpha, beta⟩
      = some (heronArea (c * (Real.sin alpha / Real.sin (Real.pi - (alpha + beta))))
          (c * (Real.sin beta / Real.sin (Real.pi - (alpha + beta)))) c) := by
    (delta AbstractTriangle_cαβ.area; simp only [hla, hlb, Option.some_bind])
    rw [triangle_area_eq]
    rfl
  refine ⟨cαβ_new_ok c alpha beta hc hα0 hαπ hβ0 hβπ hsum, rfl, hla, hlb,
    by rw [hArea]; rfl, ?_, ?_, ?_⟩
  · (delta AbstractTriangle_cαβ.altitude_a; simp only [hArea, hla, Option.some_bind])
    rfl
  · (delta AbstractTriangle_cαβ.altitude_b; simp only [hArea, hlb, Option.some_bind])
    rfl
  · (delta AbstractTriangle_cαβ.altitude_c; simp only [hArea])
    rfl

lemma C8aux_aαγ (a alpha gamma : ℝ) (ha : 0 < a) (hα0 : 0 < alpha) (hαπ : alpha < Real.pi)
    (hγ0 : 0 < gamma) (hγπ : gamma < Real.pi) (hsum : alpha + gamma < Real.pi) :
    AbstractTriangle_aαγ.new a alpha gamma = .ok ⟨a, alpha, gamma⟩
    ∧ AbstractTriangle_aαγ.angle_beta ⟨a, alpha, gamma⟩ = Real.pi - (alpha + gamma)
    ∧ AbstractTriangle_aαγ.length_b ⟨a, alpha, gamma⟩
        = some (a * (Real.sin (Real.pi - (alpha + gamma)) / Real.sin alpha))
    ∧ AbstractTriangle_aαγ.length_c ⟨a, alpha, gamma⟩
        = some (a * (Real.sin gamma / Real.sin alpha))
    ∧ (AbstractTriangle_aαγ.area ⟨a, alpha, gamma⟩).isSome = true
    ∧ (AbstractTriangle_aαγ.altitude_a ⟨a, alpha, gamma⟩).isSome = true
    ∧ (AbstractTriangle_aαγ.altitude_b ⟨a, alpha, gamma⟩).isSome = true
    ∧ (AbstractTriangle_aαγ.altitude_c ⟨a, alpha, gamma⟩).isSome = true := by
  have hsα := Real.sin_pos_of_pos_of_lt_pi hα0 hαπ
  have hsγ := Real.sin_pos_of_pos_of_lt_pi hγ0 hγπ
  have hsβ : 0 < Real.sin (Real.pi - (alpha + gamma)) :=
    Real.sin_pos_of_pos_of_lt_pi (by linarith) (by linarith)
  have hlb : AbstractTriangle_aαγ.length_b ⟨a, alpha, gamma⟩
      = some (a * (Real.sin (Real.pi - (alpha + gamma)) / Real.sin alpha)) := by
    delta AbstractTriangle_aαγ.length_b
    rw [b_from_aαβ_pos a alpha (Real.pi - (alpha + gamma))
      (le_of_lt (mul_pos ha (div_pos hsβ hsα)))]
    rfl
  have hlc : AbstractTriangle_aαγ.length_c ⟨a, alpha, gamma⟩
      = some (a * (Real.sin gamma / Real.sin alpha)) := by
    delta AbstractTriangle_aαγ.length_c
    rw [c_from_aαγ_pos a alpha gamma (le_of_lt (mul_pos ha (div_pos hsγ hsα)))]
    rfl
  have hArea : AbstractTriangle_aαγ.area ⟨a, alpha, gamma⟩
      = some (heronArea a (a * (Real.sin (Real.pi - (alpha + gamma)) / Real.sin alpha))
          (a * (Real.sin gamma / Real.sin alpha))) := by
    (delta AbstractTriangle_aαγ.area; simp only [hlb, hlc, Option.some_bind])
    rw [triangle_area_eq]
    rfl
  refine ⟨aαγ_new_ok a alpha gamma ha hα0 hαπ hγ0 hγπ hsum, rfl, hlb, hlc,
    by rw [hArea]; rfl, ?_, ?_, ?_⟩
  · (delta AbstractTriangle_aαγ.altitude_a; simp only [hArea])
    rfl
  · (delta AbstractTriangle_aαγ.altitude_b; simp only [hArea, hlb, Option.some_bind])
    rfl
  · (delta AbstractTriangle_aαγ.altitude_c; simp only [hArea, hlc, Option.some_bind])
    rfl

lemma C8aux_bαγ (b alpha gamma : ℝ) (hb : 0 < b) (hα0 : 0 < alpha) (hαπ : alpha < Real.pi)
    (hγ0 : 0 < gamma) (hγπ : gamma < Real.pi) (hsum : alpha + gamma < Real.pi) :
    AbstractTriangle_bαγ.new b alpha gamma = .ok ⟨b, alpha, gamma⟩
    ∧ AbstractTriangle_bαγ.angle_beta ⟨b, alpha, gamma⟩ = Real.pi - (alpha + gamma)
    ∧ AbstractTriangle_bαγ.length_a ⟨b, alpha, gamma⟩
        = some (b * (Real.sin alpha / Real.sin (Real.pi - (alpha + gamma))))
    ∧ AbstractTriangle_bαγ.length_c ⟨b, alpha, gamma⟩
        = some (b * (Real.sin gamma / Real.sin (Real.pi - (alpha + gamma))))
    ∧ (AbstractTriangle_bαγ.area ⟨b, alpha, gamma⟩).isSome = true
    ∧ (AbstractTriangle_bαγ.altitude_a ⟨b, alpha, gamma⟩).isSome = true
    ∧ (AbstractTriangle_bαγ.altitude_b ⟨b, alpha, gamma⟩).isSome = true
    ∧ (AbstractTriangle_bαγ.altitude_c ⟨b, alpha, gamma⟩).isSome = true := by
  have hsα := Real.sin_pos_of_pos_of_lt_pi hα0 hαπ
  have hsγ := Real.sin_pos_of_pos_of_lt_pi hγ0 hγπ
  have hsβ : 0 < Real.sin (Real.pi - (alpha + gamma)) :=
    Real.sin_pos_of_pos_of_lt_pi (by linarith) (by linarith)
  have hla : AbstractTriangle_bαγ.length_a ⟨b, alpha, gamma⟩
      = some (b * (Real.sin alpha / Real.sin (Real.pi - (alpha + gamma)))) := by
    delta AbstractTriangle_bαγ.length_a
    rw [a_from_bαβ_pos b alpha (Real.pi - (alpha + gamma))
      (le_of_lt (mul_pos hb (div_pos hsα hsβ)))]
    rfl
  have hlc : AbstractTriangle_bαγ.length_c ⟨b, alpha, gamma⟩
      = some (b * (Real.sin gamma / Real.sin (Real.pi - (alpha + gamma)))) := by
    delta AbstractTriangle_bαγ.length_c
    rw [c_from_bβγ_pos b (Real.pi - (alpha + gamma)) gamma
      (le_of_lt (mul_pos hb (div_pos hsγ hsβ)))]
    rfl
  have hArea : AbstractTriangle_bαγ.area ⟨b, alpha, gamma⟩
      = some (heronArea (b * (Real.sin alpha / Real.sin (Real.pi - (alpha + gamma)))) b
          (b * (Real.sin gamma / Real.sin (Real.pi - (alpha + gamma))))) := by
    (delta AbstractTriangle_bαγ.area; simp only [hla, hlc, Option.some_bind])
    rw [triangle_area_eq]
    rfl
  refine ⟨bαγ_new_ok b alpha gamma hb hα0 hαπ hγ0 hγπ hsum, rfl, hla, hlc,
    by rw [hArea]; rfl, ?_, ?_, ?_⟩
  · (delta AbstractTriangle_bαγ.altitude_a; simp only [hArea, hla, Option.some_bind])
    rfl
  · (delta AbstractTriangle_bαγ.altitude_b; simp only [hArea])
    rfl
  · (delta AbstractTriangle_bαγ.altitude_c; simp only [hArea, hlc, Option.some_bind])
    rfl

lemma C8aux_cαγ (c alpha gamma : ℝ) (hc : 0 < c) (hα0 : 0 < alpha) (hαπ : alpha < Real.pi)
    (hγ0 : 0 < gamma) (hγπ : gamma < Real.pi) (hsum : alpha + gamma < Real.pi) :
    AbstractTriangle_cαγ.new c alpha gamma = .ok ⟨c, alpha, gamma⟩
    ∧ AbstractTriangle_cαγ.angle_beta ⟨c, alpha, gamma⟩ = Real.pi - (alpha + gamma)
    ∧ AbstractTriangle_cαγ.length_a ⟨c, alpha, gamma⟩
        = some (c * (Real.sin alpha / Real.sin gamma))
    ∧ AbstractTriangle_cαγ.length_b ⟨c, alpha, gamma⟩
        = some (c * (Real.sin (Real.pi - (alpha + gamma)) / Real.sin gamma))
    ∧ (AbstractTriangle_cαγ.area ⟨c, alpha, gamma⟩).isSome = true
    ∧ (AbstractTriangle_cαγ.altitude_a ⟨c, alpha, gamma⟩).isSome = true
    ∧ (AbstractTriangle_cαγ.altitude_b ⟨c, alpha, gamma⟩).isSome = true
    ∧ (AbstractTriangle_cαγ.altitude_c ⟨c, alpha, gamma⟩).isSome = true := by
  have hsα := Real.sin_pos_of_pos_of_lt_pi hα0 hαπ
  have hsγ := Real.sin_pos_of_pos_of_lt_pi hγ0 hγπ
  have hsβ : 0 < Real.sin (Real.pi - (alpha + gamma)) :=
    Real.sin_pos_of_pos_of_lt_pi (by linarith) (by linarith)
  have hla : AbstractTriangle_cαγ.length_a ⟨c, alpha, gamma⟩
      = some (c * (Real.sin alpha / Real.sin gamma)) := by
    delta AbstractTriangle_cαγ.length_a
    rw [a_from_cαγ_pos c alpha gamma (le_of_lt (mul_pos hc (div_pos hsα hsγ)))]
    rfl
  have hlb : AbstractTriangle_cαγ.length_b ⟨c, alpha, gamma⟩
      = some (c * (Real.sin (Real.pi - (alpha + gamma)) / Real.sin gamma)) := by
    delta AbstractTriangle_cαγ.length_b
    rw [b_from_cβγ_pos c (Real.pi - (alpha + gamma)) gamma
      (le_of_lt (mul_pos hc (div_pos hsβ hsγ)))]
    rfl
  have hArea : AbstractTriangle_cαγ.area ⟨c, alpha, gamma⟩
      = some (heronArea (c * (Real.sin alpha / Real.sin gamma))
          (c * (Real.sin (Real.pi - (alpha + gamma)) / Real.sin gamma)) c) := by
    (delta AbstractTriangle_cαγ.area; simp only [hla, hlb, Option.some_bind])
    rw [triangle_area_eq]
    rfl
  refine ⟨cαγ_new_ok c alpha gamma hc hα0 hαπ hγ0 hγπ hsum, rfl, hla, hlb,
    by rw [hArea]; rfl, ?_, ?_, ?_⟩
  · (delta AbstractTriangle_cαγ.altitude_a; simp only [hArea, hla, Option.some_bind])
    rfl
  · (delta AbstractTriangle_cαγ.altitude_b; simp only [hArea, hlb, Option.some_bind])
    rfl
  · (delta AbstractTriangle_cαγ.altitude_c; simp only [hArea])
    rfl

lemma C8aux_aβγ (a beta gamma : ℝ) (ha : 0 < a) (hβ0 : 0 < beta) (hβπ : beta < Real.pi)
    (hγ0 : 0 < gamma) (hγπ : gamma < Real.pi) (hsum : beta + gamma < Real.pi) :
    AbstractTriangle_aβγ.new a beta gamma = .ok ⟨a, beta, gamma⟩
    ∧ AbstractTriangle_aβγ.angle_alpha ⟨a, beta, gamma⟩ = Real.pi - (beta + gamma)
    ∧ AbstractTriangle_aβγ.length_b ⟨a, beta, gamma⟩
        = some (a * (Real.sin beta / Real.sin (Real.pi - (beta + gamma))))
    ∧ AbstractTriangle_aβγ.length_c ⟨a, beta, gamma⟩
        = some (a * (Real.sin gamma / Real.sin (Real.pi - (beta + gamma))))
    ∧ (AbstractTriangle_aβγ.area ⟨a, beta, gamma⟩).isSome = true
    ∧ (AbstractTriangle_aβγ.altitude_a ⟨a, beta, gamma⟩).isSome = true
    ∧ (AbstractTriangle_aβγ.altitude_b ⟨a, beta, gamma⟩).isSome = true
    ∧ (AbstractTriangle_aβγ.altitude_c ⟨a, beta, gamma⟩).isSome = true := by
  have hsβ := Real.sin_pos_of_pos_of_lt_pi hβ0 hβπ
  have hsγ := Real.sin_pos_of_pos_of_lt_pi hγ0 hγπ
  have hsα : 0 < Real.sin (Real.pi - (beta + gamma)) :=
    Real.sin_pos_of_pos_of_lt_pi (by linarith) (by linarith)
  have hlb : AbstractTriangle_aβγ.length_b ⟨a, beta, gamma⟩
      = some (a * (Real.sin beta / Real.sin (Real.pi - (beta + gamma)))) := by
    delta AbstractTriangle_aβγ.length_b
    rw [b_from_aαβ_pos a (Real.pi - (beta + gamma)) beta
      (le_of_lt (mul_pos ha (div_pos hsβ hsα)))]
    rfl
  have hlc : AbstractTriangle_aβγ.length_c ⟨a, beta, gamma⟩
      = some (a * (Real.sin gamma / Real.sin (Real.pi - (beta + gamma)))) := by
    delta AbstractTriangle_aβγ.length_c
    rw [c_from_aαγ_pos a (Real.pi - (beta + gamma)) gamma
      (le_of_lt (mul_pos ha (div_pos hsγ hsα)))]
    rfl
  have hArea : AbstractTriangle_aβγ.area ⟨a, beta, gamma⟩
      = some (heronArea a (a * (Real.sin beta / Real.sin (Real.pi - (beta + gamma))))
          (a * (Real.sin gamma / Real.sin (Real.pi - (beta + gamma))))) := by
    (delta AbstractTriangle_aβγ.area; simp only [hlb, hlc, Option.some_bind])
    rw [triangle_area_eq]
    rfl
  refine ⟨aβγ_new_ok a beta gamma ha hβ0 hβπ hγ0 hγπ hsum, rfl, hlb, hlc,
    by rw [hArea]; rfl, ?_, ?_, ?_⟩
  · (delta AbstractTriangle_aβγ.altitude_a; simp only [hArea])
    rfl
  · (delta AbstractTriangle_aβγ.altitude_b; simp only [hArea, hlb, Option.some_bind])
    rfl
  · (delta AbstractTriangle_aβγ.altitude_c; simp only [hArea, hlc, Option.some_bind])
    rfl

lemma C8aux_bβγ (b beta gamma : ℝ) (hb : 0 < b) (hβ0 : 0 < beta) (hβπ : beta < Real.pi)
    (hγ0 : 0 < gamma) (hγπ : gamma < Real.pi) (hsum : beta + gamma < Real.pi) :
    AbstractTriangle_bβγ.new b beta gamma = .ok ⟨b, beta, gamma⟩
    ∧ AbstractTriangle_bβγ.angle_alpha ⟨b, beta, gamma⟩ = Real.pi - (beta + gamma)
    ∧ AbstractTriangle_bβγ.length_a ⟨b, beta, gamma⟩
        = some (b * (Real.sin (Real.pi - (beta + gamma)) / Real.sin beta))
    ∧ AbstractTriangle_bβγ.length_c ⟨b, beta, gamma⟩
        = some (b * (Real.sin gamma / Real.sin beta))
    ∧ (AbstractTriangle_bβγ.area ⟨b, beta, gamma⟩).isSome = true
    ∧ (AbstractTriangle_bβγ.altitude_a ⟨b, beta, gamma⟩).isSome = true
    ∧ (AbstractTriangle_bβγ.altitude_b ⟨b, beta, gamma⟩).isSome = true
    ∧ (AbstractTriangle_bβγ.altitude_c ⟨b, beta, gamma⟩).isSome = true := by
  have hsβ := Real.sin_pos_of_pos_of_lt_pi hβ0 hβπ
  have hsγ := Real.sin_pos_of_pos_of_lt_pi hγ0 hγπ
  have hsα : 0 < Real.sin (Real.pi - (beta + gamma)) :=
    Real.sin_pos_of_pos_of_lt_pi (by linarith) (by linarith)
  have hla : AbstractTriangle_bβγ.length_a ⟨b, beta, gamma⟩
      = some (b * (Real.sin (Real.pi - (beta + gamma)) / Real.sin beta)) := by
    delta AbstractTriangle_bβγ.length_a
    rw [a_from_bαβ_pos b (Real.pi - (beta + gamma)) beta
      (le_of_lt (mul_pos hb (div_pos hsα hsβ)))]
    rfl
  have hlc : AbstractTriangle_bβγ.length_c ⟨b, beta, gamma⟩
      = some (b * (Real.sin gamma / Real.sin beta)) := by
    delta AbstractTriangle_bβγ.length_c
    rw [c_from_bβγ_pos b beta gamma (le_of_lt (mul_pos hb (div_pos hsγ hsβ)))]
    rfl
  have hArea : AbstractTriangle_bβγ.area ⟨b, beta, gamma⟩
      = some (heronArea (b * (Real.sin (Real.pi - (beta + gamma)) / Real.sin beta)) b
          (b * (Real.sin gamma / Real.sin beta))) := by
    (delta AbstractTriangle_bβγ.area; simp only [hla, hlc, Option.some_bind])
    rw [triangle_area_eq]
    rfl
  refine ⟨bβγ_new_ok b beta gamma hb hβ0 hβπ hγ0 hγπ hsum, rfl, hla, hlc,
    by rw [hArea]; rfl, ?_, ?_, ?_⟩
  · (delta AbstractTriangle_bβγ.altitude_a; simp only [hArea, hla, Option.some_bind])
    rfl
  · (delta AbstractTriangle_bβγ.altitude_b; simp only [hArea])
    rfl
  · (delta AbstractTriangle_bβγ.altitude_c; simp only [hArea, hlc, Option.some_bind])
    rfl

lemma C8aux_cβγ (c beta gamma : ℝ) (hc : 0 < c) (hβ0 : 0 < beta) (hβπ : beta < Real.pi)
    (hγ0 : 0 < gamma) (hγπ : gamma < Real.pi) (hsum : beta + gamma < Real.pi) :
    AbstractTriangle_cβγ.new c beta gamma = .ok ⟨c, beta, gamma⟩
    ∧ AbstractTriangle_cβγ.angle_alpha ⟨c, beta, gamma⟩ = Real.pi - (beta + gamma)
    ∧ AbstractTriangle_cβγ.length_a ⟨c, beta, gamma⟩
        = some (c * (Real.sin (Real.pi - (beta + gamma)) / Real.sin gamma))
    ∧ AbstractTriangle_cβγ.length_b ⟨c, beta, gamma⟩
        = some (c * (Real.sin beta / Real.sin gamma))
    ∧ (AbstractTriangle_cβγ.area ⟨c, beta, gamma⟩).isSome = true
    ∧ (AbstractTriangle_cβγ.altitude_a ⟨c, beta, gamma⟩).isSome = true
    ∧ (AbstractTriangle_cβγ.altitude_b ⟨c, beta, gamma⟩).isSome = true
    ∧ (AbstractTriangle_cβγ.altitude_c ⟨c, beta, gamma⟩).isSome = true := by
  have hsβ := Real.sin_pos_of_pos_of_lt_pi hβ0 hβπ
  have hsγ := Real.sin_pos_of_pos_of_lt_pi hγ0 hγπ
  have hsα : 0 < Real.sin (Real.pi - (beta + gamma)) :=
    Real.sin_pos_of_pos_of_lt_pi (by linarith) (by linarith)
  have hla : AbstractTriangle_cβγ.length_a ⟨c, beta, gamma⟩
      = some (c * (Real.sin (Real.pi - (beta + gamma)) / Real.sin gamma)) := by
    delta AbstractTriangle_cβγ.length_a
    rw [a_from_cαγ_pos c (Real.pi - (beta + gamma)) gamma
      (le_of_lt (mul_pos hc (div_pos hsα hsγ)))]
    rfl
  have hlb : AbstractTriangle_cβγ.length_b ⟨c, beta, gamma⟩
      = some (c * (Real.sin beta / Real.sin gamma)) := by
    delta AbstractTriangle_cβγ.length_b
    rw [b_from_cβγ_pos c beta gamma (le_of_lt (mul_pos hc (div_pos hsβ hsγ)))]
    rfl
  have hArea : AbstractTriangle_cβγ.area ⟨c, beta, gamma⟩
      = some (heronArea (c * (Real.sin (Real.pi - (beta + gamma)) / Real.sin gamma))
          (c * (Real.sin beta / Real.sin gamma)) c) := by
    (delta AbstractTriangle_cβγ.area; simp only [hla, hlb, Option.some_bind])
    rw [triangle_area_eq]
    rfl
  refine ⟨cβγ_new_ok c beta gamma hc hβ0 hβπ hγ0 hγπ hsum, rfl, hla, hlb,
    by rw [hArea]; rfl, ?_, ?_, ?_⟩
  · (delta AbstractTriangle_cβγ.altitude_a; simp only [hArea, hla, Option.some_bind])
    rfl
  · (delta AbstractTriangle_cβγ.altitude_b; simp only [hArea, hlb, Option.some_bind])
    rfl
  · (delta AbstractTriangle_cβγ.altitude_c; simp only [hArea])
    rfl

/-- C8: for every validly constructed one-side-two-angle variant (`aαβ`,
`bαβ`, `cαβ`, `aαγ`, `bαγ`, `cαγ`, `aβγ`, `bβγ`, `cβγ`, here with known side
`s` and known angles `θ₁`, `θ₂`), construction succeeds, the accessor for
the unknown angle returns exactly `π` minus the sum of the two known
angles, the two missing side accessors return the single law-of-sines
value (the known side times the ratio of the sines of the relevant
angles), and all nine accessors are single-valued: in the embedding their
return types are `ℝ` / `Option ℝ` (mirroring the Rust associated types,
never the ambiguous pair type) and the fallible ones all produce a value. -/
theorem C8_one_side_two_angles (s θ₁ θ₂ : ℝ) (hs : 0 < s)
    (h10 : 0 < θ₁) (h1π : θ₁ < Real.pi) (h20 : 0 < θ₂) (h2π : θ₂ < Real.pi)
    (hsum : θ₁ + θ₂ < Real.pi) :
    (AbstractTriangle_aαβ.new s θ₁ θ₂ = .ok ⟨s, θ₁, θ₂⟩
      ∧ AbstractTriangle_aαβ.angle_gamma ⟨s, θ₁, θ₂⟩ = Real.pi - (θ₁ + θ₂)
      ∧ AbstractTriangle_aαβ.length_b ⟨s, θ₁, θ₂⟩ = some (s * (Real.sin θ₂ / Real.sin θ₁))
      ∧ AbstractTriangle_aαβ.length_c ⟨s, θ₁, θ₂⟩
          = some (s * (Real.sin (Real.pi - (θ₁ + θ₂)) / Real.sin θ₁))
      ∧ (AbstractTriangle_aαβ.area ⟨s, θ₁, θ₂⟩).isSome = true
      ∧ (AbstractTriangle_aαβ.altitude_a ⟨s, θ₁, θ₂⟩).isSome = true
      ∧ (AbstractTriangle_aαβ.altitude_b ⟨s, θ₁, θ₂⟩).isSome = true
      ∧ (AbstractTriangle_aαβ.altitude_c ⟨s, θ₁, θ₂⟩).isSome = true)
    ∧ (AbstractTriangle_bαβ.new s θ₁ θ₂ = .ok ⟨s, θ₁, θ₂⟩
      ∧ AbstractTriangle_bαβ.angle_gamma ⟨s, θ₁, θ₂⟩ = Real.pi - (θ₁ + θ₂)
      ∧ AbstractTriangle_bαβ.length_a ⟨s, θ₁, θ₂⟩ = some (s * (Real.sin θ₁ / Real.sin θ₂))
      ∧ AbstractTriangle_bαβ.length_c ⟨s, θ₁, θ₂⟩
          = some (s * (Real.sin (Real.pi - (θ₁ + θ₂)) / Real.sin θ₂))
      ∧ (AbstractTriangle_bαβ.area ⟨s, θ₁, θ₂⟩).isSome = true
      ∧ (AbstractTriangle_bαβ.altitude_a ⟨s, θ₁, θ₂⟩).isSome = true
      ∧ (AbstractTriangle_bαβ.altitude_b ⟨s, θ₁, θ₂⟩).isSome = true
      ∧ (AbstractTriangle_bαβ.altitude_c ⟨s, θ₁, θ₂⟩).isSome = true)
    ∧ (AbstractTriangle_cαβ.new s θ₁ θ₂ = .ok ⟨s, θ₁, θ₂⟩
      ∧ AbstractTriangle_cαβ.angle_gamma ⟨s, θ₁, θ₂⟩ = Real.pi - (θ₁ + θ₂)
      ∧ AbstractTriangle_cαβ.length_a ⟨s, θ₁, θ₂⟩
          = some (s * (Real.sin θ₁ / Real.sin (Real.pi - (θ₁ + θ₂))))
      ∧ AbstractTriangle_cαβ.length_b ⟨s, θ₁, θ₂⟩
          = some (s * (Real.sin θ₂ / Real.sin (Real.pi - (θ₁ + θ₂))))
      ∧ (AbstractTriangle_cαβ.area ⟨s, θ₁, θ₂⟩).isSome = true
      ∧ (AbstractTriangle_cαβ.altitude_a ⟨s, θ₁, θ₂⟩).isSome = true
      ∧ (AbstractTriangle_cαβ.altitude_b ⟨s, θ₁, θ₂⟩).isSome = true
      ∧ (AbstractTriangle_cαβ.altitude_c ⟨s, θ₁, θ₂⟩).isSome = true)
    ∧ (AbstractTriangle_aαγ.new s θ₁ θ₂ = .ok ⟨s, θ₁, θ₂⟩
      ∧ AbstractTriangle_aαγ.angle_beta ⟨s, θ₁, θ₂⟩ = Real.pi - (θ₁ + θ₂)
      ∧ AbstractTriangle_aαγ.length_b ⟨s, θ₁, θ₂⟩
          = some (s * (Real.sin (Real.pi - (θ₁ + θ₂)) / Real.sin θ₁))
      ∧ AbstractTriangle_aαγ.length_c ⟨s, θ₁, θ₂⟩ = some (s * (Real.sin θ₂ / Real.sin θ₁))
      ∧ (AbstractTriangle_aαγ.area ⟨s, θ₁, θ₂⟩).isSome = true
      ∧ (AbstractTriangle_aαγ.altitude_a ⟨s, θ₁, θ₂⟩).isSome = true
      ∧ (AbstractTriangle_aαγ.altitude_b ⟨s, θ₁, θ₂⟩).isSome = true
      ∧ (AbstractTriangle_aαγ.altitude_c ⟨s, θ₁, θ₂⟩).isSome = true)
    ∧ (AbstractTriangle_bαγ.new s θ₁ θ₂ = .ok ⟨s, θ₁, θ₂⟩
      ∧ AbstractTriangle_bαγ.angle_beta ⟨s, θ₁, θ₂⟩ = Real.pi - (θ₁ + θ₂)
      ∧ AbstractTriangle_bαγ.length_a ⟨s, θ₁, θ₂⟩
          = some (s * (Real.sin θ₁ / Real.sin (Real.pi - (θ₁ + θ₂))))
      ∧ AbstractTriangle_bαγ.length_c ⟨s, θ₁, θ₂⟩
          = some (s * (Real.sin θ₂ / Real.sin (Real.pi - (θ₁ + θ₂))))
      ∧ (AbstractTriangle_bαγ.area ⟨s, θ₁, θ₂⟩).isSome = true
      ∧ (AbstractTriangle_bαγ.altitude_a ⟨s, θ₁, θ₂⟩).isSome = true
      ∧ (AbstractTriangle_bαγ.altitude_b ⟨s, θ₁, θ₂⟩).isSome = true
      ∧ (AbstractTriangle_bαγ.altitude_c ⟨s, θ₁, θ₂⟩).isSome = true)
    ∧ (AbstractTriangle_cαγ.new s θ₁ θ₂ = .ok ⟨s, θ₁, θ₂⟩
      ∧ AbstractTriangle_cαγ.angle_beta ⟨s, θ₁, θ₂⟩ = Real.pi - (θ₁ + θ₂)
      ∧ AbstractTriangle_cαγ.length_a ⟨s, θ₁, θ₂⟩ = some (s * (Real.sin θ₁ / Real.sin θ₂))
      ∧ AbstractTriangle_cαγ.length_b ⟨s, θ₁, θ₂⟩
          = some (s * (Real.sin (Real.pi - (θ₁ + θ₂)) / Real.sin θ₂))
      ∧ (AbstractTriangle_cαγ.area ⟨s, θ₁, θ₂⟩).isSome = true
      ∧ (AbstractTriangle_cαγ.altitude_a ⟨s, θ₁, θ₂⟩).isSome = true
      ∧ (AbstractTriangle_cαγ.altitude_b ⟨s, θ₁, θ₂⟩).isSome = true
      ∧ (AbstractTriangle_cαγ.altitude_c ⟨s, θ₁, θ₂⟩).isSome = true)
    ∧ (AbstractTriangle_aβγ.new s θ₁ θ₂ = .ok ⟨s, θ₁, θ₂⟩
      ∧ AbstractTriangle_aβγ.angle_alpha ⟨s, θ₁, θ₂⟩ = Real.pi - (θ₁ + θ₂)
      ∧ AbstractTriangle_aβγ.length_b ⟨s, θ₁, θ₂⟩
          = some (s * (Real.sin θ₁ / Real.sin (Real.pi - (θ₁ + θ₂))))
      ∧ AbstractTriangle_aβγ.length_c ⟨s, θ₁, θ₂⟩
          = some (s * (Real.sin θ₂ / Real.sin (Real.pi - (θ₁ + θ₂))))
      ∧ (AbstractTriangle_aβγ.area ⟨s, θ₁, θ₂⟩).isSome = true
      ∧ (AbstractTriangle_aβγ.altitude_a ⟨s, θ₁, θ₂⟩).isSome = true
      ∧ (AbstractTriangle_aβγ.altitude_b ⟨s, θ₁, θ₂⟩).isSome = true
      ∧ (AbstractTriangle_aβγ.altitude_c ⟨s, θ₁, θ₂⟩).isSome = true)
    ∧ (AbstractTriangle_bβγ.new s θ₁ θ₂ = .ok ⟨s, θ₁, θ₂⟩
      ∧ AbstractTriangle_bβγ.angle_alpha ⟨s, θ₁, θ₂⟩ = Real.pi - (θ₁ + θ₂)
      ∧ AbstractTriangle_bβγ.length_a ⟨s, θ₁, θ₂⟩
          = some (s * (Real.sin (Real.pi - (θ₁ + θ₂)) / Real.sin θ₁))
      ∧ AbstractTriangle_bβγ.length_c ⟨s, θ₁, θ₂⟩ = some (s * (Real.sin θ₂ / Real.sin θ₁))
      ∧ (AbstractTriangle_bβγ.area ⟨s, θ₁, θ₂⟩).isSome = true
      ∧ (AbstractTriangle_bβγ.altitude_a ⟨s, θ₁, θ₂⟩).isSome = true
      ∧ (AbstractTriangle_bβγ.altitude_b ⟨s, θ₁, θ₂⟩).isSome = true
      ∧ (AbstractTriangle_bβγ.altitude_c ⟨s, θ₁, θ₂⟩).isSome = true)
    ∧ (AbstractTriangle_cβγ.new s θ₁ θ₂ = .ok ⟨s, θ₁, θ₂⟩
      ∧ AbstractTriangle_cβγ.angle_alpha ⟨s, θ₁, θ₂⟩ = Real.pi - (θ₁ + θ₂)
      ∧ AbstractTriangle_cβγ.length_a ⟨s, θ₁, θ₂⟩
          = some (s * (Real.sin (Real.pi - (θ₁ + θ₂)) / Real.sin θ₂))
      ∧ AbstractTriangle_cβγ.length_b ⟨s, θ₁, θ₂⟩ = some (s * (Real.sin θ₁ / Real.sin θ₂))
      ∧ (AbstractTriangle_cβγ.area ⟨s, θ₁, θ₂⟩).isSome = true
      ∧ (AbstractTriangle_cβγ.altitude_a ⟨s, θ₁, θ₂⟩).isSome = true
      ∧ (AbstractTriangle_cβγ.altitude_b ⟨s, θ₁, θ₂⟩).isSome = true
      ∧ (AbstractTriangle_cβγ.altitude_c ⟨s, θ₁, θ₂⟩).isSome = true) :=
  ⟨C8aux_aαβ s θ₁ θ₂ hs h10 h1π h20 h2π hsum,
    C8aux_bαβ s θ₁ θ₂ hs h10 h1π h20 h2π hsum,
    C8aux_cαβ s θ₁ θ₂ hs h10 h1π h20 h2π hsum,
    C8aux_aαγ s θ₁ θ₂ hs h10 h1π h20 h2π hsum,
    C8aux_bαγ s θ₁ θ₂ hs h10 h1π h20 h2π hsum,
    C8aux_cαγ s θ₁ θ₂ hs h10 h1π h20 h2π hsum,
    C8aux_aβγ s θ₁ θ₂ hs h10 h1π h20 h2π hsum,
    C8aux_bβγ s θ₁ θ₂ hs h10 h1π h20 h2π hsum,
    C8aux_cβγ s θ₁ θ₂ hs h10 h1π h20 h2π hsum⟩

/-- Witness for C8 at side `1` and angles `π/3`, `π/3`. -/
theorem C8_witness :
    (0 : ℝ) < 1 ∧ 0 < Real.pi / 3 ∧ Real.pi / 3 + Real.pi / 3 < Real.pi
    ∧ AbstractTriangle_aαβ.new 1 (Real.pi / 3) (Real.pi / 3)
        = .ok ⟨1, Real.pi / 3, Real.pi / 3⟩
    ∧ AbstractTriangle_aαβ.angle_gamma ⟨1, Real.pi / 3, Real.pi / 3⟩
        = Real.pi - (Real.pi / 3 + Real.pi / 3) := by
  have hπ := Real.pi_pos
  have hblock := (C8_one_side_two_angles 1 (Real.pi / 3) (Real.pi / 3) (by norm_num)
    (by linarith) (by linarith) (by linarith) (by linarith) (by linarith)).1
  exact ⟨by norm_num, by linarith, by linarith, hblock.1, hblock.2.1⟩

/-! ### Tangent-angle bound behaviour of the six SSA constructors -/

lemma C3aux_abα (x y θ : ℝ) (hx : 0 < x) (hy : 0 < y) (hθ0 : 0 < θ) (hθπ : θ < Real.pi) :
    (x / y ≤ 1 →
      (Real.arcsin (x / y) < θ → AbstractTriangle_abα.new x y θ = .error .AngleTooLarge)
      ∧ (θ ≤ Real.arcsin (x / y) → AbstractTriangle_abα.new x y θ = .ok ⟨x, y, θ⟩))
    ∧ (1 < x / y → AbstractTriangle_abα.new x y θ = .ok ⟨x, y, θ⟩) := by
  have hge : (-1 : ℝ) ≤ x / y := le_trans (by norm_num) (div_pos hx hy).le
  constructor
  · intro hr
    have hm : asin (x / y) = some (Real.arcsin (x / y)) := asin_eq_some _ hge hr
    constructor
    · intro hgt
      (delta AbstractTriangle_abα.new; simp only [is_finite_def, not_true, or_false, hm])
      rw [if_neg (by push_neg; exact ⟨hx, hy⟩), if_neg (by push_neg; exact ⟨hθ0, hθπ⟩),
        if_pos hgt]
    · intro hle
      (delta AbstractTriangle_abα.new; simp only [is_finite_def, not_true, or_false, hm])
      rw [if_neg (by push_neg; exact ⟨hx, hy⟩), if_neg (by push_neg; exact ⟨hθ0, hθπ⟩),
        if_neg (not_lt.mpr hle)]
  · intro hr
    have hm : asin (x / y) = none := asin_eq_none _ (fun hd => absurd hd.2 (not_le.mpr hr))
    (delta AbstractTriangle_abα.new; simp only [is_finite_def, not_true, or_false, hm])
    rw [if_neg (by push_neg; exact ⟨hx, hy⟩), if_neg (by push_neg; exact ⟨hθ0, hθπ⟩)]

lemma C3aux_acα (x y θ : ℝ) (hx : 0 < x) (hy : 0 < y) (hθ0 : 0 < θ) (hθπ : θ < Real.pi) :
    (x / y ≤ 1 →
      (Real.arcsin (x / y) < θ → AbstractTriangle_acα.new x y θ = .error .AngleTooLarge)
      ∧ (θ ≤ Real.arcsin (x / y) → AbstractTriangle_acα.new x y θ = .ok ⟨x, y, θ⟩))
    ∧ (1 < x / y → AbstractTriangle_acα.new x y θ = .ok ⟨x, y, θ⟩) := by
  have hge : (-1 : ℝ) ≤ x / y := le_trans (by norm_num) (div_pos hx hy).le
  constructor
  · intro hr
    have hm : asin (x / y) = some (Real.arcsin (x / y)) := asin_eq_some _ hge hr
    constructor
    · intro hgt
      (delta AbstractTriangle_acα.new; simp only [is_finite_def, not_true, or_false, hm])
      rw [if_neg (by push_neg; exact ⟨hx, hy⟩), if_neg (by push_neg; exact ⟨hθ0, hθπ⟩),
        if_pos hgt]
    · intro hle
      (delta AbstractTriangle_acα.new; simp only [is_finite_def, not_true, or_false, hm])
      rw [if_neg (by push_neg; exact ⟨hx, hy⟩), if_neg (by push_neg; exact ⟨hθ0, hθπ⟩),
        if_neg (not_lt.mpr hle)]
  · intro hr
    have hm : asin (x / y) = none := asin_eq_none _ (fun hd => absurd hd.2 (not_le.mpr hr))
    (delta AbstractTriangle_acα.new; simp only [is_finite_def, not_true, or_false, hm])
    rw [if_neg (by push_neg; exact ⟨hx, hy⟩), if_neg (by push_neg; exact ⟨hθ0, hθπ⟩)]

lemma C3aux_abβ (x y θ : ℝ) (hx : 0 < x) (hy : 0 < y) (hθ0 : 0 < θ) (hθπ : θ < Real.pi) :
    (y / x ≤ 1 →
      (Real.arcsin (y / x) < θ → AbstractTriangle_abβ.new x y θ = .error .AngleTooLarge)
      ∧ (θ ≤ Real.arcsin (y / x) → AbstractTriangle_abβ.new x y θ = .ok ⟨x, y, θ⟩))
    ∧ (1 < y / x → AbstractTriangle_abβ.new x y θ = .ok ⟨x, y, θ⟩) := by
  have hge : (-1 : ℝ) ≤ y / x := le_trans (by norm_num) (div_pos hy hx).le
  constructor
  · intro hr
    have hm : asin (y / x) = some (Real.arcsin (y / x)) := asin_eq_some _ hge hr
    constructor
    · intro hgt
      (delta AbstractTriangle_abβ.new; simp only [is_finite_def, not_true, or_false, hm])
      rw [if_neg (by push_neg; exact ⟨hx, hy⟩), if_neg (by push_neg; exact ⟨hθ0, hθπ⟩),
        if_pos hgt]
    · intro hle
      (delta AbstractTriangle_abβ.new; simp only [is_finite_def, not_true, or_false, hm])
      rw [if_neg (by push_neg; exact ⟨hx, hy⟩), if_neg (by push_neg; exact ⟨hθ0, hθπ⟩),
        if_neg (not_lt.mpr hle)]
  · intro hr
    have hm : asin (y / x) = none := asin_eq_none _ (fun hd => absurd hd.2 (not_le.mpr hr))
    (delta AbstractTriangle_abβ.new; simp only [is_finite_def, not_true, or_false, hm])
    rw [if_neg (by push_neg; exact ⟨hx, hy⟩), if_neg (by push_neg; exact ⟨hθ0, hθπ⟩)]

lemma C3aux_bcβ (x y θ : ℝ) (hx : 0 < x) (hy : 0 < y) (hθ0 : 0 < θ) (hθπ : θ < Real.pi) :
    (x / y ≤ 1 →
      (Real.arcsin (x / y) < θ → AbstractTriangle_bcβ.new x y θ = .error .AngleTooLarge)
      ∧ (θ ≤ Real.arcsin (x / y) → AbstractTriangle_bcβ.new x y θ = .ok ⟨x, y, θ⟩))
    ∧ (1 < x / y → AbstractTriangle_bcβ.new x y θ = .ok ⟨x, y, θ⟩) := by
  have hge : (-1 : ℝ) ≤ x / y := le_trans (by norm_num) (div_pos hx hy).le
  constructor
  · intro hr
    have hm : asin (x / y) = some (Real.arcsin (x / y)) := asin_eq_some _ hge hr
    constructor
    · intro hgt
      (delta AbstractTriangle_bcβ.new; simp only [is_finite_def, not_true, or_false, hm])
      rw [if_neg (by push_neg; exact ⟨hx, hy⟩), if_neg (by push_neg; exact ⟨hθ0, hθπ⟩),
        if_pos hgt]
    · intro hle
      (delta AbstractTriangle_bcβ.new; simp only [is_finite_def, not_true, or_false, hm])
      rw [if_neg (by push_neg; exact ⟨hx, hy⟩), if_neg (by push_neg; exact ⟨hθ0, hθπ⟩),
        if_neg (not_lt.mpr hle)]
  · intro hr
    have hm : asin (x / y) = none := asin_eq_none _ (fun hd => absurd hd.2 (not_le.mpr hr))
    (delta AbstractTriangle_bcβ.new; simp only [is_finite_def, not_true, or_false, hm])
    rw [if_neg (by push_neg; exact ⟨hx, hy⟩), if_neg (by push_neg; exact ⟨hθ0, hθπ⟩)]

lemma C3aux_acγ (x y θ : ℝ) (hx : 0 < x) (hy : 0 < y) (hθ0 : 0 < θ) (hθπ : θ < Real.pi) :
    (y / x ≤ 1 →
      (Real.arcsin (y / x) < θ → AbstractTriangle_acγ.new x y θ = .error .AngleTooLarge)
      ∧ (θ ≤ Real.arcsin (y / x) → AbstractTriangle_acγ.new x y θ = .ok ⟨x, y, θ⟩))
    ∧ (1 < y / x → AbstractTriangle_acγ.new x y θ = .ok ⟨x, y, θ⟩) := by
  have hge : (-1 : ℝ) ≤ y / x := le_trans (by norm_num) (div_pos hy hx).le
  constructor
  · intro hr
    have hm : asin (y / x) = some (Real.arcsin (y / x)) := asin_eq_some _ hge hr
    constructor
    · intro hgt
      (delta AbstractTriangle_acγ.new; simp only [is_finite_def, not_true, or_false, hm])
      rw [if_neg (by push_neg; exact ⟨hx, hy⟩), if_neg (by push_neg; exact ⟨hθ0, hθπ⟩),
        if_pos hgt]
    · intro hle
      (delta AbstractTriangle_acγ.new; simp only [is_finite_def, not_true, or_false, hm])
      rw [if_neg (by push_neg; exact ⟨hx, hy⟩), if_neg (by push_neg; exact ⟨hθ0, hθπ⟩),
        if_neg (not_lt.mpr hle)]
  · intro hr
    have hm : asin (y / x) = none := asin_eq_none _ (fun hd => absurd hd.2 (not_le.mpr hr))
    (delta AbstractTriangle_acγ.new; simp only [is_finite_def, not_true, or_false, hm])
    rw [if_neg (by push_neg; exact ⟨hx, hy⟩), if_neg (by push_neg; exact ⟨hθ0, hθπ⟩)]

lemma C3aux_bcγ (x y θ : ℝ) (hx : 0 < x) (hy : 0 < y) (hθ0 : 0 < θ) (hθπ : θ < Real.pi) :
    (y / x ≤ 1 →
      (Real.arcsin (y / x) < θ → AbstractTriangle_bcγ.new x y θ = .error .AngleTooLarge)
      ∧ (θ ≤ Real.arcsin (y / x) → AbstractTriangle_bcγ.new x y θ = .ok ⟨x, y, θ⟩))
    ∧ (1 < y / x → AbstractTriangle_bcγ.new x y θ = .ok ⟨x, y, θ⟩) := by
  have hge : (-1 : ℝ) ≤ y / x := le_trans (by norm_num) (div_pos hy hx).le
  constructor
  · intro hr
    have hm : asin (y / x) = some (Real.arcsin (y / x)) := asin_eq_some _ hge hr
    constructor
    · intro hgt
      (delta AbstractTriangle_bcγ.new; simp only [is_finite_def, not_true, or_false, hm])
      rw [if_neg (by push_neg; exact ⟨hx, hy⟩), if_neg (by push_neg; exact ⟨hθ0, hθπ⟩),
        if_pos hgt]
    · intro hle
      (delta AbstractTriangle_bcγ.new; simp only [is_finite_def, not_true, or_false, hm])
      rw [if_neg (by push_neg; exact ⟨hx, hy⟩), if_neg (by push_neg; exact ⟨hθ0, hθπ⟩),
        if_neg (not_lt.mpr hle)]
  · intro hr
    have hm : asin (y / x) = none := asin_eq_none _ (fun hd => absurd hd.2 (not_le.mpr hr))
    (delta AbstractTriangle_bcγ.new; simp only [is_finite_def, not_true, or_false, hm])
    rw [if_neg (by push_neg; exact ⟨hx, hy⟩), if_neg (by push_neg; exact ⟨hθ0, hθπ⟩)]

/-- C3: for each of the six non-included side-side-angle constructors (the
first two arguments `x`, `y` being the two sides in the variant's field
order and `θ` the angle), once the positivity and angle-range checks pass:
if the ratio of the side opposite the known angle to the other side is at
most `1` (so `asin` returns a tangent angle), an angle strictly greater
than the tangent angle fails with the distinct `AngleTooLarge` error, and
an angle at most the tangent angle — in particular one exactly equal to
it — is accepted; if the ratio exceeds `1`, `asin` returns no result, the
bound check is skipped, and construction succeeds. -/
theorem C3_tangent_bound_checks (x y θ : ℝ) (hx : 0 < x) (hy : 0 < y)
    (hθ0 : 0 < θ) (hθπ : θ < Real.pi) :
    ((x / y ≤ 1 →
      (Real.arcsin (x / y) < θ → AbstractTriangle_abα.new x y θ = .error .AngleTooLarge)
      ∧ (θ ≤ Real.arcsin (x / y) → AbstractTriangle_abα.new x y θ = .ok ⟨x, y, θ⟩))
    ∧ (1 < x / y → AbstractTriangle_abα.new x y θ = .ok ⟨x, y, θ⟩))
    ∧ ((x / y ≤ 1 →
      (Real.arcsin (x / y) < θ → AbstractTriangle_acα.new x y θ = .error .AngleTooLarge)
      ∧ (θ ≤ Real.arcsin (x / y) → AbstractTriangle_acα.new x y θ = .ok ⟨x, y, θ⟩))
    ∧ (1 < x / y → AbstractTriangle_acα.new x y θ = .ok ⟨x, y, θ⟩))
    ∧ ((y / x ≤ 1 →
      (Real.arcsin (y / x) < θ → AbstractTriangle_abβ.new x y θ = .error .AngleTooLarge)
      ∧ (θ ≤ Real.arcsin (y / x) → AbstractTriangle_abβ.new x y θ = .ok ⟨x, y, θ⟩))
    ∧ (1 < y / x → AbstractTriangle_abβ.new x y θ = .ok ⟨x, y, θ⟩))
    ∧ ((x / y ≤ 1 →
      (Real.arcsin (x / y) < θ → AbstractTriangle_bcβ.new x y θ = .error .AngleTooLarge)
      ∧ (θ ≤ Real.arcsin (x / y) → AbstractTriangle_bcβ.new x y θ = .ok ⟨x, y, θ⟩))
    ∧ (1 < x / y → AbstractTriangle_bcβ.new x y θ = .ok ⟨x, y, θ⟩))
    ∧ ((y / x ≤ 1 →
      (Real.arcsin (y / x) < θ → AbstractTriangle_acγ.new x y θ = .error .AngleTooLarge)
      ∧ (θ ≤ Real.arcsin (y / x) → AbstractTriangle_acγ.new x y θ = .ok ⟨x, y, θ⟩))
    ∧ (1 < y / x → AbstractTriangle_acγ.new x y θ = .ok ⟨x, y, θ⟩))
    ∧ ((y / x ≤ 1 →
      (Real.arcsin (y / x) < θ → AbstractTriangle_bcγ.new x y θ = .error .AngleTooLarge)
      ∧ (θ ≤ Real.arcsin (y / x) → AbstractTriangle_bcγ.new x y θ = .ok ⟨x, y, θ⟩))
    ∧ (1 < y / x → AbstractTriangle_bcγ.new x y θ = .ok ⟨x, y, θ⟩)) :=
  ⟨C3aux_abα x y θ hx hy hθ0 hθπ, C3aux_acα x y θ hx hy hθ0 hθπ,
    C3aux_abβ x y θ hx hy hθ0 hθπ, C3aux_bcβ x y θ hx hy hθ0 hθπ,
    C3aux_acγ x y θ hx hy hθ0 hθπ, C3aux_bcγ x y θ hx hy hθ0 hθπ⟩

/-- Witness for C3: with sides `1`, `2` the tangent angle is
`asin (1/2) = π/6`; the angle `π/4` exceeds it and is rejected with
`AngleTooLarge`, the angle exactly `π/6` is accepted, and with sides `3`,
`2` (ratio above one) the angle `π/2` is accepted without any bound check. -/
theorem C3_witness :
    AbstractTriangle_abα.new 1 2 (Real.pi / 4) = .error .AngleTooLarge
    ∧ AbstractTriangle_abα.new 1 2 (Real.pi / 6) = .ok ⟨1, 2, Real.pi / 6⟩
    ∧ AbstractTriangle_abα.new 3 2 (Real.pi / 2) = .ok ⟨3, 2, Real.pi / 2⟩ := by
  have hπ := Real.pi_pos
  have harc : Real.arcsin ((1 : ℝ) / 2) = Real.pi / 6 := by
    rw [show (1 : ℝ) / 2 = Real.sin (Real.pi / 6) from Real.sin_pi_div_six.symm]
    exact Real.arcsin_sin (by linarith) (by linarith)
  have hr12 : (1 : ℝ) / 2 ≤ 1 := by norm_num
  refine ⟨?_, ?_, ?_⟩
  · have h := ((C3_tangent_bound_checks 1 2 (Real.pi / 4) (by norm_num) (by norm_num)
      (by linarith) (by linarith)).1.1 (by norm_num)).1
    rw [show ((1 : ℝ) / 2) = 1 / 2 from rfl] at h
    exact h (by rw [harc]; linarith)
  · have h := ((C3_tangent_bound_checks 1 2 (Real.pi / 6) (by norm_num) (by norm_num)
      (by linarith) (by linarith)).1.1 (by norm_num)).2
    exact h (by rw [harc])
  · exact (C3_tangent_bound_checks 3 2 (Real.pi / 2) (by norm_num) (by norm_num)
      (by linarith) (by linarith)).1.2 (by norm_num)

/-! ### The concrete ambiguous SSA instance a = 9, b = 10, α = acos(8/17) - acos(8/10) -/

lemma ex9_cos : Real.cos (Real.arccos (8 / 17) - Real.arccos (8 / 10)) = 77 / 85 := by
  rw [Real.cos_sub, Real.cos_arccos (by norm_num) (by norm_num),
    Real.cos_arccos (by norm_num) (by norm_num), Real.sin_arccos, Real.sin_arccos,
    show (1 : ℝ) - (8 / 17) ^ 2 = (15 / 17) ^ 2 by norm_num,
    show (1 : ℝ) - (8 / 10) ^ 2 = (6 / 10) ^ 2 by norm_num,
    Real.sqrt_sq (by norm_num : (0 : ℝ) ≤ 15 / 17),
    Real.sqrt_sq (by norm_num : (0 : ℝ) ≤ 6 / 10)]
  norm_num

lemma ex9_sin : Real.sin (Real.arccos (8 / 17) - Real.arccos (8 / 10)) = 36 / 85 := by
  rw [Real.sin_sub, Real.cos_arccos (by norm_num) (by norm_num),
    Real.cos_arccos (by norm_num) (by norm_num), Real.sin_arccos, Real.sin_arccos,
    show (1 : ℝ) - (8 / 17) ^ 2 = (15 / 17) ^ 2 by norm_num,
    show (1 : ℝ) - (8 / 10) ^ 2 = (6 / 10) ^ 2 by norm_num,
    Real.sqrt_sq (by norm_num : (0 : ℝ) ≤ 15 / 17),
    Real.sqrt_sq (by norm_num : (0 : ℝ) ≤ 6 / 10)]
  norm_num

lemma ex9_alpha_pos : 0 < Real.arccos (8 / 17) - Real.arccos (8 / 10) := by
  have hm1 : (8 / 17 : ℝ) ∈ Set.Icc (-1 : ℝ) 1 := ⟨by norm_num, by norm_num⟩
  have hm2 : (8 / 10 : ℝ) ∈ Set.Icc (-1 : ℝ) 1 := ⟨by norm_num, by norm_num⟩
  have := Real.strictAntiOn_arccos hm1 hm2 (by norm_num)
  linarith

lemma ex9_alpha_lt_half : Real.arccos (8 / 17) - Real.arccos (8 / 10) < Real.pi / 2 := by
  have h1 : Real.arccos (8 / 17) ≤ Real.pi / 2 :=
    Real.arccos_le_pi_div_two.mpr (by norm_num)
  have h2 : 0 < Real.arccos (8 / 10) := Real.arccos_pos.mpr (by norm_num)
  linarith

lemma ex9_alpha_lt_pi : Real.arccos (8 / 17) - Real.arccos (8 / 10) < Real.pi := by
  have := ex9_alpha_lt_half
  have := Real.pi_pos
  linarith

lemma ex9_new :
    AbstractTriangle_abα.new 9 10 (Real.arccos (8 / 17) - Real.arccos (8 / 10))
      = .ok ⟨9, 10, Real.arccos (8 / 17) - Real.arccos (8 / 10)⟩ := by
  have hle9 : Real.arccos (8 / 17) - Real.arccos (8 / 10) ≤ Real.arcsin (9 / 10) := by
    have h1 : Real.arccos (8 / 17) - Real.arccos (8 / 10)
        = Real.arcsin (Real.sin (Real.arccos (8 / 17) - Real.arccos (8 / 10))) :=
      (Real.arcsin_sin (by linarith [ex9_alpha_pos, Real.pi_pos]) ex9_alpha_lt_half.le).symm
    rw [h1, ex9_sin]
    exact Real.monotone_arcsin (by norm_num)
  exact ((C3aux_abα 9 10 (Real.arccos (8 / 17) - Real.arccos (8 / 10)) (by norm_num)
    (by norm_num) ex9_alpha_pos ex9_alpha_lt_pi).1 (by norm_num)).2 hle9

lemma ex9_c_from :
    law_of_cosines.c_from_abα 9 10 (Real.arccos (8 / 17) - Real.arccos (8 / 10))
      = .ok (17, some (19 / 17)) := by
  have hsqrtS : Real.sqrt ((9 : ℝ) ^ 2 + ((10 : ℝ) ^ 2 * ((77 : ℝ) / 85) ^ 2) - (10 : ℝ) ^ 2)
      = 135 / 17 := by
    rw [show (9 : ℝ) ^ 2 + ((10 : ℝ) ^ 2 * ((77 : ℝ) / 85) ^ 2) - (10 : ℝ) ^ 2
        = (135 / 17) ^ 2 by norm_num]
    exact Real.sqrt_sq (by norm_num)
  have hamb := law_of_cosines.return_solutions_ambiguous (10 * ((77 : ℝ) / 85))
    ((9 : ℝ) ^ 2 + ((10 : ℝ) ^ 2 * ((77 : ℝ) / 85) ^ 2) - (10 : ℝ) ^ 2)
    (by norm_num) (by rw [hsqrtS]; norm_num) (by rw [hsqrtS]; norm_num)
    (by rw [hsqrtS]; norm_num)
  rw [hsqrtS] at hamb
  (delta law_of_cosines.c_from_abα; simp only [ex9_cos])
  rw [hamb]
  norm_num

lemma ex9_length_c :
    AbstractTriangle_abα.length_c ⟨9, 10, Real.arccos (8 / 17) - Real.arccos (8 / 10)⟩
      = some (17, some (19 / 17)) := by
  (delta AbstractTriangle_abα.length_c; simp only [ex9_c_from, expectOk_ok])

lemma ex9_heron_17 : heronArea 9 10 17 = 36 := by
  delta heronArea
  rw [show heronSq 9 10 17 = 36 ^ 2 from by delta heronSq; norm_num]
  exact Real.sqrt_sq (by norm_num)

lemma ex9_heron_second : heronArea 9 10 (19 / 17) = 684 / 289 := by
  delta heronArea
  rw [show heronSq 9 10 (19 / 17) = (684 / 289) ^ 2 from by delta heronSq; norm_num]
  exact Real.sqrt_sq (by norm_num)

lemma ex9_altitude_a :
    AbstractTriangle_abα.altitude_a ⟨9, 10, Real.arccos (8 / 17) - Real.arccos (8 / 10)⟩
      = some (8, some (152 / 289)) := by
  (delta AbstractTriangle_abα.altitude_a chain_solution AbstractTriangle_abα.length_a AbstractTriangle_abα.length_b; simp only [ex9_length_c, Option.some_bind, triangle_area_eq, expectOk_ok, Option.map_some', ex9_heron_17, ex9_heron_second])
  norm_num

lemma ex9_altitude_b :
    AbstractTriangle_abα.altitude_b ⟨9, 10, Real.arccos (8 / 17) - Real.arccos (8 / 10)⟩
      = some (36 / 5, some (684 / 1445)) := by
  (delta AbstractTriangle_abα.altitude_b chain_solution AbstractTriangle_abα.length_a AbstractTriangle_abα.length_b; simp only [ex9_length_c, Option.some_bind, triangle_area_eq, expectOk_ok, Option.map_some', ex9_heron_17, ex9_heron_second])
  norm_num

lemma ex9_altitude_c :
    AbstractTriangle_abα.altitude_c ⟨9, 10, Real.arccos (8 / 17) - Real.arccos (8 / 10)⟩
      = some (72 / 17) := by
  (delta AbstractTriangle_abα.altitude_c AbstractTriangle_abα.length_a AbstractTriangle_abα.length_b; simp only [ex9_length_c, Option.some_bind, triangle_area_eq, expectOk_ok, Option.map_some', ex9_heron_17])
  norm_num

/-- C5: for the validly constructed `abα` variant with `a = 9`, `b = 10`,
`α = acos(8/17) - acos(8/10)`, the `length_c` accessor returns exactly two
solutions: the primary `17` and the secondary `19/17`, in exact real
arithmetic. -/
theorem C5_concrete_ambiguous_case :
    AbstractTriangle_abα.new 9 10 (Real.arccos (8 / 17) - Real.arccos (8 / 10))
      = .ok ⟨9, 10, Real.arccos (8 / 17) - Real.arccos (8 / 10)⟩
    ∧ AbstractTriangle_abα.length_c ⟨9, 10, Real.arccos (8 / 17) - Real.arccos (8 / 10)⟩
      = some (17, some (19 / 17)) :=
  ⟨ex9_new, ex9_length_c⟩

/-- C4 (counterexample to the claim as stated): on the validly constructed
ambiguous `abα` instance `(9, 10, acos(8/17) - acos(8/10))` the accessor
`altitude_a` — an altitude dropped onto a known side — returns TWO distinct
values, `8` and `152/289`, so it is not single-valued as claimed. -/
theorem C4_counterexample :
    AbstractTriangle_abα.new 9 10 (Real.arccos (8 / 17) - Real.arccos (8 / 10))
      = .ok ⟨9, 10, Real.arccos (8 / 17) - Real.arccos (8 / 10)⟩
    ∧ AbstractTriangle_abα.altitude_a ⟨9, 10, Real.arccos (8 / 17) - Real.arccos (8 / 10)⟩
      = some (8, some (152 / 289))
    ∧ (8 : ℝ) ≠ 152 / 289 :=
  ⟨ex9_new, ex9_altitude_a, by norm_num⟩

/-- C4 (amended): for the SSA non-included variants the known angle
accessor is single-valued (it returns the stored angle; likewise for all
six variants), and the altitude dropped onto the DERIVED third side
(`altitude_c` for `abα`) is single-valued, while the altitudes dropped onto
the two known sides follow the ambiguity of the derived side and are
dual-valued with distinct values in ambiguous instances, as at the instance
`(9, 10, acos(8/17) - acos(8/10))`. -/
theorem C4_ssa_accessor_shapes :
    (∀ t : AbstractTriangle_abα, AbstractTriangle_abα.angle_alpha t = t.alpha)
    ∧ (∀ t : AbstractTriangle_acα, AbstractTriangle_acα.angle_alpha t = t.alpha)
    ∧ (∀ t : AbstractTriangle_abβ, AbstractTriangle_abβ.angle_beta t = t.beta)
    ∧ (∀ t : AbstractTriangle_bcβ, AbstractTriangle_bcβ.angle_beta t = t.beta)
    ∧ (∀ t : AbstractTriangle_acγ, AbstractTriangle_acγ.angle_gamma t = t.gamma)
    ∧ (∀ t : AbstractTriangle_bcγ, AbstractTriangle_bcγ.angle_gamma t = t.gamma)
    ∧ AbstractTriangle_abα.altitude_c ⟨9, 10, Real.arccos (8 / 17) - Real.arccos (8 / 10)⟩
        = some (72 / 17)
    ∧ AbstractTriangle_abα.altitude_a ⟨9, 10, Real.arccos (8 / 17) - Real.arccos (8 / 10)⟩
        = some (8, some (152 / 289))
    ∧ AbstractTriangle_abα.altitude_b ⟨9, 10, Real.arccos (8 / 17) - Real.arccos (8 / 10)⟩
        = some (36 / 5, some (684 / 1445))
    ∧ (8 : ℝ) ≠ 152 / 289 ∧ (36 / 5 : ℝ) ≠ 684 / 1445 :=
  ⟨fun _ => rfl, fun _ => rfl, fun _ => rfl, fun _ => rfl, fun _ => rfl, fun _ => rfl,
    ex9_altitude_c, ex9_altitude_a, ex9_altitude_b, by norm_num, by norm_num⟩

/-! ### Altitude-to-area relations for the ambiguous variants -/

lemma C9aux_abα (t : AbstractTriangle_abα) :
    AbstractTriangle_abα.altitude_a t
      = (AbstractTriangle_abα.area t).map
          (fun p => MaybeTwo_map p (fun A => 2 * A / AbstractTriangle_abα.length_a t))
    ∧ AbstractTriangle_abα.altitude_b t
      = (AbstractTriangle_abα.area t).map
          (fun p => MaybeTwo_map p (fun A => 2 * A / AbstractTriangle_abα.length_b t))
    ∧ AbstractTriangle_abα.altitude_c t
      = (AbstractTriangle_abα.area t).bind
          (fun p => (AbstractTriangle_abα.length_c t).map (fun s => 2 * p.1 / s.1)) := by
  refine ⟨?_, ?_, ?_⟩
  · cases hlc : AbstractTriangle_abα.length_c t with
    | none => (delta AbstractTriangle_abα.altitude_a AbstractTriangle_abα.area; simp [hlc])
    | some s =>
      (delta AbstractTriangle_abα.altitude_a AbstractTriangle_abα.area; simp only [hlc, Option.some_bind, chain_solution_map])
  · cases hlc : AbstractTriangle_abα.length_c t with
    | none => (delta AbstractTriangle_abα.altitude_b AbstractTriangle_abα.area; simp [hlc])
    | some s =>
      (delta AbstractTriangle_abα.altitude_b AbstractTriangle_abα.area; simp only [hlc, Option.some_bind, chain_solution_map])
  · cases hlc : AbstractTriangle_abα.length_c t with
    | none => (delta AbstractTriangle_abα.altitude_c AbstractTriangle_abα.area; simp [hlc])
    | some s =>
      rcases s with ⟨c₁, _ | c₂⟩ <;>
        (delta AbstractTriangle_abα.altitude_c AbstractTriangle_abα.area chain_solution; simp [hlc, triangle_area_eq])

lemma C9aux_acα (t : AbstractTriangle_acα) :
    AbstractTriangle_acα.altitude_a t
      = (AbstractTriangle_acα.area t).map
          (fun p => MaybeTwo_map p (fun A => 2 * A / AbstractTriangle_acα.length_a t))
    ∧ AbstractTriangle_acα.altitude_c t
      = (AbstractTriangle_acα.area t).map
          (fun p => MaybeTwo_map p (fun A => 2 * A / AbstractTriangle_acα.length_c t))
    ∧ AbstractTriangle_acα.altitude_b t
      = (AbstractTriangle_acα.area t).bind
          (fun p => (AbstractTriangle_acα.length_b t).map (fun s => 2 * p.1 / s.1)) := by
  refine ⟨?_, ?_, ?_⟩
  · cases hlb : AbstractTriangle_acα.length_b t with
    | none => (delta AbstractTriangle_acα.altitude_a AbstractTriangle_acα.area; simp [hlb])
    | some s =>
      (delta AbstractTriangle_acα.altitude_a AbstractTriangle_acα.area; simp only [hlb, Option.some_bind, chain_solution_map])
  · cases hlb : AbstractTriangle_acα.length_b t with
    | none => (delta AbstractTriangle_acα.altitude_c AbstractTriangle_acα.area; simp [hlb])
    | some s =>
      (delta AbstractTriangle_acα.altitude_c AbstractTriangle_acα.area; simp only [hlb, Option.some_bind, chain_solution_map])
  · cases hlb : AbstractTriangle_acα.length_b t with
    | none => (delta AbstractTriangle_acα.altitude_b AbstractTriangle_acα.area; simp [hlb])
    | some s =>
      rcases s with ⟨b₁, _ | b₂⟩ <;>
        (delta AbstractTriangle_acα.altitude_b AbstractTriangle_acα.area chain_solution; simp [hlb, triangle_area_eq])

lemma C9aux_abβ (t : AbstractTriangle_abβ) :
    AbstractTriangle_abβ.altitude_a t
      = (AbstractTriangle_abβ.area t).map
          (fun p => MaybeTwo_map p (fun A => 2 * A / AbstractTriangle_abβ.length_a t))
    ∧ AbstractTriangle_abβ.altitude_b t
      = (AbstractTriangle_abβ.area t).map
          (fun p => MaybeTwo_map p (fun A => 2 * A / AbstractTriangle_abβ.length_b t))
    ∧ AbstractTriangle_abβ.altitude_c t
      = (AbstractTriangle_abβ.area t).bind
          (fun p => (AbstractTriangle_abβ.length_c t).map (fun s => 2 * p.1 / s.1)) := by
  refine ⟨?_, ?_, ?_⟩
  · cases hlc : AbstractTriangle_abβ.length_c t with
    | none => (delta AbstractTriangle_abβ.altitude_a AbstractTriangle_abβ.area; simp [hlc])
    | some s =>
      (delta AbstractTriangle_abβ.altitude_a AbstractTriangle_abβ.area; simp only [hlc, Option.some_bind, chain_solution_map])
  · cases hlc : AbstractTriangle_abβ.length_c t with
    | none => (delta AbstractTriangle_abβ.altitude_b AbstractTriangle_abβ.area; simp [hlc])
    | some s =>
      (delta AbstractTriangle_abβ.altitude_b AbstractTriangle_abβ.area; simp only [hlc, Option.some_bind, chain_solution_map])
  · cases hlc : AbstractTriangle_abβ.length_c t with
    | none => (delta AbstractTriangle_abβ.altitude_c AbstractTriangle_abβ.area; simp [hlc])
    | some s =>
      rcases s with ⟨c₁, _ | c₂⟩ <;>
        (delta AbstractTriangle_abβ.altitude_c AbstractTriangle_abβ.area chain_solution; simp [hlc, triangle_area_eq])

lemma C9aux_bcβ (t : AbstractTriangle_bcβ) :
    AbstractTriangle_bcβ.altitude_b t
      = (AbstractTriangle_bcβ.area t).map
          (fun p => MaybeTwo_map p (fun A => 2 * A / AbstractTriangle_bcβ.length_b t))
    ∧ AbstractTriangle_bcβ.altitude_c t
      = (AbstractTriangle_bcβ.area t).map
          (fun p => MaybeTwo_map p (fun A => 2 * A / AbstractTriangle_bcβ.length_c t))
    ∧ AbstractTriangle_bcβ.altitude_a t
      = (AbstractTriangle_bcβ.area t).bind
          (fun p => (AbstractTriangle_bcβ.length_a t).map (fun s => 2 * p.1 / s.1)) := by
  refine ⟨?_, ?_, ?_⟩
  · cases hla : AbstractTriangle_bcβ.length_a t with
    | none => (delta AbstractTriangle_bcβ.altitude_b AbstractTriangle_bcβ.area; simp [hla])
    | some s =>
      (delta AbstractTriangle_bcβ.altitude_b AbstractTriangle_bcβ.area; simp only [hla, Option.some_bind, chain_solution_map])
  · cases hla : AbstractTriangle_bcβ.length_a t with
    | none => (delta AbstractTriangle_bcβ.altitude_c AbstractTriangle_bcβ.area; simp [hla])
    | some s =>
      (delta AbstractTriangle_bcβ.altitude_c AbstractTriangle_bcβ.area; simp only [hla, Option.some_bind, chain_solution_map])
  · cases hla : AbstractTriangle_bcβ.length_a t with
    | none => (delta AbstractTriangle_bcβ.altitude_a AbstractTriangle_bcβ.area; simp [hla])
    | some s =>
      rcases s with ⟨a₁, _ | a₂⟩ <;>
        (delta AbstractTriangle_bcβ.altitude_a AbstractTriangle_bcβ.area chain_solution; simp [hla, triangle_area_eq])

lemma C9aux_acγ (t : AbstractTriangle_acγ) :
    AbstractTriangle_acγ.altitude_a t
      = (AbstractTriangle_acγ.area t).map
          (fun p => MaybeTwo_map p (fun A => 2 * A / AbstractTriangle_acγ.length_a t))
    ∧ AbstractTriangle_acγ.altitude_c t
      = (AbstractTriangle_acγ.area t).map
          (fun p => MaybeTwo_map p (fun A => 2 * A / AbstractTriangle_acγ.length_c t))
    ∧ AbstractTriangle_acγ.altitude_b t
      = (AbstractTriangle_acγ.area t).bind
          (fun p => (AbstractTriangle_acγ.length_b t).map (fun s => 2 * p.1 / s.1)) := by
  refine ⟨?_, ?_, ?_⟩
  · cases hlb : AbstractTriangle_acγ.length_b t with
    | none => (delta AbstractTriangle_acγ.altitude_a AbstractTriangle_acγ.area; simp [hlb])
    | some s =>
      (delta AbstractTriangle_acγ.altitude_a AbstractTriangle_acγ.area; simp only [hlb, Option.some_bind, chain_solution_map])
  · cases hlb : AbstractTriangle_acγ.length_b t with
    | none => (delta AbstractTriangle_acγ.altitude_c AbstractTriangle_acγ.area; simp [hlb])
    | some s =>
      (delta AbstractTriangle_acγ.altitude_c AbstractTriangle_acγ.area; simp only [hlb, Option.some_bind, chain_solution_map])
  · cases hlb : AbstractTriangle_acγ.length_b t with
    | none => (delta AbstractTriangle_acγ.altitude_b AbstractTriangle_acγ.area; simp [hlb])
    | some s =>
      rcases s with ⟨b₁, _ | b₂⟩ <;>
        (delta AbstractTriangle_acγ.altitude_b AbstractTriangle_acγ.area chain_solution; simp [hlb, triangle_area_eq])

lemma C9aux_bcγ (t : AbstractTriangle_bcγ) :
    AbstractTriangle_bcγ.altitude_b t
      = (AbstractTriangle_bcγ.area t).map
          (fun p => MaybeTwo_map p (fun A => 2 * A / AbstractTriangle_bcγ.length_b t))
    ∧ AbstractTriangle_bcγ.altitude_c t
      = (AbstractTriangle_bcγ.area t).map
          (fun p => MaybeTwo_map p (fun A => 2 * A / AbstractTriangle_bcγ.length_c t))
    ∧ AbstractTriangle_bcγ.altitude_a t
      = (AbstractTriangle_bcγ.area t).bind
          (fun p => (AbstractTriangle_bcγ.length_a t).map (fun s => 2 * p.1 / s.1)) := by
  refine ⟨?_, ?_, ?_⟩
  · cases hla : AbstractTriangle_bcγ.length_a t with
    | none => (delta AbstractTriangle_bcγ.altitude_b AbstractTriangle_bcγ.area; simp [hla])
    | some s =>
      (delta AbstractTriangle_bcγ.altitude_b AbstractTriangle_bcγ.area; simp only [hla, Option.some_bind, chain_solution_map])
  · cases hla : AbstractTriangle_bcγ.length_a t with
    | none => (delta AbstractTriangle_bcγ.altitude_c AbstractTriangle_bcγ.area; simp [hla])
    | some s =>
      (delta AbstractTriangle_bcγ.altitude_c AbstractTriangle_bcγ.area; simp only [hla, Option.some_bind, chain_solution_map])
  · cases hla : AbstractTriangle_bcγ.length_a t with
    | none => (delta AbstractTriangle_bcγ.altitude_a AbstractTriangle_bcγ.area; simp [hla])
    | some s =>
      rcases s with ⟨a₁, _ | a₂⟩ <;>
        (delta AbstractTriangle_bcγ.altitude_a AbstractTriangle_bcγ.area chain_solution; simp [hla, triangle_area_eq])

/-- C9: `formulas::triangle_area` computes Heron's formula in the two-step
form (semi-perimeter `s = (a + b + c) / 2`, then `√(s(s-a)(s-b)(s-c))`) and
returns `Ok` for every input, in particular for all triples satisfying the
triangle inequality, where the value is moreover positive; and on every
variant each altitude accessor equals `2 · area / side` for the
corresponding side — branchwise (via the `MaybeTwo` map) for the
dual-valued altitudes of the six ambiguous SSA variants, and through the
primary branch for their single-valued altitude. -/
theorem C9_area_and_altitudes :
    (∀ a b c : ℝ, formulas.triangle_area a b c
      = .ok (Real.sqrt (((a + b + c) / 2) * (((a + b + c) / 2) - a)
          * (((a + b + c) / 2) - b) * (((a + b + c) / 2) - c))))
    ∧ (∀ a b c : ℝ, 0 < a → 0 < b → 0 < c → a < b + c → b < a + c → c < a + b →
        ∃ A, formulas.triangle_area a b c = .ok A ∧ 0 < A)
    ∧ (∀ t : AbstractTriangle_abc,
        AbstractTriangle_abc.altitude_a t
          = (AbstractTriangle_abc.area t).map (fun A => 2 * A / AbstractTriangle_abc.length_a t)
        ∧ AbstractTriangle_abc.altitude_b t
          = (AbstractTriangle_abc.area t).map (fun A => 2 * A / AbstractTriangle_abc.length_b t)
        ∧ AbstractTriangle_abc.altitude_c t
          = (AbstractTriangle_abc.area t).map (fun A => 2 * A / AbstractTriangle_abc.length_c t))
    ∧ (∀ t : AbstractTriangle_bcα,
        AbstractTriangle_bcα.altitude_a t
          = (AbstractTriangle_bcα.area t).bind
              (fun A => (AbstractTriangle_bcα.length_a t).map (fun a => 2 * A / a))
        ∧ AbstractTriangle_bcα.altitude_b t
          = (AbstractTriangle_bcα.area t).map (fun A => 2 * A / AbstractTriangle_bcα.length_b t)
        ∧ AbstractTriangle_bcα.altitude_c t
          = (AbstractTriangle_bcα.area t).map (fun A => 2 * A / AbstractTriangle_bcα.length_c t))
    ∧ (∀ t : AbstractTriangle_acβ,
        AbstractTriangle_acβ.altitude_a t
          = (AbstractTriangle_acβ.area t).map (fun A => 2 * A / AbstractTriangle_acβ.length_a t)
        ∧ AbstractTriangle_acβ.altitude_b t
          = (AbstractTriangle_acβ.area t).bind
              (fun A => (AbstractTriangle_acβ.length_b t).map (fun b => 2 * A / b))
        ∧ AbstractTriangle_acβ.altitude_c t
          = (AbstractTriangle_acβ.area t).map (fun A => 2 * A / AbstractTriangle_acβ.length_c t))
    ∧ (∀ t : AbstractTriangle_abγ,
        AbstractTriangle_abγ.altitude_a t
          = (AbstractTriangle_abγ.area t).map (fun A => 2 * A / AbstractTriangle_abγ.length_a t)
        ∧ AbstractTriangle_abγ.altitude_b t
          = (AbstractTriangle_abγ.area t).map (fun A => 2 * A / AbstractTriangle_abγ.length_b t)
        ∧ AbstractTriangle_abγ.altitude_c t
          = (AbstractTriangle_abγ.area t).bind
              (fun A => (AbstractTriangle_abγ.length_c t).map (fun c => 2 * A / c)))
    ∧ (∀ t : AbstractTriangle_abα,
        AbstractTriangle_abα.altitude_a t
          = (AbstractTriangle_abα.area t).map
              (fun p => MaybeTwo_map p (fun A => 2 * A / AbstractTriangle_abα.length_a t))
        ∧ AbstractTriangle_abα.altitude_b t
          = (AbstractTriangle_abα.area t).map
              (fun p => MaybeTwo_map p (fun A => 2 * A / AbstractTriangle_abα.length_b t))
        ∧ AbstractTriangle_abα.altitude_c t
          = (AbstractTriangle_abα.area t).bind
              (fun p => (AbstractTriangle_abα.length_c t).map (fun s => 2 * p.1 / s.1)))
    ∧ (∀ t : AbstractTriangle_acα,
        AbstractTriangle_acα.altitude_a t
          = (AbstractTriangle_acα.area t).map
              (fun p => MaybeTwo_map p (fun A => 2 * A / AbstractTriangle_acα.length_a t))
        ∧ AbstractTriangle_acα.altitude_c t
          = (AbstractTriangle_acα.area t).map
              (fun p => MaybeTwo_map p (fun A => 2 * A / AbstractTriangle_acα.length_c t))
        ∧ AbstractTriangle_acα.altitude_b t
          = (AbstractTriangle_acα.area t).bind
              (fun p => (AbstractTriangle_acα.length_b t).map (fun s => 2 * p.1 / s.1)))
    ∧ (∀ t : AbstractTriangle_abβ,
        AbstractTriangle_abβ.altitude_a t
          = (AbstractTriangle_abβ.area t).map
              (fun p => MaybeTwo_map p (fun A => 2 * A / AbstractTriangle_abβ.length_a t))
        ∧ AbstractTriangle_abβ.altitude_b t
          = (AbstractTriangle_abβ.area t).map
              (fun p => MaybeTwo_map p (fun A => 2 * A / AbstractTriangle_abβ.length_b t))
        ∧ AbstractTriangle_abβ.altitude_c t
          = (AbstractTriangle_abβ.area t).bind
              (fun p => (AbstractTriangle_abβ.length_c t).map (fun s => 2 * p.1 / s.1)))
    ∧ (∀ t : AbstractTriangle_bcβ,
        AbstractTriangle_bcβ.altitude_b t
          = (AbstractTriangle_bcβ.area t).map
              (fun p => MaybeTwo_map p (fun A => 2 * A / AbstractTriangle_bcβ.length_b t))
        ∧ AbstractTriangle_bcβ.altitude_c t
          = (AbstractTriangle_bcβ.area t).map
              (fun p => MaybeTwo_map p (fun A => 2 * A / AbstractTriangle_bcβ.length_c t))
        ∧ AbstractTriangle_bcβ.altitude_a t
          = (AbstractTriangle_bcβ.area t).bind
              (fun p => (AbstractTriangle_bcβ.length_a t).map (fun s => 2 * p.1 / s.1)))
    ∧ (∀ t : AbstractTriangle_acγ,
        AbstractTriangle_acγ.altitude_a t
          = (AbstractTriangle_acγ.area t).map
              (fun p => MaybeTwo_map p (fun A => 2 * A / AbstractTriangle_acγ.length_a t))
        ∧ AbstractTriangle_acγ.altitude_c t
          = (AbstractTriangle_acγ.area t).map
              (fun p => MaybeTwo_map p (fun A => 2 * A / AbstractTriangle_acγ.length_c t))
        ∧ AbstractTriangle_acγ.altitude_b t
          = (AbstractTriangle_acγ.area t).bind
              (fun p => (AbstractTriangle_acγ.length_b t).map (fun s => 2 * p.1 / s.1)))
    ∧ (∀ t : AbstractTriangle_bcγ,
        AbstractTriangle_bcγ.altitude_b t
          = (AbstractTriangle_bcγ.area t).map
              (fun p => MaybeTwo_map p (fun A => 2 * A / AbstractTriangle_bcγ.length_b t))
        ∧ AbstractTriangle_bcγ.altitude_c t
          = (AbstractTriangle_bcγ.area t).map
              (fun p => MaybeTwo_map p (fun A => 2 * A / AbstractTriangle_bcγ.length_c t))
        ∧ AbstractTriangle_bcγ.altitude_a t
          = (AbstractTriangle_bcγ.area t).bind
              (fun p => (AbstractTriangle_bcγ.length_a t).map (fun s => 2 * p.1 / s.1)))
    ∧ (∀ t : AbstractTriangle_aαβ,
        AbstractTriangle_aαβ.altitude_a t
          = (AbstractTriangle_aαβ.area t).map (fun A => 2 * A / AbstractTriangle_aαβ.length_a t)
        ∧ AbstractTriangle_aαβ.altitude_b t
          = (AbstractTriangle_aαβ.area t).bind
              (fun A => (AbstractTriangle_aαβ.length_b t).map (fun b => 2 * A / b))
        ∧ AbstractTriangle_aαβ.altitude_c t
          = (AbstractTriangle_aαβ.area t).bind
              (fun A => (AbstractTriangle_aαβ.length_c t).map (fun c => 2 * A / c)))
    ∧ (∀ t : AbstractTriangle_bαβ,
        AbstractTriangle_bαβ.altitude_a t
          = (AbstractTriangle_bαβ.area t).bind
              (fun A => (AbstractTriangle_bαβ.length_a t).map (fun a => 2 * A / a))
        ∧ AbstractTriangle_bαβ.altitude_b t
          = (AbstractTriangle_bαβ.area t).map (fun A => 2 * A / AbstractTriangle_bαβ.length_b t)
        ∧ AbstractTriangle_bαβ.altitude_c t
          = (AbstractTriangle_bαβ.area t).bind
              (fun A => (AbstractTriangle_bαβ.length_c t).map (fun c => 2 * A / c)))
    ∧ (∀ t : AbstractTriangle_cαβ,
        AbstractTriangle_cαβ.altitude_a t
          = (AbstractTriangle_cαβ.area t).bind
              (fun A => (AbstractTriangle_cαβ.length_a t).map (fun a => 2 * A / a))
        ∧ AbstractTriangle_cαβ.altitude_b t
          = (AbstractTriangle_cαβ.area t).bind
              (fun A => (AbstractTriangle_cαβ.length_b t).map (fun b => 2 * A / b))
        ∧ AbstractTriangle_cαβ.altitude_c t
          = (AbstractTriangle_cαβ.area t).map (fun A => 2 * A / AbstractTriangle_cαβ.length_c t))
    ∧ (∀ t : AbstractTriangle_aαγ,
        AbstractTriangle_aαγ.altitude_a t
          = (AbstractTriangle_aαγ.area t).map (fun A => 2 * A / AbstractTriangle_aαγ.length_a t)
        ∧ AbstractTriangle_aαγ.altitude_b t
          = (AbstractTriangle_aαγ.area t).bind
              (fun A => (AbstractTriangle_aαγ.length_b t).map (fun b => 2 * A / b))
        ∧ AbstractTriangle_aαγ.altitude_c t
          = (AbstractTriangle_aαγ.area t).bind
              (fun A => (AbstractTriangle_aαγ.length_c t).map (fun c => 2 * A / c)))
    ∧ (∀ t : AbstractTriangle_bαγ,
        AbstractTriangle_bαγ.altitude_a t
          = (AbstractTriangle_bαγ.area t).bind
              (fun A => (AbstractTriangle_bαγ.length_a t).map (fun a => 2 * A / a))
        ∧ AbstractTriangle_bαγ.altitude_b t
          = (AbstractTriangle_bαγ.area t).map (fun A => 2 * A / AbstractTriangle_bαγ.length_b t)
        ∧ AbstractTriangle_bαγ.altitude_c t
          = (AbstractTriangle_bαγ.area t).bind
              (fun A => (AbstractTriangle_bαγ.length_c t).map (fun c => 2 * A / c)))
    ∧ (∀ t : AbstractTriangle_cαγ,
        AbstractTriangle_cαγ.altitude_a t
          = (AbstractTriangle_cαγ.area t).bind
              (fun A => (AbstractTriangle_cαγ.length_a t).map (fun a => 2 * A / a))
        ∧ AbstractTriangle_cαγ.altitude_b t
          = (AbstractTriangle_cαγ.area t).bind
              (fun A => (AbstractTriangle_cαγ.length_b t).map (fun b => 2 * A / b))
        ∧ AbstractTriangle_cαγ.altitude_c t
          = (AbstractTriangle_cαγ.area t).map (fun A => 2 * A / AbstractTriangle_cαγ.length_c t))
    ∧ (∀ t : AbstractTriangle_aβγ,
        AbstractTriangle_aβγ.altitude_a t
          = (AbstractTriangle_aβγ.area t).map (fun A => 2 * A / AbstractTriangle_aβγ.length_a t)
        ∧ AbstractTriangle_aβγ.altitude_b t
          = (AbstractTriangle_aβγ.area t).bind
              (fun A => (AbstractTriangle_aβγ.length_b t).map (fun b => 2 * A / b))
        ∧ AbstractTriangle_aβγ.altitude_c t
          = (AbstractTriangle_aβγ.area t).bind
              (fun A => (AbstractTriangle_aβγ.length_c t).map (fun c => 2 * A / c)))
    ∧ (∀ t : AbstractTriangle_bβγ,
        AbstractTriangle_bβγ.altitude_a t
          = (AbstractTriangle_bβγ.area t).bind
              (fun A => (AbstractTriangle_bβγ.length_a t).map (fun a => 2 * A / a))
        ∧ AbstractTriangle_bβγ.altitude_b t
          = (AbstractTriangle_bβγ.area t).map (fun A => 2 * A / AbstractTriangle_bβγ.length_b t)
        ∧ AbstractTriangle_bβγ.altitude_c t
          = (AbstractTriangle_bβγ.area t).bind
              (fun A => (AbstractTriangle_bβγ.length_c t).map (fun c => 2 * A / c)))
    ∧ (∀ t : AbstractTriangle_cβγ,
        AbstractTriangle_cβγ.altitude_a t
          = (AbstractTriangle_cβγ.area t).bind
              (fun A => (AbstractTriangle_cβγ.length_a t).map (fun a => 2 * A / a))
        ∧ AbstractTriangle_cβγ.altitude_b t
          = (AbstractTriangle_cβγ.area t).bind
              (fun A => (AbstractTriangle_cβγ.length_b t).map (fun b => 2 * A / b))
        ∧ AbstractTriangle_cβγ.altitude_c t
          = (AbstractTriangle_cβγ.area t).map (fun A => 2 * A / AbstractTriangle_cβγ.length_c t)) :=
  ⟨fun a b c => by rw [triangle_area_eq]; rfl,
    fun a b c ha hb hc h1 h2 h3 =>
      ⟨heronArea a b c, triangle_area_eq a b c, heronArea_pos a b c ha hb hc h1 h2 h3⟩,
    fun _ => ⟨rfl, rfl, rfl⟩, fun _ => ⟨rfl, rfl, rfl⟩, fun _ => ⟨rfl, rfl, rfl⟩,
    fun _ => ⟨rfl, rfl, rfl⟩,
    C9aux_abα, C9aux_acα, C9aux_abβ, C9aux_bcβ, C9aux_acγ, C9aux_bcγ,
    fun _ => ⟨rfl, rfl, rfl⟩, fun _ => ⟨rfl, rfl, rfl⟩, fun _ => ⟨rfl, rfl, rfl⟩,
    fun _ => ⟨rfl, rfl, rfl⟩, fun _ => ⟨rfl, rfl, rfl⟩, fun _ => ⟨rfl, rfl, rfl⟩,
    fun _ => ⟨rfl, rfl, rfl⟩, fun _ => ⟨rfl, rfl, rfl⟩, fun _ => ⟨rfl, rfl, rfl⟩⟩

/-- Witness for C9 at the right triangle `(3, 4, 5)`: the area value is
positive. -/
theorem C9_witness :
    (0 : ℝ) < 3 ∧ (3 : ℝ) < 4 + 5
    ∧ ∃ A, formulas.triangle_area 3 4 5 = .ok A ∧ 0 < A :=
  ⟨by norm_num, by norm_num,
    C9_area_and_altitudes.2.1 3 4 5 (by norm_num) (by norm_num) (by norm_num)
      (by norm_num) (by norm_num) (by norm_num)⟩

/-! ### Round-trip infrastructure: quadratic roots and chained branches -/

/-- If `s = (x - v)²` for a positive `x`, then `x` is among the values
returned by `return_solutions v s`. -/
lemma ssa_mem (v x s : ℝ) (hx : 0 < x) (hs : s = (x - v) ^ 2) :
    ∃ p, law_of_cosines.return_solutions v s = .ok p ∧ (p.1 = x ∨ p.2 = some x) := by
  have hs0 : 0 ≤ s := hs ▸ sq_nonneg _
  have hroot : Real.sqrt s = |x - v| := by rw [hs, Real.sqrt_sq_eq_abs]
  rcases le_or_lt v x with hvx | hvx
  · have habs : |x - v| = x - v := abs_of_nonneg (by linarith)
    have hone : v + Real.sqrt s = x := by rw [hroot, habs]; ring
    rcases lt_or_le 0 (v - Real.sqrt s) with h2 | h2
    · by_cases heq : v + Real.sqrt s = v - Real.sqrt s
      · exact ⟨_, law_of_cosines.return_solutions_equal v s hs0
          (by rw [hone]; exact hx) h2 heq, Or.inl hone⟩
      · exact ⟨_, law_of_cosines.return_solutions_ambiguous v s hs0
          (by rw [hone]; exact hx) h2 heq, Or.inl hone⟩
    · exact ⟨_, law_of_cosines.return_solutions_one_pos v s hs0
        (by rw [hone]; exact hx) h2, Or.inl hone⟩
  · have habs : |x - v| = -(x - v) := abs_of_neg (by linarith)
    have htwo : v - Real.sqrt s = x := by rw [hroot, habs]; ring
    have hone_pos : 0 < v + Real.sqrt s := by
      have := Real.sqrt_nonneg s
      linarith
    by_cases heq : v + Real.sqrt s = v - Real.sqrt s
    · have hzero : Real.sqrt s = 0 := by linarith [heq]
      rw [hroot, habs] at hzero
      linarith
    · exact ⟨_, law_of_cosines.return_solutions_ambiguous v s hs0 hone_pos
        (by rw [htwo]; exact hx) heq, Or.inr (by simp [htwo])⟩

/-- Chaining a total-on-the-branches function over a one-or-two solution
pair preserves branch membership. -/
lemma chain_hits (s : ℝ × Option ℝ) (f : ℝ → Option ℝ) (x w : ℝ)
    (hx : s.1 = x ∨ s.2 = some x)
    (hf1 : (f s.1).isSome = true)
    (hf2 : ∀ y, s.2 = some y → (f y).isSome = true)
    (hw : f x = some w) :
    ∃ p, chain_solution s f = some p ∧ (p.1 = w ∨ p.2 = some w) := by
  rcases s with ⟨u, _ | y⟩
  · rcases hx with hx | hx
    · have hu : u = x := hx
      subst hu
      exact ⟨(w, none), by (delta chain_solution; simp [hw]), Or.inl rfl⟩
    · exact absurd hx (by simp)
  · obtain ⟨fu, hfu⟩ := Option.isSome_iff_exists.mp hf1
    obtain ⟨fy, hfy⟩ := Option.isSome_iff_exists.mp (hf2 y rfl)
    refine ⟨(fu, some fy), by (delta chain_solution; simp [hfu, hfy]), ?_⟩
    rcases hx with hx | hx
    · left
      have hu : u = x := hx
      rw [hu, hw] at hfu
      exact (Option.some.inj hfu).symm
    · right
      have hy : y = x := Option.some.inj hx
      rw [hy, hw] at hfy
      rw [Option.some.inj hfy]

/-- Any positive root of the SSA quadratic (angle `θ` opposite side `p`,
adjacent known side `q`) forms a strict triangle with `p` and `q`. -/
lemma tri_of_root (p q x θ : ℝ) (hp : 0 < p) (hq : 0 < q) (hx : 0 < x)
    (hθ0 : 0 < θ) (hθπ : θ < Real.pi)
    (heq : (x - q * Real.cos θ) ^ 2 = p ^ 2 + q ^ 2 * Real.cos θ ^ 2 - q ^ 2) :
    p < q + x ∧ q < p + x ∧ x < p + q := by
  have hc1 : Real.cos θ < 1 := cos_lt_one_of_pos θ hθ0 hθπ
  have hc2 : -1 < Real.cos θ := neg_one_lt_cos_of_lt_pi θ hθ0 hθπ
  have hkey : p ^ 2 = q ^ 2 + x ^ 2 - 2 * q * x * Real.cos θ := by
    linear_combination (-1 : ℝ) * heq
  refine ⟨?_, ?_, ?_⟩
  · nlinarith [hkey, mul_pos hq hx, hp, hq, hx]
  · nlinarith [hkey, mul_pos hq hx, hp, hq, hx]
  · nlinarith [hkey, mul_pos hq hx, hp, hq, hx]

namespace TriCtx

variable {a b c alpha beta gamma : ℝ}

lemma sum_eq (h : TriCtx a b c alpha beta gamma) :
    alpha + beta + gamma = Real.pi := by
  have := h.angle_sum
  linarith

lemma cos_eq_ab (h : TriCtx a b c alpha beta gamma) :
    2 * b * c * Real.cos alpha = b ^ 2 + c ^ 2 - a ^ 2 := by
  have hb' := h.hb.ne'
  have hc' := h.hc.ne'
  rw [h.hcosα]
  field_simp

lemma cos_eq_b (h : TriCtx a b c alpha beta gamma) :
    2 * a * c * Real.cos beta = a ^ 2 + c ^ 2 - b ^ 2 := by
  have ha' := h.ha.ne'
  have hc' := h.hc.ne'
  rw [h.hcosβ]
  field_simp

lemma cos_eq_c (h : TriCtx a b c alpha beta gamma) :
    2 * a * b * Real.cos gamma = a ^ 2 + b ^ 2 - c ^ 2 := by
  have ha' := h.ha.ne'
  have hb' := h.hb.ne'
  rw [h.hcosγ]
  field_simp

lemma C6aux_abc (h : TriCtx a b c alpha beta gamma) :
    AbstractTriangle_abc.new a b c = .ok ⟨a, b, c⟩
    ∧ AbstractTriangle_abc.length_a ⟨a, b, c⟩ = a
    ∧ AbstractTriangle_abc.length_b ⟨a, b, c⟩ = b
    ∧ AbstractTriangle_abc.length_c ⟨a, b, c⟩ = c
    ∧ AbstractTriangle_abc.angle_alpha ⟨a, b, c⟩ = some alpha
    ∧ AbstractTriangle_abc.angle_beta ⟨a, b, c⟩ = some beta
    ∧ AbstractTriangle_abc.angle_gamma ⟨a, b, c⟩ = some gamma := by
  obtain ⟨t1, t2, t3⟩ := h.tri
  refine ⟨abc_new_ok a b c h.ha h.hb h.hc t1.le t2.le t3.le, rfl, rfl, rfl, ?_, ?_, ?_⟩
  · delta AbstractTriangle_abc.angle_alpha
    rw [h.alpha_rec]
    rfl
  · delta AbstractTriangle_abc.angle_beta
    rw [h.beta_rec]
    rfl
  · delta AbstractTriangle_abc.angle_gamma
    rw [h.gamma_rec]
    rfl

lemma C6aux_bcα (h : TriCtx a b c alpha beta gamma) :
    AbstractTriangle_bcα.new b c alpha = .ok ⟨b, c, alpha⟩
    ∧ AbstractTriangle_bcα.length_b ⟨b, c, alpha⟩ = b
    ∧ AbstractTriangle_bcα.length_c ⟨b, c, alpha⟩ = c
    ∧ AbstractTriangle_bcα.angle_alpha ⟨b, c, alpha⟩ = alpha
    ∧ AbstractTriangle_bcα.length_a ⟨b, c, alpha⟩ = some a
    ∧ AbstractTriangle_bcα.angle_beta ⟨b, c, alpha⟩ = some beta
    ∧ AbstractTriangle_bcα.angle_gamma ⟨b, c, alpha⟩ = some gamma := by
  have hsq : b ^ 2 + c ^ 2 - 2 * b * c * Real.cos alpha = a ^ 2 := by
    linear_combination (-1 : ℝ) * h.cos_eq_ab
  have hla : AbstractTriangle_bcα.length_a ⟨b, c, alpha⟩ = some a := by
    (delta AbstractTriangle_bcα.length_a law_of_cosines.a_from_bcα; dsimp only [])
    rw [hsq, if_pos ⟨pow_pos h.ha 2, trivial⟩, Real.sqrt_sq h.ha.le]
    rfl
  refine ⟨bcα_new_ok b c alpha h.hb h.hc h.hα0 h.hαπ, rfl, rfl, rfl, hla, ?_, ?_⟩
  · (delta AbstractTriangle_bcα.angle_beta; simp only [hla, Option.some_bind])
    rw [h.beta_rec]
    rfl
  · (delta AbstractTriangle_bcα.angle_gamma; simp only [hla, Option.some_bind])
    rw [h.gamma_rec]
    rfl

lemma C6aux_acβ (h : TriCtx a b c alpha beta gamma) :
    AbstractTriangle_acβ.new a c beta = .ok ⟨a, c, beta⟩
    ∧ AbstractTriangle_acβ.length_a ⟨a, c, beta⟩ = a
    ∧ AbstractTriangle_acβ.length_c ⟨a, c, beta⟩ = c
    ∧ AbstractTriangle_acβ.angle_beta ⟨a, c, beta⟩ = beta
    ∧ AbstractTriangle_acβ.length_b ⟨a, c, beta⟩ = some b
    ∧ AbstractTriangle_acβ.angle_alpha ⟨a, c, beta⟩ = some alpha
    ∧ AbstractTriangle_acβ.angle_gamma ⟨a, c, beta⟩ = some gamma := by
  have hsq : a ^ 2 + c ^ 2 - 2 * a * c * Real.cos beta = b ^ 2 := by
    linear_combination (-1 : ℝ) * h.cos_eq_b
  have hlb : AbstractTriangle_acβ.length_b ⟨a, c, beta⟩ = some b := by
    (delta AbstractTriangle_acβ.length_b law_of_cosines.b_from_acβ; dsimp only [])
    rw [hsq, if_pos ⟨pow_pos h.hb 2, trivial⟩, Real.sqrt_sq h.hb.le]
    rfl
  refine ⟨acβ_new_ok a c beta h.ha h.hc h.hβ0 h.hβπ, rfl, rfl, rfl, hlb, ?_, ?_⟩
  · (delta AbstractTriangle_acβ.angle_alpha; simp only [hlb, Option.some_bind])
    rw [h.alpha_rec]
    rfl
  · (delta AbstractTriangle_acβ.angle_gamma; simp only [hlb, Option.some_bind])
    rw [h.gamma_rec]
    rfl

lemma C6aux_abγ (h : TriCtx a b c alpha beta gamma) :
    AbstractTriangle_abγ.new a b gamma = .ok ⟨a, b, gamma⟩
    ∧ AbstractTriangle_abγ.length_a ⟨a, b, gamma⟩ = a
    ∧ AbstractTriangle_abγ.length_b ⟨a, b, gamma⟩ = b
    ∧ AbstractTriangle_abγ.angle_gamma ⟨a, b, gamma⟩ = gamma
    ∧ AbstractTriangle_abγ.length_c ⟨a, b, gamma⟩ = some c
    ∧ AbstractTriangle_abγ.angle_alpha ⟨a, b, gamma⟩ = some alpha
    ∧ AbstractTriangle_abγ.angle_beta ⟨a, b, gamma⟩ = some beta := by
  have hsq : a ^ 2 + b ^ 2 - 2 * a * b * Real.cos gamma = c ^ 2 := by
    linear_combination (-1 : ℝ) * h.cos_eq_c
  have hlc : AbstractTriangle_abγ.length_c ⟨a, b, gamma⟩ = some c := by
    (delta AbstractTriangle_abγ.length_c law_of_cosines.c_from_abγ; dsimp only [])
    rw [hsq, if_pos ⟨pow_pos h.hc 2, trivial⟩, Real.sqrt_sq h.hc.le]
    rfl
  refine ⟨abγ_new_ok a b gamma h.ha h.hb h.hγ0 h.hγπ, rfl, rfl, rfl, hlc, ?_, ?_⟩
  · (delta AbstractTriangle_abγ.angle_alpha; simp only [hlc, Option.some_bind])
    rw [h.alpha_rec]
    rfl
  · (delta AbstractTriangle_abγ.angle_beta; simp only [hlc, Option.some_bind])
    rw [h.beta_rec]
    rfl

lemma C6aux_aαβ (h : TriCtx a b c alpha beta gamma) :
    AbstractTriangle_aαβ.new a alpha beta = .ok ⟨a, alpha, beta⟩
    ∧ AbstractTriangle_aαβ.length_a ⟨a, alpha, beta⟩ = a
    ∧ AbstractTriangle_aαβ.angle_alpha ⟨a, alpha, beta⟩ = alpha
    ∧ AbstractTriangle_aαβ.angle_beta ⟨a, alpha, beta⟩ = beta
    ∧ AbstractTriangle_aαβ.angle_gamma ⟨a, alpha, beta⟩ = gamma
    ∧ AbstractTriangle_aαβ.length_b ⟨a, alpha, beta⟩ = some b
    ∧ AbstractTriangle_aαβ.length_c ⟨a, alpha, beta⟩ = some c := by
  have hsumlt : alpha + beta < Real.pi := by linarith [h.hγ0, h.sum_eq]
  have hγeq : Real.pi - (alpha + beta) = gamma := by linarith [h.sum_eq]
  refine ⟨aαβ_new_ok a alpha beta h.ha h.hα0 h.hαπ h.hβ0 h.hβπ hsumlt, rfl, rfl, rfl,
    hγeq, ?_, ?_⟩
  · delta AbstractTriangle_aαβ.length_b
    rw [h.law_b_aαβ]
    rfl
  · delta AbstractTriangle_aαβ.length_c
    rw [hγeq, h.law_c_aαγ]
    rfl

lemma C6aux_bαβ (h : TriCtx a b c alpha beta gamma) :
    AbstractTriangle_bαβ.new b alpha beta = .ok ⟨b, alpha, beta⟩
    ∧ AbstractTriangle_bαβ.length_b ⟨b, alpha, beta⟩ = b
    ∧ AbstractTriangle_bαβ.angle_alpha ⟨b, alpha, beta⟩ = alpha
    ∧ AbstractTriangle_bαβ.angle_beta ⟨b, alpha, beta⟩ = beta
    ∧ AbstractTriangle_bαβ.angle_gamma ⟨b, alpha, beta⟩ = gamma
    ∧ AbstractTriangle_bαβ.length_a ⟨b, alpha, beta⟩ = some a
    ∧ AbstractTriangle_bαβ.length_c ⟨b, alpha, beta⟩ = some c := by
  have hsumlt : alpha + beta < Real.pi := by linarith [h.hγ0, h.sum_eq]
  have hγeq : Real.pi - (alpha + beta) = gamma := by linarith [h.sum_eq]
  refine ⟨bαβ_new_ok b alpha beta h.hb h.hα0 h.hαπ h.hβ0 h.hβπ hsumlt, rfl, rfl, rfl,
    hγeq, ?_, ?_⟩
  · delta AbstractTriangle_bαβ.length_a
    rw [h.law_a_bαβ]
    rfl
  · delta AbstractTriangle_bαβ.length_c
    rw [hγeq, h.law_c_bβγ]
    rfl

lemma C6aux_cαβ (h : TriCtx a b c alpha beta gamma) :
    AbstractTriangle_cαβ.new c alpha beta = .ok ⟨c, alpha, beta⟩
    ∧ AbstractTriangle_cαβ.length_c ⟨c, alpha, beta⟩ = c
    ∧ AbstractTriangle_cαβ.angle_alpha ⟨c, alpha, beta⟩ = alpha
    ∧ AbstractTriangle_cαβ.angle_beta ⟨c, alpha, beta⟩ = beta
    ∧ AbstractTriangle_cαβ.angle_gamma ⟨c, alpha, beta⟩ = gamma
    ∧ AbstractTriangle_cαβ.length_a ⟨c, alpha, beta⟩ = some a
    ∧ AbstractTriangle_cαβ.length_b ⟨c, alpha, beta⟩ = some b := by
  have hsumlt : alpha + beta < Real.pi := by linarith [h.hγ0, h.sum_eq]
  have hγeq : Real.pi - (alpha + beta) = gamma := by linarith [h.sum_eq]
  refine ⟨cαβ_new_ok c alpha beta h.hc h.hα0 h.hαπ h.hβ0 h.hβπ hsumlt, rfl, rfl, rfl,
    hγeq, ?_, ?_⟩
  · delta AbstractTriangle_cαβ.length_a
    rw [hγeq, h.law_a_cαγ]
    rfl
  · delta AbstractTriangle_cαβ.length_b
    rw [hγeq, h.law_b_cβγ]
    rfl

lemma C6aux_aαγ (h : TriCtx a b c alpha beta gamma) :
    AbstractTriangle_aαγ.new a alpha gamma = .ok ⟨a, alpha, gamma⟩
    ∧ AbstractTriangle_aαγ.length_a ⟨a, alpha, gamma⟩ = a
    ∧ AbstractTriangle_aαγ.angle_alpha ⟨a, alpha, gamma⟩ = alpha
    ∧ AbstractTriangle_aαγ.angle_beta ⟨a, alpha, gamma⟩ = beta
    ∧ AbstractTriangle_aαγ.angle_gamma ⟨a, alpha, gamma⟩ = gamma
    ∧ AbstractTriangle_aαγ.length_b ⟨a, alpha, gamma⟩ = some b
    ∧ AbstractTriangle_aαγ.length_c ⟨a, alpha, gamma⟩ = some c := by
  have hsumlt : alpha + gamma < Real.pi := by linarith [h.hβ0, h.sum_eq]
  have hβeq : Real.pi - (alpha + gamma) = beta := by linarith [h.sum_eq]
  refine ⟨aαγ_new_ok a alpha gamma h.ha h.hα0 h.hαπ h.hγ0 h.hγπ hsumlt, rfl, rfl,
    hβeq, rfl, ?_, ?_⟩
  · delta AbstractTriangle_aαγ.length_b
    rw [hβeq, h.law_b_aαβ]
    rfl
  · delta AbstractTriangle_aαγ.length_c
    rw [h.law_c_aαγ]
    rfl

lemma C6aux_bαγ (h : TriCtx a b c alpha beta gamma) :
    AbstractTriangle_bαγ.new b alpha gamma = .ok ⟨b, alpha, gamma⟩
    ∧ AbstractTriangle_bαγ.length_b ⟨b, alpha, gamma⟩ = b
    ∧ AbstractTriangle_bαγ.angle_alpha ⟨b, alpha, gamma⟩ = alpha
    ∧ AbstractTriangle_bαγ.angle_beta ⟨b, alpha, gamma⟩ = beta
    ∧ AbstractTriangle_bαγ.angle_gamma ⟨b, alpha, gamma⟩ = gamma
    ∧ AbstractTriangle_bαγ.length_a ⟨b, alpha, gamma⟩ = some a
    ∧ AbstractTriangle_bαγ.length_c ⟨b, alpha, gamma⟩ = some c := by
  have hsumlt : alpha + gamma < Real.pi := by linarith [h.hβ0, h.sum_eq]
  have hβeq : Real.pi - (alpha + gamma) = beta := by linarith [h.sum_eq]
  refine ⟨bαγ_new_ok b alpha gamma h.hb h.hα0 h.hαπ h.hγ0 h.hγπ hsumlt, rfl, rfl,
    hβeq, rfl, ?_, ?_⟩
  · delta AbstractTriangle_bαγ.length_a
    rw [hβeq, h.law_a_bαβ]
    rfl
  · delta AbstractTriangle_bαγ.length_c
    rw [hβeq, h.law_c_bβγ]
    rfl

lemma C6aux_cαγ (h : TriCtx a b c alpha beta gamma) :
    AbstractTriangle_cαγ.new c alpha gamma = .ok ⟨c, alpha, gamma⟩
    ∧ AbstractTriangle_cαγ.length_c ⟨c, alpha, gamma⟩ = c
    ∧ AbstractTriangle_cαγ.angle_alpha ⟨c, alpha, gamma⟩ = alpha
    ∧ AbstractTriangle_cαγ.angle_beta ⟨c, alpha, gamma⟩ = beta
    ∧ AbstractTriangle_cαγ.angle_gamma ⟨c, alpha, gamma⟩ = gamma
    ∧ AbstractTriangle_cαγ.length_a ⟨c, alpha, gamma⟩ = some a
    ∧ AbstractTriangle_cαγ.length_b ⟨c, alpha, gamma⟩ = some b := by
  have hsumlt : alpha + gamma < Real.pi := by linarith [h.hβ0, h.sum_eq]
  have hβeq : Real.pi - (alpha + gamma) = beta := by linarith [h.sum_eq]
  refine ⟨cαγ_new_ok c alpha gamma h.hc h.hα0 h.hαπ h.hγ0 h.hγπ hsumlt, rfl, rfl,
    hβeq, rfl, ?_, ?_⟩
  · delta AbstractTriangle_cαγ.length_a
    rw [h.law_a_cαγ]
    rfl
  · delta AbstractTriangle_cαγ.length_b
    rw [hβeq, h.law_b_cβγ]
    rfl

lemma C6aux_aβγ (h : TriCtx a b c alpha beta gamma) :
    AbstractTriangle_aβγ.new a beta gamma = .ok ⟨a, beta, gamma⟩
    ∧ AbstractTriangle_aβγ.length_a ⟨a, beta, gamma⟩ = a
    ∧ AbstractTriangle_aβγ.angle_alpha ⟨a, beta, gamma⟩ = alpha
    ∧ AbstractTriangle_aβγ.angle_beta ⟨a, beta, gamma⟩ = beta
    ∧ AbstractTriangle_aβγ.angle_gamma ⟨a, beta, gamma⟩ = gamma
    ∧ AbstractTriangle_aβγ.length_b ⟨a, beta, gamma⟩ = some b
    ∧ AbstractTriangle_aβγ.length_c ⟨a, beta, gamma⟩ = some c := by
  have hsumlt : beta + gamma < Real.pi := by linarith [h.hα0, h.sum_eq]
  have hαeq : Real.pi - (beta + gamma) = alpha := by linarith [h.sum_eq]
  refine ⟨aβγ_new_ok a beta gamma h.ha h.hβ0 h.hβπ h.hγ0 h.hγπ hsumlt, rfl,
    hαeq, rfl, rfl, ?_, ?_⟩
  · delta AbstractTriangle_aβγ.length_b
    rw [hαeq, h.law_b_aαβ]
    rfl
  · delta AbstractTriangle_aβγ.length_c
    rw [hαeq, h.law_c_aαγ]
    rfl

lemma C6aux_bβγ (h : TriCtx a b c alpha beta gamma) :
    AbstractTriangle_bβγ.new b beta gamma = .ok ⟨b, beta, gamma⟩
    ∧ AbstractTriangle_bβγ.length_b ⟨b, beta, gamma⟩ = b
    ∧ AbstractTriangle_bβγ.angle_alpha ⟨b, beta, gamma⟩ = alpha
    ∧ AbstractTriangle_bβγ.angle_beta ⟨b, beta, gamma⟩ = beta
    ∧ AbstractTriangle_bβγ.angle_gamma ⟨b, beta, gamma⟩ = gamma
    ∧ AbstractTriangle_bβγ.length_a ⟨b, beta, gamma⟩ = some a
    ∧ AbstractTriangle_bβγ.length_c ⟨b, beta, gamma⟩ = some c := by
  have hsumlt : beta + gamma < Real.pi := by linarith [h.hα0, h.sum_eq]
  have hαeq : Real.pi - (beta + gamma) = alpha := by linarith [h.sum_eq]
  refine ⟨bβγ_new_ok b beta gamma h.hb h.hβ0 h.hβπ h.hγ0 h.hγπ hsumlt, rfl,
    hαeq, rfl, rfl, ?_, ?_⟩
  · delta AbstractTriangle_bβγ.length_a
    rw [hαeq, h.law_a_bαβ]
    rfl
  · delta AbstractTriangle_bβγ.length_c
    rw [h.law_c_bβγ]
    rfl

lemma C6aux_cβγ (h : TriCtx a b c alpha beta gamma) :
    AbstractTriangle_cβγ.new c beta gamma = .ok ⟨c, beta, gamma⟩
    ∧ AbstractTriangle_cβγ.length_c ⟨c, beta, gamma⟩ = c
    ∧ AbstractTriangle_cβγ.angle_alpha ⟨c, beta, gamma⟩ = alpha
    ∧ AbstractTriangle_cβγ.angle_beta ⟨c, beta, gamma⟩ = beta
    ∧ AbstractTriangle_cβγ.angle_gamma ⟨c, beta, gamma⟩ = gamma
    ∧ AbstractTriangle_cβγ.length_a ⟨c, beta, gamma⟩ = some a
    ∧ AbstractTriangle_cβγ.length_b ⟨c, beta, gamma⟩ = some b := by
  have hsumlt : beta + gamma < Real.pi := by linarith [h.hα0, h.sum_eq]
  have hαeq : Real.pi - (beta + gamma) = alpha := by linarith [h.sum_eq]
  refine ⟨cβγ_new_ok c beta gamma h.hc h.hβ0 h.hβπ h.hγ0 h.hγπ hsumlt, rfl,
    hαeq, rfl, rfl, ?_, ?_⟩
  · delta AbstractTriangle_cβγ.length_a
    rw [hαeq, h.law_a_cαγ]
    rfl
  · delta AbstractTriangle_cβγ.length_b
    rw [h.law_b_cβγ]
    rfl

lemma C6aux_abα (h : TriCtx a b c alpha beta gamma) :
    AbstractTriangle_abα.new a b alpha = .ok ⟨a, b, alpha⟩
    ∧ AbstractTriangle_abα.length_a ⟨a, b, alpha⟩ = a
    ∧ AbstractTriangle_abα.length_b ⟨a, b, alpha⟩ = b
    ∧ AbstractTriangle_abα.angle_alpha ⟨a, b, alpha⟩ = alpha
    ∧ (∃ p, AbstractTriangle_abα.length_c ⟨a, b, alpha⟩ = some p
        ∧ (p.1 = c ∨ p.2 = some c))
    ∧ (∃ p, AbstractTriangle_abα.angle_beta ⟨a, b, alpha⟩ = some p
        ∧ (p.1 = beta ∨ p.2 = some beta))
    ∧ (∃ p, AbstractTriangle_abα.angle_gamma ⟨a, b, alpha⟩ = some p
        ∧ (p.1 = gamma ∨ p.2 = some gamma)) := by
  have hs_eq : a ^ 2 + b ^ 2 * Real.cos alpha ^ 2 - b ^ 2
      = (c - b * Real.cos alpha) ^ 2 := by
    linear_combination h.cos_eq_ab
  obtain ⟨p, hp, hmem⟩ :=
    ssa_mem (b * Real.cos alpha) c (a ^ 2 + b ^ 2 * Real.cos alpha ^ 2 - b ^ 2) h.hc hs_eq
  have hlc : AbstractTriangle_abα.length_c ⟨a, b, alpha⟩ = some p := by
    delta AbstractTriangle_abα.length_c law_of_cosines.c_from_abα
    rw [hp]
    rfl
  have hsound := law_of_cosines.return_solutions_sound _ _ p hp
  have hp1_pos : 0 < p.1 := hsound.2.1
  have hp1_eq : (p.1 - b * Real.cos alpha) ^ 2
      = a ^ 2 + b ^ 2 * Real.cos alpha ^ 2 - b ^ 2 := by
    rcases hsound.2.2.1 with h' | h'
    · exact h'
    · linear_combination h'
  have hf2 : ∀ y, p.2 = some y → 0 < y ∧ (y - b * Real.cos alpha) ^ 2
      = a ^ 2 + b ^ 2 * Real.cos alpha ^ 2 - b ^ 2 := by
    intro y hy
    obtain ⟨hy0, hyeq, -⟩ := hsound.2.2.2 y hy
    exact ⟨hy0, by linear_combination hyeq⟩
  have hbranch : ∀ y : ℝ, 0 < y →
      (y - b * Real.cos alpha) ^ 2 = a ^ 2 + b ^ 2 * Real.cos alpha ^ 2 - b ^ 2 →
      (expectOk (law_of_cosines.beta_from_abc a b y)).isSome = true
      ∧ (expectOk (law_of_cosines.gamma_from_abc a b y)).isSome = true := by
    intro y hy hyeq
    obtain ⟨t1, t2, t3⟩ :=
      tri_of_root a b y alpha h.ha h.hb hy h.hα0 h.hαπ (by linear_combination hyeq)
    constructor
    · rw [beta_from_abc_isOk a b y h.ha h.hb hy t1 t2 t3]
      rfl
    · rw [gamma_from_abc_isOk a b y h.ha h.hb hy t1 t2 t3]
      rfl
  obtain ⟨q₁, hq₁, hq₁mem⟩ := chain_hits p
    (fun y => expectOk (law_of_cosines.beta_from_abc a b y)) c beta hmem
    ((hbranch p.1 hp1_pos hp1_eq).1)
    (fun y hy => (hbranch y (hf2 y hy).1 (hf2 y hy).2).1)
    (by show expectOk (law_of_cosines.beta_from_abc a b c) = some beta
        rw [h.beta_rec]; rfl)
  obtain ⟨q₂, hq₂, hq₂mem⟩ := chain_hits p
    (fun y => expectOk (law_of_cosines.gamma_from_abc a b y)) c gamma hmem
    ((hbranch p.1 hp1_pos hp1_eq).2)
    (fun y hy => (hbranch y (hf2 y hy).1 (hf2 y hy).2).2)
    (by show expectOk (law_of_cosines.gamma_from_abc a b c) = some gamma
        rw [h.gamma_rec]; rfl)
  refine ⟨h.abα_new, rfl, rfl, rfl, ⟨p, hlc, hmem⟩, ⟨q₁, ?_, hq₁mem⟩, ⟨q₂, ?_, hq₂mem⟩⟩
  · (delta AbstractTriangle_abα.angle_beta; simp only [hlc, Option.some_bind])
    exact hq₁
  · (delta AbstractTriangle_abα.angle_gamma; simp only [hlc, Option.some_bind])
    exact hq₂

lemma C6aux_acα (h : TriCtx a b c alpha beta gamma) :
    AbstractTriangle_acα.new a c alpha = .ok ⟨a, c, alpha⟩
    ∧ AbstractTriangle_acα.length_a ⟨a, c, alpha⟩ = a
    ∧ AbstractTriangle_acα.length_c ⟨a, c, alpha⟩ = c
    ∧ AbstractTriangle_acα.angle_alpha ⟨a, c, alpha⟩ = alpha
    ∧ (∃ p, AbstractTriangle_acα.length_b ⟨a, c, alpha⟩ = some p
        ∧ (p.1 = b ∨ p.2 = some b))
    ∧ (∃ p, AbstractTriangle_acα.angle_beta ⟨a, c, alpha⟩ = some p
        ∧ (p.1 = beta ∨ p.2 = some beta))
    ∧ (∃ p, AbstractTriangle_acα.angle_gamma ⟨a, c, alpha⟩ = some p
        ∧ (p.1 = gamma ∨ p.2 = some gamma)) := by
  have hs_eq : a ^ 2 + c ^ 2 * Real.cos alpha ^ 2 - c ^ 2
      = (b - c * Real.cos alpha) ^ 2 := by
    linear_combination h.cos_eq_ab
  obtain ⟨p, hp, hmem⟩ :=
    ssa_mem (c * Real.cos alpha) b (a ^ 2 + c ^ 2 * Real.cos alpha ^ 2 - c ^ 2) h.hb hs_eq
  have hlb : AbstractTriangle_acα.length_b ⟨a, c, alpha⟩ = some p := by
    delta AbstractTriangle_acα.length_b law_of_cosines.b_from_acα
    rw [hp]
    rfl
  have hsound := law_of_cosines.return_solutions_sound _ _ p hp
  have hp1_pos : 0 < p.1 := hsound.2.1
  have hp1_eq : (p.1 - c * Real.cos alpha) ^ 2
      = a ^ 2 + c ^ 2 * Real.cos alpha ^ 2 - c ^ 2 := by
    rcases hsound.2.2.1 with h' | h'
    · exact h'
    · linear_combination h'
  have hf2 : ∀ y, p.2 = some y → 0 < y ∧ (y - c * Real.cos alpha) ^ 2
      = a ^ 2 + c ^ 2 * Real.cos alpha ^ 2 - c ^ 2 := by
    intro y hy
    obtain ⟨hy0, hyeq, -⟩ := hsound.2.2.2 y hy
    exact ⟨hy0, by linear_combination hyeq⟩
  have hbranch : ∀ y : ℝ, 0 < y →
      (y - c * Real.cos alpha) ^ 2 = a ^ 2 + c ^ 2 * Real.cos alpha ^ 2 - c ^ 2 →
      (expectOk (law_of_cosines.beta_from_abc a y c)).isSome = true
      ∧ (expectOk (law_of_cosines.gamma_from_abc a y c)).isSome = true := by
    intro y hy hyeq
    obtain ⟨t1, t2, t3⟩ :=
      tri_of_root a c y alpha h.ha h.hc hy h.hα0 h.hαπ (by linear_combination hyeq)
    constructor
    · rw [beta_from_abc_isOk a y c h.ha hy h.hc (by linarith) (by linarith) (by linarith)]
      rfl
    · rw [gamma_from_abc_isOk a y c h.ha hy h.hc (by linarith) (by linarith) (by linarith)]
      rfl
  obtain ⟨q₁, hq₁, hq₁mem⟩ := chain_hits p
    (fun y => expectOk (law_of_cosines.beta_from_abc a y c)) b beta hmem
    ((hbranch p.1 hp1_pos hp1_eq).1)
    (fun y hy => (hbranch y (hf2 y hy).1 (hf2 y hy).2).1)
    (by show expectOk (law_of_cosines.beta_from_abc a b c) = some beta
        rw [h.beta_rec]; rfl)
  obtain ⟨q₂, hq₂, hq₂mem⟩ := chain_hits p
    (fun y => expectOk (law_of_cosines.gamma_from_abc a y c)) b gamma hmem
    ((hbranch p.1 hp1_pos hp1_eq).2)
    (fun y hy => (hbranch y (hf2 y hy).1 (hf2 y hy).2).2)
    (by show expectOk (law_of_cosines.gamma_from_abc a b c) = some gamma
        rw [h.gamma_rec]; rfl)
  refine ⟨h.acα_new, rfl, rfl, rfl, ⟨p, hlb, hmem⟩, ⟨q₁, ?_, hq₁mem⟩, ⟨q₂, ?_, hq₂mem⟩⟩
  · (delta AbstractTriangle_acα.angle_beta; simp only [hlb, Option.some_bind])
    exact hq₁
  · (delta AbstractTriangle_acα.angle_gamma; simp only [hlb, Option.some_bind])
    exact hq₂

lemma C6aux_abβ (h : TriCtx a b c alpha beta gamma) :
    AbstractTriangle_abβ.new a b beta = .ok ⟨a, b, beta⟩
    ∧ AbstractTriangle_abβ.length_a ⟨a, b, beta⟩ = a
    ∧ AbstractTriangle_abβ.length_b ⟨a, b, beta⟩ = b
    ∧ AbstractTriangle_abβ.angle_beta ⟨a, b, beta⟩ = beta
    ∧ (∃ p, AbstractTriangle_abβ.length_c ⟨a, b, beta⟩ = some p
        ∧ (p.1 = c ∨ p.2 = some c))
    ∧ (∃ p, AbstractTriangle_abβ.angle_alpha ⟨a, b, beta⟩ = some p
        ∧ (p.1 = alpha ∨ p.2 = some alpha))
    ∧ (∃ p, AbstractTriangle_abβ.angle_gamma ⟨a, b, beta⟩ = some p
        ∧ (p.1 = gamma ∨ p.2 = some gamma)) := by
  have hs_eq : b ^ 2 + a ^ 2 * Real.cos beta ^ 2 - a ^ 2
      = (c - a * Real.cos beta) ^ 2 := by
    linear_combination h.cos_eq_b
  obtain ⟨p, hp, hmem⟩ :=
    ssa_mem (a * Real.cos beta) c (b ^ 2 + a ^ 2 * Real.cos beta ^ 2 - a ^ 2) h.hc hs_eq
  have hlc : AbstractTriangle_abβ.length_c ⟨a, b, beta⟩ = some p := by
    delta AbstractTriangle_abβ.length_c law_of_cosines.c_from_abβ
    rw [hp]
    rfl
  have hsound := law_of_cosines.return_solutions_sound _ _ p hp
  have hp1_pos : 0 < p.1 := hsound.2.1
  have hp1_eq : (p.1 - a * Real.cos beta) ^ 2
      = b ^ 2 + a ^ 2 * Real.cos beta ^ 2 - a ^ 2 := by
    rcases hsound.2.2.1 with h' | h'
    · exact h'
    · linear_combination h'
  have hf2 : ∀ y, p.2 = some y → 0 < y ∧ (y - a * Real.cos beta) ^ 2
      = b ^ 2 + a ^ 2 * Real.cos beta ^ 2 - a ^ 2 := by
    intro y hy
    obtain ⟨hy0, hyeq, -⟩ := hsound.2.2.2 y hy
    exact ⟨hy0, by linear_combination hyeq⟩
  have hbranch : ∀ y : ℝ, 0 < y →
      (y - a * Real.cos beta) ^ 2 = b ^ 2 + a ^ 2 * Real.cos beta ^ 2 - a ^ 2 →
      (expectOk (law_of_cosines.alpha_from_abc a b y)).isSome = true
      ∧ (expectOk (law_of_cosines.gamma_from_abc a b y)).isSome = true := by
    intro y hy hyeq
    obtain ⟨t1, t2, t3⟩ :=
      tri_of_root b a y beta h.hb h.ha hy h.hβ0 h.hβπ (by linear_combination hyeq)
    constructor
    · rw [alpha_from_abc_isOk a b y h.ha h.hb hy (by linarith) (by linarith) (by linarith)]
      rfl
    · rw [gamma_from_abc_isOk a b y h.ha h.hb hy (by linarith) (by linarith) (by linarith)]
      rfl
  obtain ⟨q₁, hq₁, hq₁mem⟩ := chain_hits p
    (fun y => expectOk (law_of_cosines.alpha_from_abc a b y)) c alpha hmem
    ((hbranch p.1 hp1_pos hp1_eq).1)
    (fun y hy => (hbranch y (hf2 y hy).1 (hf2 y hy).2).1)
    (by show expectOk (law_of_cosines.alpha_from_abc a b c) = some alpha
        rw [h.alpha_rec]; rfl)
  obtain ⟨q₂, hq₂, hq₂mem⟩ := chain_hits p
    (fun y => expectOk (law_of_cosines.gamma_from_abc a b y)) c gamma hmem
    ((hbranch p.1 hp1_pos hp1_eq).2)
    (fun y hy => (hbranch y (hf2 y hy).1 (hf2 y hy).2).2)
    (by show expectOk (law_of_cosines.gamma_from_abc a b c) = some gamma
        rw [h.gamma_rec]; rfl)
  refine ⟨h.abβ_new, rfl, rfl, rfl, ⟨p, hlc, hmem⟩, ⟨q₁, ?_, hq₁mem⟩, ⟨q₂, ?_, hq₂mem⟩⟩
  · (delta AbstractTriangle_abβ.angle_alpha; simp only [hlc, Option.some_bind])
    exact hq₁
  · (delta AbstractTriangle_abβ.angle_gamma; simp only [hlc, Option.some_bind])
    exact hq₂

lemma C6aux_bcβ (h : TriCtx a b c alpha beta gamma) :
    AbstractTriangle_bcβ.new b c beta = .ok ⟨b, c, beta⟩
    ∧ AbstractTriangle_bcβ.length_b ⟨b, c, beta⟩ = b
    ∧ AbstractTriangle_bcβ.length_c ⟨b, c, beta⟩ = c
    ∧ AbstractTriangle_bcβ.angle_beta ⟨b, c, beta⟩ = beta
    ∧ (∃ p, AbstractTriangle_bcβ.length_a ⟨b, c, beta⟩ = some p
        ∧ (p.1 = a ∨ p.2 = some a))
    ∧ (∃ p, AbstractTriangle_bcβ.angle_alpha ⟨b, c, beta⟩ = some p
        ∧ (p.1 = alpha ∨ p.2 = some alpha))
    ∧ (∃ p, AbstractTriangle_bcβ.angle_gamma ⟨b, c, beta⟩ = some p
        ∧ (p.1 = gamma ∨ p.2 = some gamma)) := by
  have hs_eq : b ^ 2 + c ^ 2 * Real.cos beta ^ 2 - c ^ 2
      = (a - c * Real.cos beta) ^ 2 := by
    linear_combination h.cos_eq_b
  obtain ⟨p, hp, hmem⟩ :=
    ssa_mem (c * Real.cos beta) a (b ^ 2 + c ^ 2 * Real.cos beta ^ 2 - c ^ 2) h.ha hs_eq
  have hla : AbstractTriangle_bcβ.length_a ⟨b, c, beta⟩ = some p := by
    delta AbstractTriangle_bcβ.length_a law_of_cosines.a_from_bcβ
    rw [hp]
    rfl
  have hsound := law_of_cosines.return_solutions_sound _ _ p hp
  have hp1_pos : 0 < p.1 := hsound.2.1
  have hp1_eq : (p.1 - c * Real.cos beta) ^ 2
      = b ^ 2 + c ^ 2 * Real.cos beta ^ 2 - c ^ 2 := by
    rcases hsound.2.2.1 with h' | h'
    · exact h'
    · linear_combination h'
  have hf2 : ∀ y, p.2 = some y → 0 < y ∧ (y - c * Real.cos beta) ^ 2
      = b ^ 2 + c ^ 2 * Real.cos beta ^ 2 - c ^ 2 := by
    intro y hy
    obtain ⟨hy0, hyeq, -⟩ := hsound.2.2.2 y hy
    exact ⟨hy0, by linear_combination hyeq⟩
  have hbranch : ∀ y : ℝ, 0 < y →
      (y - c * Real.cos beta) ^ 2 = b ^ 2 + c ^ 2 * Real.cos beta ^ 2 - c ^ 2 →
      (expectOk (law_of_cosines.alpha_from_abc y b c)).isSome = true
      ∧ (expectOk (law_of_cosines.gamma_from_abc y b c)).isSome = true := by
    intro y hy hyeq
    obtain ⟨t1, t2, t3⟩ :=
      tri_of_root b c y beta h.hb h.hc hy h.hβ0 h.hβπ (by linear_combination hyeq)
    constructor
    · rw [alpha_from_abc_isOk y b c hy h.hb h.hc (by linarith) (by linarith) (by linarith)]
      rfl
    · rw [gamma_from_abc_isOk y b c hy h.hb h.hc (by linarith) (by linarith) (by linarith)]
      rfl
  obtain ⟨q₁, hq₁, hq₁mem⟩ := chain_hits p
    (fun y => expectOk (law_of_cosines.alpha_from_abc y b c)) a alpha hmem
    ((hbranch p.1 hp1_pos hp1_eq).1)
    (fun y hy => (hbranch y (hf2 y hy).1 (hf2 y hy).2).1)
    (by show expectOk (law_of_cosines.alpha_from_abc a b c) = some alpha
        rw [h.alpha_rec]; rfl)
  obtain ⟨q₂, hq₂, hq₂mem⟩ := chain_hits p
    (fun y => expectOk (law_of_cosines.gamma_from_abc y b c)) a gamma hmem
    ((hbranch p.1 hp1_pos hp1_eq).2)
    (fun y hy => (hbranch y (hf2 y hy).1 (hf2 y hy).2).2)
    (by show expectOk (law_of_cosines.gamma_from_abc a b c) = some gamma
        rw [h.gamma_rec]; rfl)
  refine ⟨h.bcβ_new, rfl, rfl, rfl, ⟨p, hla, hmem⟩, ⟨q₁, ?_, hq₁mem⟩, ⟨q₂, ?_, hq₂mem⟩⟩
  · (delta AbstractTriangle_bcβ.angle_alpha; simp only [hla, Option.some_bind])
    exact hq₁
  · (delta AbstractTriangle_bcβ.angle_gamma; simp only [hla, Option.some_bind])
    exact hq₂

lemma C6aux_acγ (h : TriCtx a b c alpha beta gamma) :
    AbstractTriangle_acγ.new a c gamma = .ok ⟨a, c, gamma⟩
    ∧ AbstractTriangle_acγ.length_a ⟨a, c, gamma⟩ = a
    ∧ AbstractTriangle_acγ.length_c ⟨a, c, gamma⟩ = c
    ∧ AbstractTriangle_acγ.angle_gamma ⟨a, c, gamma⟩ = gamma
    ∧ (∃ p, AbstractTriangle_acγ.length_b ⟨a, c, gamma⟩ = some p
        ∧ (p.1 = b ∨ p.2 = some b))
    ∧ (∃ p, AbstractTriangle_acγ.angle_alpha ⟨a, c, gamma⟩ = some p
        ∧ (p.1 = alpha ∨ p.2 = some alpha))
    ∧ (∃ p, AbstractTriangle_acγ.angle_beta ⟨a, c, gamma⟩ = some p
        ∧ (p.1 = beta ∨ p.2 = some beta)) := by
  have hs_eq : c ^ 2 + a ^ 2 * Real.cos gamma ^ 2 - a ^ 2
      = (b - a * Real.cos gamma) ^ 2 := by
    linear_combination h.cos_eq_c
  obtain ⟨p, hp, hmem⟩ :=
    ssa_mem (a * Real.cos gamma) b (c ^ 2 + a ^ 2 * Real.cos gamma ^ 2 - a ^ 2) h.hb hs_eq
  have hlb : AbstractTriangle_acγ.length_b ⟨a, c, gamma⟩ = some p := by
    delta AbstractTriangle_acγ.length_b law_of_cosines.b_from_acγ
    rw [hp]
    rfl
  have hsound := law_of_cosines.return_solutions_sound _ _ p hp
  have hp1_pos : 0 < p.1 := hsound.2.1
  have hp1_eq : (p.1 - a * Real.cos gamma) ^ 2
      = c ^ 2 + a ^ 2 * Real.cos gamma ^ 2 - a ^ 2 := by
    rcases hsound.2.2.1 with h' | h'
    · exact h'
    · linear_combination h'
  have hf2 : ∀ y, p.2 = some y → 0 < y ∧ (y - a * Real.cos gamma) ^ 2
      = c ^ 2 + a ^ 2 * Real.cos gamma ^ 2 - a ^ 2 := by
    intro y hy
    obtain ⟨hy0, hyeq, -⟩ := hsound.2.2.2 y hy
    exact ⟨hy0, by linear_combination hyeq⟩
  have hbranch : ∀ y : ℝ, 0 < y →
      (y - a * Real.cos gamma) ^ 2 = c ^ 2 + a ^ 2 * Real.cos gamma ^ 2 - a ^ 2 →
      (expectOk (law_of_cosines.alpha_from_abc a y c)).isSome = true
      ∧ (expectOk (law_of_cosines.beta_from_abc a y c)).isSome = true := by
    intro y hy hyeq
    obtain ⟨t1, t2, t3⟩ :=
      tri_of_root c a y gamma h.hc h.ha hy h.hγ0 h.hγπ (by linear_combination hyeq)
    constructor
    · rw [alpha_from_abc_isOk a y c h.ha hy h.hc (by linarith) (by linarith) (by linarith)]
      rfl
    · rw [beta_from_abc_isOk a y c h.ha hy h.hc (by linarith) (by linarith) (by linarith)]
      rfl
  obtain ⟨q₁, hq₁, hq₁mem⟩ := chain_hits p
    (fun y => expectOk (law_of_cosines.alpha_from_abc a y c)) b alpha hmem
    ((hbranch p.1 hp1_pos hp1_eq).1)
    (fun y hy => (hbranch y (hf2 y hy).1 (hf2 y hy).2).1)
    (by show expectOk (law_of_cosines.alpha_from_abc a b c) = some alpha
        rw [h.alpha_rec]; rfl)
  obtain ⟨q₂, hq₂, hq₂mem⟩ := chain_hits p
    (fun y => expectOk (law_of_cosines.beta_from_abc a y c)) b beta hmem
    ((hbranch p.1 hp1_pos hp1_eq).2)
    (fun y hy => (hbranch y (hf2 y hy).1 (hf2 y hy).2).2)
    (by show expectOk (law_of_cosines.beta_from_abc a b c) = some beta
        rw [h.beta_rec]; rfl)
  refine ⟨h.acγ_new, rfl, rfl, rfl, ⟨p, hlb, hmem⟩, ⟨q₁, ?_, hq₁mem⟩, ⟨q₂, ?_, hq₂mem⟩⟩
  · (delta AbstractTriangle_acγ.angle_alpha; simp only [hlb, Option.some_bind])
    exact hq₁
  · (delta AbstractTriangle_acγ.angle_beta; simp only [hlb, Option.some_bind])
    exact hq₂

lemma C6aux_bcγ (h : TriCtx a b c alpha beta gamma) :
    AbstractTriangle_bcγ.new b c gamma = .ok ⟨b, c, gamma⟩
    ∧ AbstractTriangle_bcγ.length_b ⟨b, c, gamma⟩ = b
    ∧ AbstractTriangle_bcγ.length_c ⟨b, c, gamma⟩ = c
    ∧ AbstractTriangle_bcγ.angle_gamma ⟨b, c, gamma⟩ = gamma
    ∧ (∃ p, AbstractTriangle_bcγ.length_a ⟨b, c, gamma⟩ = some p
        ∧ (p.1 = a ∨ p.2 = some a))
    ∧ (∃ p, AbstractTriangle_bcγ.angle_alpha ⟨b, c, gamma⟩ = some p
        ∧ (p.1 = alpha ∨ p.2 = some alpha))
    ∧ (∃ p, AbstractTriangle_bcγ.angle_beta ⟨b, c, gamma⟩ = some p
        ∧ (p.1 = beta ∨ p.2 = some beta)) := by
  have hs_eq : b ^ 2 * Real.cos gamma ^ 2 - b ^ 2 + c ^ 2
      = (a - b * Real.cos gamma) ^ 2 := by
    linear_combination h.cos_eq_c
  obtain ⟨p, hp, hmem⟩ :=
    ssa_mem (b * Real.cos gamma) a (b ^ 2 * Real.cos gamma ^ 2 - b ^ 2 + c ^ 2) h.ha hs_eq
  have hla : AbstractTriangle_bcγ.length_a ⟨b, c, gamma⟩ = some p := by
    delta AbstractTriangle_bcγ.length_a law_of_cosines.a_from_bcγ
    rw [hp]
    rfl
  have hsound := law_of_cosines.return_solutions_sound _ _ p hp
  have hp1_pos : 0 < p.1 := hsound.2.1
  have hp1_eq : (p.1 - b * Real.cos gamma) ^ 2
      = b ^ 2 * Real.cos gamma ^ 2 - b ^ 2 + c ^ 2 := by
    rcases hsound.2.2.1 with h' | h'
    · exact h'
    · linear_combination h'
  have hf2 : ∀ y, p.2 = some y → 0 < y ∧ (y - b * Real.cos gamma) ^ 2
      = b ^ 2 * Real.cos gamma ^ 2 - b ^ 2 + c ^ 2 := by
    intro y hy
    obtain ⟨hy0, hyeq, -⟩ := hsound.2.2.2 y hy
    exact ⟨hy0, by linear_combination hyeq⟩
  have hbranch : ∀ y : ℝ, 0 < y →
      (y - b * Real.cos gamma) ^ 2 = b ^ 2 * Real.cos gamma ^ 2 - b ^ 2 + c ^ 2 →
      (expectOk (law_of_cosines.alpha_from_abc y b c)).isSome = true
      ∧ (expectOk (law_of_cosines.beta_from_abc y b c)).isSome = true := by
    intro y hy hyeq
    obtain ⟨t1, t2, t3⟩ :=
      tri_of_root c b y gamma h.hc h.hb hy h.hγ0 h.hγπ (by linear_combination hyeq)
    constructor
    · rw [alpha_from_abc_isOk y b c hy h.hb h.hc (by linarith) (by linarith) (by linarith)]
      rfl
    · rw [beta_from_abc_isOk y b c hy h.hb h.hc (by linarith) (by linarith) (by linarith)]
      rfl
  obtain ⟨q₁, hq₁, hq₁mem⟩ := chain_hits p
    (fun y => expectOk (law_of_cosines.alpha_from_abc y b c)) a alpha hmem
    ((hbranch p.1 hp1_pos hp1_eq).1)
    (fun y hy => (hbranch y (hf2 y hy).1 (hf2 y hy).2).1)
    (by show expectOk (law_of_cosines.alpha_from_abc a b c) = some alpha
        rw [h.alpha_rec]; rfl)
  obtain ⟨q₂, hq₂, hq₂mem⟩ := chain_hits p
    (fun y => expectOk (law_of_cosines.beta_from_abc y b c)) a beta hmem
    ((hbranch p.1 hp1_pos hp1_eq).2)
    (fun y hy => (hbranch y (hf2 y hy).1 (hf2 y hy).2).2)
    (by show expectOk (law_of_cosines.beta_from_abc a b c) = some beta
        rw [h.beta_rec]; rfl)
  refine ⟨h.bcγ_new, rfl, rfl, rfl, ⟨p, hla, hmem⟩, ⟨q₁, ?_, hq₁mem⟩, ⟨q₂, ?_, hq₂mem⟩⟩
  · (delta AbstractTriangle_bcγ.angle_alpha; simp only [hla, Option.some_bind])
    exact hq₁
  · (delta AbstractTriangle_bcγ.angle_beta; simp only [hla, Option.some_bind])
    exact hq₂

end TriCtx

lemma arccos_lt_pi_of_neg_one_lt (x : ℝ) (h1 : -1 < x) (h2 : x ≤ 1) :
    Real.arccos x < Real.pi := by
  have h := Real.strictAntiOn_arccos (Set.mem_Icc.mpr ⟨le_refl (-1 : ℝ), by norm_num⟩)
    (Set.mem_Icc.mpr ⟨h1.le, h2⟩) h1
  rwa [Real.arccos_neg_one] at h

/-- **C6** Round-trip across variants: for every valid triangle with sides
`(a, b, c)` and corresponding angles `(α, β, γ)` satisfying the law of
cosines, constructing each of the variants (`abc`, `abα`, `acα`, `bcα`,
`abβ`, `acβ`, `bcβ`, `abγ`, `acγ`, `bcγ`, `aαβ`, `bαβ`, `cαβ`, `aαγ`, `bαγ`,
`cαγ`, `aβγ`, `bβγ`, `cβγ`) from the correct subset of its measurements
succeeds, and querying the length/angle accessors reproduces the remaining
measurements exactly over the exact real scalar: single-valued accessors
return the original measurement, and for every dual-valued accessor one
branch of the returned pair equals the original measurement. -/
theorem C6_round_trip (a b c alpha beta gamma : ℝ)
    (ha : 0 < a) (hb : 0 < b) (hc : 0 < c)
    (hα0 : 0 < alpha) (hαπ : alpha < Real.pi)
    (hβ0 : 0 < beta) (hβπ : beta < Real.pi)
    (hγ0 : 0 < gamma) (hγπ : gamma < Real.pi)
    (hcosα : Real.cos alpha = (b ^ 2 + c ^ 2 - a ^ 2) / (2 * b * c))
    (hcosβ : Real.cos beta = (a ^ 2 + c ^ 2 - b ^ 2) / (2 * a * c))
    (hcosγ : Real.cos gamma = (a ^ 2 + b ^ 2 - c ^ 2) / (2 * a * b)) :
    (AbstractTriangle_abc.new a b c = .ok ⟨a, b, c⟩
      ∧ AbstractTriangle_abc.length_a ⟨a, b, c⟩ = a
      ∧ AbstractTriangle_abc.length_b ⟨a, b, c⟩ = b
      ∧ AbstractTriangle_abc.length_c ⟨a, b, c⟩ = c
      ∧ AbstractTriangle_abc.angle_alpha ⟨a, b, c⟩ = some alpha
      ∧ AbstractTriangle_abc.angle_beta ⟨a, b, c⟩ = some beta
      ∧ AbstractTriangle_abc.angle_gamma ⟨a, b, c⟩ = some gamma)
    ∧ (AbstractTriangle_bcα.new b c alpha = .ok ⟨b, c, alpha⟩
      ∧ AbstractTriangle_bcα.length_b ⟨b, c, alpha⟩ = b
      ∧ AbstractTriangle_bcα.length_c ⟨b, c, alpha⟩ = c
      ∧ AbstractTriangle_bcα.angle_alpha ⟨b, c, alpha⟩ = alpha
      ∧ AbstractTriangle_bcα.length_a ⟨b, c, alpha⟩ = some a
      ∧ AbstractTriangle_bcα.angle_beta ⟨b, c, alpha⟩ = some beta
      ∧ AbstractTriangle_bcα.angle_gamma ⟨b, c, alpha⟩ = some gamma)
    ∧ (AbstractTriangle_acβ.new a c beta = .ok ⟨a, c, beta⟩
      ∧ AbstractTriangle_acβ.length_a ⟨a, c, beta⟩ = a
      ∧ AbstractTriangle_acβ.length_c ⟨a, c, beta⟩ = c
      ∧ AbstractTriangle_acβ.angle_beta ⟨a, c, beta⟩ = beta
      ∧ AbstractTriangle_acβ.length_b ⟨a, c, beta⟩ = some b
      ∧ AbstractTriangle_acβ.angle_alpha ⟨a, c, beta⟩ = some alpha
      ∧ AbstractTriangle_acβ.angle_gamma ⟨a, c, beta⟩ = some gamma)
    ∧ (AbstractTriangle_abγ.new a b gamma = .ok ⟨a, b, gamma⟩
      ∧ AbstractTriangle_abγ.length_a ⟨a, b, gamma⟩ = a
      ∧ AbstractTriangle_abγ.length_b ⟨a, b, gamma⟩ = b
      ∧ AbstractTriangle_abγ.angle_gamma ⟨a, b, gamma⟩ = gamma
      ∧ AbstractTriangle_abγ.length_c ⟨a, b, gamma⟩ = some c
      ∧ AbstractTriangle_abγ.angle_alpha ⟨a, b, gamma⟩ = some alpha
      ∧ AbstractTriangle_abγ.angle_beta ⟨a, b, gamma⟩ = some beta)
    ∧ (AbstractTriangle_abα.new a b alpha = .ok ⟨a, b, alpha⟩
      ∧ AbstractTriangle_abα.length_a ⟨a, b, alpha⟩ = a
      ∧ AbstractTriangle_abα.length_b ⟨a, b, alpha⟩ = b
      ∧ AbstractTriangle_abα.angle_alpha ⟨a, b, alpha⟩ = alpha
      ∧ (∃ p, AbstractTriangle_abα.length_c ⟨a, b, alpha⟩ = some p
          ∧ (p.1 = c ∨ p.2 = some c))
      ∧ (∃ p, AbstractTriangle_abα.angle_beta ⟨a, b, alpha⟩ = some p
          ∧ (p.1 = beta ∨ p.2 = some beta))
      ∧ (∃ p, AbstractTriangle_abα.angle_gamma ⟨a, b, alpha⟩ = some p
          ∧ (p.1 = gamma ∨ p.2 = some gamma)))
    ∧ (AbstractTriangle_acα.new a c alpha = .ok ⟨a, c, alpha⟩
      ∧ AbstractTriangle_acα.length_a ⟨a, c, alpha⟩ = a
      ∧ AbstractTriangle_acα.length_c ⟨a, c, alpha⟩ = c
      ∧ AbstractTriangle_acα.angle_alpha ⟨a, c, alpha⟩ = alpha
      ∧ (∃ p, AbstractTriangle_acα.length_b ⟨a, c, alpha⟩ = some p
          ∧ (p.1 = b ∨ p.2 = some b))
      ∧ (∃ p, AbstractTriangle_acα.angle_beta ⟨a, c, alpha⟩ = some p
          ∧ (p.1 = beta ∨ p.2 = some beta))
      ∧ (∃ p, AbstractTriangle_acα.angle_gamma ⟨a, c, alpha⟩ = some p
          ∧ (p.1 = gamma ∨ p.2 = some gamma)))
    ∧ (AbstractTriangle_abβ.new a b beta = .ok ⟨a, b, beta⟩
      ∧ AbstractTriangle_abβ.length_a ⟨a, b, beta⟩ = a
      ∧ AbstractTriangle_abβ.length_b ⟨a, b, beta⟩ = b
      ∧ AbstractTriangle_abβ.angle_beta ⟨a, b, beta⟩ = beta
      ∧ (∃ p, AbstractTriangle_abβ.length_c ⟨a, b, beta⟩ = some p
          ∧ (p.1 = c ∨ p.2 = some c))
      ∧ (∃ p, AbstractTriangle_abβ.angle_alpha ⟨a, b, beta⟩ = some p
          ∧ (p.1 = alpha ∨ p.2 = some alpha))
      ∧ (∃ p, AbstractTriangle_abβ.angle_gamma ⟨a, b, beta⟩ = some p
          ∧ (p.1 = gamma ∨ p.2 = some gamma)))
    ∧ (AbstractTriangle_bcβ.new b c beta = .ok ⟨b, c, beta⟩
      ∧ AbstractTriangle_bcβ.length_b ⟨b, c, beta⟩ = b
      ∧ AbstractTriangle_bcβ.length_c ⟨b, c, beta⟩ = c
      ∧ AbstractTriangle_bcβ.angle_beta ⟨b, c, beta⟩ = beta
      ∧ (∃ p, AbstractTriangle_bcβ.length_a ⟨b, c, beta⟩ = some p
          ∧ (p.1 = a ∨ p.2 = some a))
      ∧ (∃ p, AbstractTriangle_bcβ.angle_alpha ⟨b, c, beta⟩ = some p
          ∧ (p.1 = alpha ∨ p.2 = some alpha))
      ∧ (∃ p, AbstractTriangle_bcβ.angle_gamma ⟨b, c, beta⟩ = some p
          ∧ (p.1 = gamma ∨ p.2 = some gamma)))
    ∧ (AbstractTriangle_acγ.new a c gamma = .ok ⟨a, c, gamma⟩
      ∧ AbstractTriangle_acγ.length_a ⟨a, c, gamma⟩ = a
      ∧ AbstractTriangle_acγ.length_c ⟨a, c, gamma⟩ = c
      ∧ AbstractTriangle_acγ.angle_gamma ⟨a, c, gamma⟩ = gamma
      ∧ (∃ p, AbstractTriangle_acγ.length_b ⟨a, c, gamma⟩ = some p
          ∧ (p.1 = b ∨ p.2 = some b))
      ∧ (∃ p, AbstractTriangle_acγ.angle_alpha ⟨a, c, gamma⟩ = some p
          ∧ (p.1 = alpha ∨ p.2 = some alpha))
      ∧ (∃ p, AbstractTriangle_acγ.angle_beta ⟨a, c, gamma⟩ = some p
          ∧ (p.1 = beta ∨ p.2 = some beta)))
    ∧ (AbstractTriangle_bcγ.new b c gamma = .ok ⟨b, c, gamma⟩
      ∧ AbstractTriangle_bcγ.length_b ⟨b, c, gamma⟩ = b
      ∧ AbstractTriangle_bcγ.length_c ⟨b, c, gamma⟩ = c
      ∧ AbstractTriangle_bcγ.angle_gamma ⟨b, c, gamma⟩ = gamma
      ∧ (∃ p, AbstractTriangle_bcγ.length_a ⟨b, c, gamma⟩ = some p
          ∧ (p.1 = a ∨ p.2 = some a))
      ∧ (∃ p, AbstractTriangle_bcγ.angle_alpha ⟨b, c, gamma⟩ = some p
          ∧ (p.1 = alpha ∨ p.2 = some alpha))
      ∧ (∃ p, AbstractTriangle_bcγ.angle_beta ⟨b, c, gamma⟩ = some p
          ∧ (p.1 = beta ∨ p.2 = some beta)))
    ∧ (AbstractTriangle_aαβ.new a alpha beta = .ok ⟨a, alpha, beta⟩
      ∧ AbstractTriangle_aαβ.length_a ⟨a, alpha, beta⟩ = a
      ∧ AbstractTriangle_aαβ.angle_alpha ⟨a, alpha, beta⟩ = alpha
      ∧ AbstractTriangle_aαβ.angle_beta ⟨a, alpha, beta⟩ = beta
      ∧ AbstractTriangle_aαβ.angle_gamma ⟨a, alpha, beta⟩ = gamma
      ∧ AbstractTriangle_aαβ.length_b ⟨a, alpha, beta⟩ = some b
      ∧ AbstractTriangle_aαβ.length_c ⟨a, alpha, beta⟩ = some c)
    ∧ (AbstractTriangle_bαβ.new b alpha beta = .ok ⟨b, alpha, beta⟩
      ∧ AbstractTriangle_bαβ.length_b ⟨b, alpha, beta⟩ = b
      ∧ AbstractTriangle_bαβ.angle_alpha ⟨b, alpha, beta⟩ = alpha
      ∧ AbstractTriangle_bαβ.angle_beta ⟨b, alpha, beta⟩ = beta
      ∧ AbstractTriangle_bαβ.angle_gamma ⟨b, alpha, beta⟩ = gamma
      ∧ AbstractTriangle_bαβ.length_a ⟨b, alpha, beta⟩ = some a
      ∧ AbstractTriangle_bαβ.length_c ⟨b, alpha, beta⟩ = some c)
    ∧ (AbstractTriangle_cαβ.new c alpha beta = .ok ⟨c, alpha, beta⟩
      ∧ AbstractTriangle_cαβ.length_c ⟨c, alpha, beta⟩ = c
      ∧ AbstractTriangle_cαβ.angle_alpha ⟨c, alpha, beta⟩ = alpha
      ∧ AbstractTriangle_cαβ.angle_beta ⟨c, alpha, beta⟩ = beta
      ∧ AbstractTriangle_cαβ.angle_gamma ⟨c, alpha, beta⟩ = gamma
      ∧ AbstractTriangle_cαβ.length_a ⟨c, alpha, beta⟩ = some a
      ∧ AbstractTriangle_cαβ.length_b ⟨c, alpha, beta⟩ = some b)
    ∧ (AbstractTriangle_aαγ.new a alpha gamma = .ok ⟨a, alpha, gamma⟩
      ∧ AbstractTriangle_aαγ.length_a ⟨a, alpha, gamma⟩ = a
      ∧ AbstractTriangle_aαγ.angle_alpha ⟨a, alpha, gamma⟩ = alpha
      ∧ AbstractTriangle_aαγ.angle_beta ⟨a, alpha, gamma⟩ = beta
      ∧ AbstractTriangle_aαγ.angle_gamma ⟨a, alpha, gamma⟩ = gamma
      ∧ AbstractTriangle_aαγ.length_b ⟨a, alpha, gamma⟩ = some b
      ∧ AbstractTriangle_aαγ.length_c ⟨a, alpha, gamma⟩ = some c)
    ∧ (AbstractTriangle_bαγ.new b alpha gamma = .ok ⟨b, alpha, gamma⟩
      ∧ AbstractTriangle_bαγ.length_b ⟨b, alpha, gamma⟩ = b
      ∧ AbstractTriangle_bαγ.angle_alpha ⟨b, alpha, gamma⟩ = alpha
      ∧ AbstractTriangle_bαγ.angle_beta ⟨b, alpha, gamma⟩ = beta
      ∧ AbstractTriangle_bαγ.angle_gamma ⟨b, alpha, gamma⟩ = gamma
      ∧ AbstractTriangle_bαγ.length_a ⟨b, alpha, gamma⟩ = some a
      ∧ AbstractTriangle_bαγ.length_c ⟨b, alpha, gamma⟩ = some c)
    ∧ (AbstractTriangle_cαγ.new c alpha gamma = .ok ⟨c, alpha, gamma⟩
      ∧ AbstractTriangle_cαγ.length_c ⟨c, alpha, gamma⟩ = c
      ∧ AbstractTriangle_cαγ.angle_alpha ⟨c, alpha, gamma⟩ = alpha
      ∧ AbstractTriangle_cαγ.angle_beta ⟨c, alpha, gamma⟩ = beta
      ∧ AbstractTriangle_cαγ.angle_gamma ⟨c, alpha, gamma⟩ = gamma
      ∧ AbstractTriangle_cαγ.length_a ⟨c, alpha, gamma⟩ = some a
      ∧ AbstractTriangle_cαγ.length_b ⟨c, alpha, gamma⟩ = some b)
    ∧ (AbstractTriangle_aβγ.new a beta gamma = .ok ⟨a, beta, gamma⟩
      ∧ AbstractTriangle_aβγ.length_a ⟨a, beta, gamma⟩ = a
      ∧ AbstractTriangle_aβγ.angle_alpha ⟨a, beta, gamma⟩ = alpha
      ∧ AbstractTriangle_aβγ.angle_beta ⟨a, beta, gamma⟩ = beta
      ∧ AbstractTriangle_aβγ.angle_gamma ⟨a, beta, gamma⟩ = gamma
      ∧ AbstractTriangle_aβγ.length_b ⟨a, beta, gamma⟩ = some b
      ∧ AbstractTriangle_aβγ.length_c ⟨a, beta, gamma⟩ = some c)
    ∧ (AbstractTriangle_bβγ.new b beta gamma = .ok ⟨b, beta, gamma⟩
      ∧ AbstractTriangle_bβγ.length_b ⟨b, beta, gamma⟩ = b
      ∧ AbstractTriangle_bβγ.angle_alpha ⟨b, beta, gamma⟩ = alpha
      ∧ AbstractTriangle_bβγ.angle_beta ⟨b, beta, gamma⟩ = beta
      ∧ AbstractTriangle_bβγ.angle_gamma ⟨b, beta, gamma⟩ = gamma
      ∧ AbstractTriangle_bβγ.length_a ⟨b, beta, gamma⟩ = some a
      ∧ AbstractTriangle_bβγ.length_c ⟨b, beta, gamma⟩ = some c)
    ∧ (AbstractTriangle_cβγ.new c beta gamma = .ok ⟨c, beta, gamma⟩
      ∧ AbstractTriangle_cβγ.length_c ⟨c, beta, gamma⟩ = c
      ∧ AbstractTriangle_cβγ.angle_alpha ⟨c, beta, gamma⟩ = alpha
      ∧ AbstractTriangle_cβγ.angle_beta ⟨c, beta, gamma⟩ = beta
      ∧ AbstractTriangle_cβγ.angle_gamma ⟨c, beta, gamma⟩ = gamma
      ∧ AbstractTriangle_cβγ.length_a ⟨c, beta, gamma⟩ = some a
      ∧ AbstractTriangle_cβγ.length_b ⟨c, beta, gamma⟩ = some b) := by
  have h : TriCtx a b c alpha beta gamma :=
    ⟨ha, hb, hc, hα0, hαπ, hβ0, hβπ, hγ0, hγπ, hcosα, hcosβ, hcosγ⟩
  exact ⟨h.C6aux_abc, h.C6aux_bcα, h.C6aux_acβ, h.C6aux_abγ, h.C6aux_abα,
    h.C6aux_acα, h.C6aux_abβ, h.C6aux_bcβ, h.C6aux_acγ, h.C6aux_bcγ,
    h.C6aux_aαβ, h.C6aux_bαβ, h.C6aux_cαβ, h.C6aux_aαγ, h.C6aux_bαγ,
    h.C6aux_cαγ, h.C6aux_aβγ, h.C6aux_bβγ, h.C6aux_cβγ⟩

/-- Witness for C6: the (9, 10, 17) triangle whose angles are
`arccos (77/85)`, `arccos (15/17)`, `arccos (-(3/5))` satisfies every
hypothesis of the round-trip theorem, and in particular the `abc`
construction succeeds on it. -/
theorem C6_witness :
    (0 : ℝ) < 9 ∧ (0 : ℝ) < 10 ∧ (0 : ℝ) < 17
    ∧ 0 < Real.arccos (77 / 85) ∧ Real.arccos (77 / 85) < Real.pi
    ∧ 0 < Real.arccos (15 / 17) ∧ Real.arccos (15 / 17) < Real.pi
    ∧ 0 < Real.arccos (-(3 / 5)) ∧ Real.arccos (-(3 / 5)) < Real.pi
    ∧ Real.cos (Real.arccos (77 / 85)) = ((10 : ℝ) ^ 2 + 17 ^ 2 - 9 ^ 2) / (2 * 10 * 17)
    ∧ Real.cos (Real.arccos (15 / 17)) = ((9 : ℝ) ^ 2 + 17 ^ 2 - 10 ^ 2) / (2 * 9 * 17)
    ∧ Real.cos (Real.arccos (-(3 / 5))) = ((9 : ℝ) ^ 2 + 10 ^ 2 - 17 ^ 2) / (2 * 9 * 10)
    ∧ AbstractTriangle_abc.new 9 10 17 = .ok ⟨9, 10, 17⟩ := by
  have hα0 : 0 < Real.arccos ((77 : ℝ) / 85) := Real.arccos_pos.mpr (by norm_num)
  have hαπ : Real.arccos ((77 : ℝ) / 85) < Real.pi :=
    arccos_lt_pi_of_neg_one_lt _ (by norm_num) (by norm_num)
  have hβ0 : 0 < Real.arccos ((15 : ℝ) / 17) := Real.arccos_pos.mpr (by norm_num)
  have hβπ : Real.arccos ((15 : ℝ) / 17) < Real.pi :=
    arccos_lt_pi_of_neg_one_lt _ (by norm_num) (by norm_num)
  have hγ0 : 0 < Real.arccos (-((3 : ℝ) / 5)) := Real.arccos_pos.mpr (by norm_num)
  have hγπ : Real.arccos (-((3 : ℝ) / 5)) < Real.pi :=
    arccos_lt_pi_of_neg_one_lt _ (by norm_num) (by norm_num)
  have hcα : Real.cos (Real.arccos ((77 : ℝ) / 85))
      = ((10 : ℝ) ^ 2 + 17 ^ 2 - 9 ^ 2) / (2 * 10 * 17) := by
    rw [Real.cos_arccos (by norm_num) (by norm_num)]
    norm_num
  have hcβ : Real.cos (Real.arccos ((15 : ℝ) / 17))
      = ((9 : ℝ) ^ 2 + 17 ^ 2 - 10 ^ 2) / (2 * 9 * 17) := by
    rw [Real.cos_arccos (by norm_num) (by norm_num)]
    norm_num
  have hcγ : Real.cos (Real.arccos (-((3 : ℝ) / 5)))
      = ((9 : ℝ) ^ 2 + 10 ^ 2 - 17 ^ 2) / (2 * 9 * 10) := by
    rw [Real.cos_arccos (by norm_num) (by norm_num)]
    norm_num
  refine ⟨by norm_num, by norm_num, by norm_num, hα0, hαπ, hβ0, hβπ, hγ0, hγπ,
    hcα, hcβ, hcγ, ?_⟩
  exact (C6_round_trip 9 10 17 (Real.arccos (77 / 85)) (Real.arccos (15 / 17))
    (Real.arccos (-(3 / 5))) (by norm_num) (by norm_num) (by norm_num)
    hα0 hαπ hβ0 hβπ hγ0 hγπ hcα hcβ hcγ).1.1

end

end Geo
